import Mathlib

/-! go-slicewindow: the slice window and its bucket rotation.

A shallow embedding of `slicewindow.go` (and of the generator of
`slicewindow_test.go`), followed by theorems about it.

Conventions of the embedding.

* `uint64` values are natural numbers below `2 ^ 64`; `int` values are integers
  in `[-2 ^ 63, 2 ^ 63)` (the 64-bit targets of Go).  Every operation of the
  source that can wrap is written with an explicit reduction (`wrapUint64`,
  `wrapInt`), every conversion with `toUint64` or `toInt`.
* A `*Bucket` is an address (`Option Nat`, `none` being `nil`); the buckets
  themselves live in `Memory.cells`, and `&Bucket{...}` hands out `Memory.next`.
* The generator is an interface value: it has a private state of an arbitrary
  type `G`, its `ResetBucketTo` may write any bucket and answer any pointer.
* The calls the window makes to its collaborators are recorded in
  `Memory.calls`, in order.
* A run-time panic (division by zero, index out of range, `Store` of nil,
  `make` of an over-large slice) is the result `Ret.panic`, or `none` where a
  function has no other outcome to report; the retry loop of
  `currentBucketOfTime` runs on fuel, and `Ret.spinning` is the result of a loop
  that used all of it.
* An `interface{}` payload is an `Option V`: `none` is nil, and all non-nil
  payloads have the one dynamic type `V`.  The content of an `atomic.Value` is an
  `Option V` as well, `none` being the value nothing was stored in.
* The methods of the generator and the deprecation callback return (they are
  functions); a collaborator that panics or loops is outside the embedding.
* `make` in the constructor panics for an array of more than `maxAlloc` bytes,
  the limit of the Go runtime on the 64-bit targets; within that limit, and for
  the buckets, allocation succeeds.
* `currentBucketOfTime` is sequential; the section on two callers cuts its loop
  body in two atomic steps and runs the callers under a schedule.
-/

namespace slicewindow

/-! ## Machine integers -/

/-- Reduction of an integer to the `uint64` range. -/
def wrapUint64 (x : Int) : Nat := (x % 2 ^ 64).toNat

/-- Reduction of an integer to the `int` range (two's complement, 64 bits). -/
def wrapInt (x : Int) : Int := (x + 2 ^ 63) % 2 ^ 64 - 2 ^ 63

/-- The conversion `uint64(x)` of an `int`. -/
def toUint64 (x : Int) : Nat := wrapUint64 x

/-- The conversion `int(x)` of a `uint64`. -/
def toInt (x : Nat) : Int := wrapInt (x : Int)

/-- Subtraction of two `uint64` values, as Go computes it. -/
def subUint64 (a b : Nat) : Nat := wrapUint64 ((a : Int) - (b : Int))

/-- The values an `int` can hold. -/
def IsInt (x : Int) : Prop := -2 ^ 63 ≤ x ∧ x < 2 ^ 63

/-- The values a `uint64` can hold. -/
def IsUint64 (x : Nat) : Prop := x < 2 ^ 64

instance (x : Int) : Decidable (IsInt x) := by unfold IsInt; infer_instance

instance (x : Nat) : Decidable (IsUint64 x) := by unfold IsUint64; infer_instance

/-! ## The runtime -/

/-- The largest number of bytes the Go runtime allocates for one object on the
64-bit targets with 48 bits of heap address (`maxAlloc` of the runtime, on
linux/amd64 and linux/arm64).  A constant of the platform, not of the package. -/
def maxAlloc : Nat := 2 ^ 48

/-- The size of a `*Bucket` in bytes. -/
def ptrSize : Nat := 8

/-- Whether `make([]*Bucket, len)` panics: a negative length, or a slice of more
than `maxAlloc` bytes. -/
def makePanics (len : Int) : Prop :=
  len < 0 ∨ len.toNat * ptrSize > maxAlloc

instance (len : Int) : Decidable (makePanics len) := by
  unfold makePanics; infer_instance

/-! ## Data model -/

/-- The struct `Bucket`: `Value` is the content of the `atomic.Value`, `none`
when nothing has been stored in it. -/
structure Bucket (V : Type) where
  BucketStart : Nat
  Value : Option V

/-- The result of a call of `BucketGenerator.ResetBucketTo`: the generator's
new private state, the buckets as the call left them, and the returned pointer. -/
structure ResetResult (V G : Type) where
  gen : G
  cells : Nat → Bucket V
  ret : Option Nat

/-- The interface `BucketGenerator`, over a private state `G`. -/
structure BucketGenerator (V G : Type) where
  NewEmptyBucket : G → Option V × G
  ResetBucketTo : G → (Nat → Bucket V) → Nat → Nat → ResetResult V G

/-- The type `DeprecatedCallbackFunc`: the callback receives the slice of
bucket pointers and may read and write the buckets. -/
def DeprecatedCallbackFunc (V : Type) : Type :=
  List Nat → (Nat → Bucket V) → (Nat → Bucket V)

/-- Modelled from the spec: the type `mutex` is declared outside the two source
files; the specification (section 5) describes both locks as independent,
non-reentrant, try-only locks. -/
structure mutex where
  locked : Bool
deriving DecidableEq, Repr

/-- Modelled from the spec: `TryLock` is a non-blocking acquire; it answers
whether the lock was taken. -/
def mutex.TryLock (m : mutex) : Bool × mutex :=
  if m.locked then (false, m) else (true, { locked := true })

/-- Modelled from the spec: `Unlock` releases the lock. -/
def mutex.Unlock (_m : mutex) : mutex := { locked := false }

/-- A call the window makes to one of its collaborators. -/
inductive Call where
  | NewEmptyBucket
  | ResetBucketTo (b : Nat) (startTime : Nat)
  | deprecatedFunc (buckets : List Nat)
  | Gosched
deriving DecidableEq, Repr

/-- Everything outside the window struct: the buckets, the allocator, the
generator's private state, the clock, and the record of collaborator calls.
`clock k` is the `k`-th reading of `CurrentTimeMillsWithTicker` (a function of
the package that is not in the two source files; it is a parameter of the
embedding), `ticks` the number of readings taken so far. -/
structure Memory (V G : Type) where
  cells : Nat → Bucket V
  next : Nat
  gen : G
  clock : Nat → Nat
  ticks : Nat
  calls : List Call

/-- The struct `SliceWindow`. -/
structure SliceWindow (V G : Type) where
  sampleCount : Int
  intervalInMs : Int
  windowSizeInMs : Int
  generator : BucketGenerator V G
  array : List (Option Nat)
  deprecatedFunc : Option (DeprecatedCallbackFunc V)
  updateLock : mutex
  deprecatedLock : mutex

/-- The errors the package builds with `fmt.Errorf`. -/
inductive Error where
  | currentTimeLessThanZero
  | behind (bucketStart : Nat) (oldBucketStart : Nat)
  | invalidParameters (intervalInMs : Int) (sampleCount : Int)
  | generatorIsNil
deriving DecidableEq, Repr

/-- What a call of `currentBucketOfTime` ends with: `ok b` is `return b, nil`,
`error e` is `return nil, e`. -/
inductive Ret where
  | ok (b : Option Nat)
  | error (e : Error)
  | panic
  | spinning
deriving DecidableEq, Repr

/-- The result of a call together with the state it leaves. -/
structure Outcome (V G : Type) where
  ret : Ret
  sw : SliceWindow V G
  mem : Memory V G

/-- Reading of the clock: the value is a `uint64`. -/
def CurrentTimeMillsWithTicker {V G : Type} (mem : Memory V G) : Nat × Memory V G :=
  (mem.clock mem.ticks % 2 ^ 64, { mem with ticks := mem.ticks + 1 })

/-! ## The operations of `slicewindow.go` -/

/-- `SliceWindow.calculateTimeIdx`; `none` is the panic of a division by zero.
The remainder of two `int`s truncates towards zero. -/
def calculateTimeIdx {V G : Type} (sw : SliceWindow V G) (now : Nat) : Option Int :=
  if toUint64 sw.intervalInMs = 0 then none
  else
    let timeId := now / toUint64 sw.intervalInMs
    if sw.sampleCount = 0 then none
    else some (Int.tmod (toInt timeId) sw.sampleCount)

/-- `SliceWindow.isBucketDeprecated`. -/
def isBucketDeprecated {V G : Type} (sw : SliceWindow V G) (cells : Nat → Bucket V)
    (now : Nat) (b : Nat) : Bool :=
  let bucketStart := (cells b).BucketStart
  decide (subUint64 now bucketStart > toUint64 (wrapInt (sw.windowSizeInMs + sw.intervalInMs)))

/-- The loop of `SliceWindow.valuesWithTime`: `k` iterations are left, `i` is
the loop variable; `none` is the panic of an index out of range. -/
def valuesLoop {V G : Type} (sw : SliceWindow V G) (cells : Nat → Bucket V) (now : Nat) :
    Nat → Nat → List Nat → Option (List Nat)
  | 0, _, ret => some ret
  | k + 1, i, ret =>
    match sw.array[i]? with
    | none => none
    | some none => valuesLoop sw cells now k (i + 1) ret
    | some (some b) =>
      if isBucketDeprecated sw cells now b then valuesLoop sw cells now k (i + 1) ret
      else valuesLoop sw cells now k (i + 1) (ret ++ [b])

/-- `SliceWindow.valuesWithTime`; `none` is a panic (`make` with a negative
capacity, or an index out of range).  The capacity asked for is `sw.sampleCount`,
the length that `make` has granted for `sw.array` in the constructor. -/
def valuesWithTime {V G : Type} (sw : SliceWindow V G) (cells : Nat → Bucket V)
    (now : Nat) : Option (List Nat) :=
  if now ≤ 0 then some []
  else if sw.sampleCount < 0 then none
  else valuesLoop sw cells now sw.sampleCount.toNat 0 []

/-- `SliceWindow.Values`. -/
def Values {V G : Type} (sw : SliceWindow V G) (mem : Memory V G) :
    Option (List Nat) × Memory V G :=
  let t := CurrentTimeMillsWithTicker mem
  (valuesWithTime sw t.2.cells t.1, t.2)

/-- `SliceWindow.callDeprecatedCallbackFunc`; `none` is a panic. -/
def callDeprecatedCallbackFunc {V G : Type} (sw : SliceWindow V G) (mem : Memory V G) :
    Option (SliceWindow V G × Memory V G) :=
  match sw.deprecatedFunc with
  | none => some (sw, mem)
  | some f =>
    match sw.deprecatedLock.TryLock with
    | (false, l) => some ({ sw with deprecatedLock := l }, mem)
    | (true, l) =>
      match Values { sw with deprecatedLock := l } mem with
      | (none, _) => none
      | (some values, mem1) =>
        some ({ sw with deprecatedLock := l.Unlock },
              { mem1 with cells := f values mem1.cells,
                          calls := mem1.calls ++ [Call.deprecatedFunc values] })

/-- The `for` loop of `SliceWindow.currentBucketOfTime`, one inspection of the
slot per unit of fuel.  On an empty slot the new bucket is allocated with an
empty `Value`, the generator is asked for the payload, and `Value.Store` panics
when the payload is nil (nothing is stored in the slot then). -/
def inspect {V G : Type} (idx : Int) (bucketStart : Nat) :
    Nat → SliceWindow V G → Memory V G → Outcome V G
  | 0, sw, mem => ⟨Ret.spinning, sw, mem⟩
  | fuel + 1, sw, mem =>
    if idx < 0 then ⟨Ret.panic, sw, mem⟩
    else
      match sw.array[idx.toNat]? with
      | none => ⟨Ret.panic, sw, mem⟩
      | some none =>
        let n := mem.next
        let v := sw.generator.NewEmptyBucket mem.gen
        match v.1 with
        | none =>
          ⟨Ret.panic, sw,
           { mem with cells := Function.update mem.cells n ⟨bucketStart, none⟩,
                      next := n + 1,
                      gen := v.2,
                      calls := mem.calls ++ [Call.NewEmptyBucket] }⟩
        | some x =>
          ⟨Ret.ok (some n),
           { sw with array := sw.array.set idx.toNat (some n) },
           { mem with cells := Function.update mem.cells n ⟨bucketStart, some x⟩,
                      next := n + 1,
                      gen := v.2,
                      calls := mem.calls ++ [Call.NewEmptyBucket] }⟩
      | some (some old) =>
        let oldStart := (mem.cells old).BucketStart
        if bucketStart = oldStart then ⟨Ret.ok (some old), sw, mem⟩
        else if bucketStart > oldStart then
          match callDeprecatedCallbackFunc sw mem with
          | none => ⟨Ret.panic, sw, mem⟩
          | some (sw1, mem1) =>
            match sw1.updateLock.TryLock with
            | (true, l) =>
              let r := sw1.generator.ResetBucketTo mem1.gen mem1.cells old bucketStart
              ⟨Ret.ok r.ret,
               { sw1 with updateLock := l.Unlock },
               { mem1 with cells := r.cells,
                           gen := r.gen,
                           calls := mem1.calls ++ [Call.ResetBucketTo old bucketStart] }⟩
            | (false, l) =>
              inspect idx bucketStart fuel { sw1 with updateLock := l }
                { mem1 with calls := mem1.calls ++ [Call.Gosched] }
        else ⟨Ret.error (Error.behind bucketStart oldStart), sw, mem⟩

/-- `SliceWindow.currentBucketOfTime`, with the fuel of its retry loop. -/
def currentBucketOfTime {V G : Type} (fuel : Nat) (sw : SliceWindow V G) (mem : Memory V G)
    (now : Nat) : Outcome V G :=
  if now ≤ 0 then ⟨Ret.error Error.currentTimeLessThanZero, sw, mem⟩
  else
    match calculateTimeIdx sw now with
    | none => ⟨Ret.panic, sw, mem⟩
    | some idx =>
      let bucketStart := now - now % toUint64 sw.intervalInMs
      inspect idx bucketStart fuel sw mem

/-- `SliceWindow.CurrentBucket`. -/
def CurrentBucket {V G : Type} (fuel : Nat) (sw : SliceWindow V G) (mem : Memory V G) :
    Outcome V G :=
  let t := CurrentTimeMillsWithTicker mem
  currentBucketOfTime fuel sw t.2 t.1

/-- `SliceWindow.SetDeprecatedFunc`. -/
def SetDeprecatedFunc {V G : Type} (sw : SliceWindow V G)
    (deprecatedFunc : Option (DeprecatedCallbackFunc V)) : SliceWindow V G :=
  { sw with deprecatedFunc := deprecatedFunc }

/-- `NewSliceWindow`; the generator argument is an interface value, `none`
being `nil`.  The result `none` is the panic of `make([]*Bucket, sampleCount)`. -/
def NewSliceWindow {V G : Type} (sampleCount intervalInMs : Int)
    (generator : Option (BucketGenerator V G)) : Option (Except Error (SliceWindow V G)) :=
  if sampleCount ≤ 0 ∨ intervalInMs ≤ 0 then
    some (Except.error (Error.invalidParameters intervalInMs sampleCount))
  else
    match generator with
    | none => some (Except.error Error.generatorIsNil)
    | some g =>
      if makePanics sampleCount then none
      else
        some (Except.ok
          { sampleCount := sampleCount
            intervalInMs := intervalInMs
            generator := g
            windowSizeInMs := wrapInt (sampleCount * intervalInMs)
            array := List.replicate sampleCount.toNat none
            deprecatedFunc := none
            updateLock := { locked := false }
            deprecatedLock := { locked := false } })

/-! ## The generator of `slicewindow_test.go` -/

/-- `MockGenerator.NewEmptyBucket`: the payload is the integer `0`. -/
def MockGenerator.NewEmptyBucket (g : Unit) : Option Int × Unit := (some 0, g)

/-- `MockGenerator.ResetBucketTo`: store a new empty payload (the integer `0`,
not nil, so that `Store` does not panic), set the start, return the bucket. -/
def MockGenerator.ResetBucketTo (g : Unit) (cells : Nat → Bucket Int) (bw : Nat)
    (startTime : Nat) : ResetResult Int Unit :=
  let v := MockGenerator.NewEmptyBucket g
  { gen := v.2
    cells := Function.update cells bw ⟨startTime, v.1⟩
    ret := some bw }

/-- The struct `MockGenerator` as a `BucketGenerator`. -/
def MockGenerator : BucketGenerator Int Unit :=
  { NewEmptyBucket := MockGenerator.NewEmptyBucket
    ResetBucketTo := MockGenerator.ResetBucketTo }

/-- The callback `Deprecated` of `slicewindow_test.go`: it prints the buckets
and writes none. -/
def Deprecated : DeprecatedCallbackFunc Int := fun _ cells => cells

/-! ## Vocabulary of the statements -/

/-- The configuration of a window that `NewSliceWindow` accepts: machine
integers in the three `int` fields, `sampleCount` and `intervalInMs` positive. -/
def Configured {V G : Type} (sw : SliceWindow V G) : Prop :=
  IsInt sw.sampleCount ∧ IsInt sw.intervalInMs ∧ IsInt sw.windowSizeInMs ∧
    0 < sw.sampleCount ∧ 0 < sw.intervalInMs

instance {V G : Type} (sw : SliceWindow V G) : Decidable (Configured sw) := by
  unfold Configured; infer_instance

/-- A configured window whose array has `sampleCount` slots. -/
def WellFormed {V G : Type} (sw : SliceWindow V G) : Prop :=
  Configured sw ∧ sw.array.length = sw.sampleCount.toNat

instance {V G : Type} (sw : SliceWindow V G) : Decidable (WellFormed sw) := by
  unfold WellFormed; infer_instance

/-- The contract of `ResetBucketTo` that the window relies on: the bucket's
`BucketStart` becomes the given start and the same bucket is returned. -/
def SetsStart {V G : Type} (g : BucketGenerator V G) : Prop :=
  ∀ (st : G) (cells : Nat → Bucket V) (b startTime : Nat),
    (g.ResetBucketTo st cells b startTime).ret = some b ∧
      ((g.ResetBucketTo st cells b startTime).cells b).BucketStart = startTime

/-- A generator that honours `SetsStart` and leaves the start of every other
bucket alone. -/
def LawAbiding {V G : Type} (g : BucketGenerator V G) : Prop :=
  SetsStart g ∧
    ∀ (st : G) (cells : Nat → Bucket V) (b startTime a : Nat), a ≠ b →
      ((g.ResetBucketTo st cells b startTime).cells a).BucketStart = (cells a).BucketStart

/-- A generator whose `ResetBucketTo` never answers nil. -/
def ReturnsBucket {V G : Type} (g : BucketGenerator V G) : Prop :=
  ∀ (st : G) (cells : Nat → Bucket V) (b startTime : Nat),
    (g.ResetBucketTo st cells b startTime).ret ≠ none

/-- A generator whose `NewEmptyBucket` never answers nil. -/
def GivesPayload {V G : Type} (g : BucketGenerator V G) : Prop :=
  ∀ (st : G), (g.NewEmptyBucket st).1 ≠ none

/-- A total generator that resets as `MockGenerator` does and whose
`NewEmptyBucket` answers nil. -/
def nilPayloadGenerator : BucketGenerator Int Unit :=
  { NewEmptyBucket := fun g => (none, g)
    ResetBucketTo := MockGenerator.ResetBucketTo }

/-- A total generator that stores a new empty payload and returns the bucket as
`MockGenerator` does, and leaves the bucket's `BucketStart` as it was. -/
def keepsStartGenerator : BucketGenerator Int Unit :=
  { NewEmptyBucket := MockGenerator.NewEmptyBucket
    ResetBucketTo := fun g cells bw _ =>
      { gen := (MockGenerator.NewEmptyBucket g).2
        cells := Function.update cells bw
          ⟨(cells bw).BucketStart, (MockGenerator.NewEmptyBucket g).1⟩
        ret := some bw } }

/-- A total generator that resets the bucket as `MockGenerator` does and then
answers nil instead of the bucket. -/
def nilGenerator : BucketGenerator Int Unit :=
  { NewEmptyBucket := MockGenerator.NewEmptyBucket
    ResetBucketTo := fun g cells bw startTime =>
      { MockGenerator.ResetBucketTo g cells bw startTime with ret := none } }

/-- A deprecation callback that leaves the start of every bucket alone. -/
def KeepsStarts {V : Type} (f : DeprecatedCallbackFunc V) : Prop :=
  ∀ (buckets : List Nat) (cells : Nat → Bucket V) (a : Nat),
    (f buckets cells a).BucketStart = (cells a).BucketStart

/-- The occupied slots of a window whose calls so far were at timestamps of
interval start at most `B`: every bucket of the array is allocated, its start is
at most `B`, is a multiple of the interval, and maps to the slot that holds it. -/
def SlotsOk {V G : Type} (sw : SliceWindow V G) (mem : Memory V G) (B : Nat) : Prop :=
  ∀ (j a : Nat), sw.array[j]? = some (some a) →
    a < mem.next ∧ (mem.cells a).BucketStart ≤ B ∧
    sw.intervalInMs.toNat ∣ (mem.cells a).BucketStart ∧
    ((mem.cells a).BucketStart / sw.intervalInMs.toNat) % sw.sampleCount.toNat = j

/-- The state of a window between two calls of a sequential, time-ordered use:
well formed, update lock free, law-abiding generator whose `NewEmptyBucket` is
never nil, a callback (if any) that keeps the bucket starts, and slots as
`SlotsOk` describes. -/
def Steady {V G : Type} (sw : SliceWindow V G) (mem : Memory V G) (B : Nat) : Prop :=
  WellFormed sw ∧ sw.updateLock.locked = false ∧
    (LawAbiding sw.generator ∧ GivesPayload sw.generator) ∧
    (∀ f, sw.deprecatedFunc = some f → KeepsStarts f) ∧ SlotsOk sw mem B

/-- Successive calls of `currentBucketOfTime`, one per timestamp of the list,
each on the state the previous call left; the results are collected in order. -/
def callsOfTimes {V G : Type} (fuel : Nat) :
    List Nat → SliceWindow V G → Memory V G → List Ret × SliceWindow V G × Memory V G
  | [], sw, mem => ([], sw, mem)
  | t :: ts, sw, mem =>
    let o := currentBucketOfTime fuel sw mem t
    let r := callsOfTimes fuel ts o.sw o.mem
    (o.ret :: r.1, r.2)

/-- A memory in which nothing has been allocated or called yet; every cell
reads as a zero bucket and the clock stands at `0`. -/
def blankMemory : Memory Int Unit :=
  { cells := fun _ => ⟨0, none⟩, next := 0, gen := (), clock := fun _ => 0, ticks := 0,
    calls := [] }

/-- The window of `NewSliceWindow(sampleCount, intervalInMs, &MockGenerator{})`
when the parameters are accepted and `make` grants the array (the fields as the
constructor sets them). -/
def mockWindow (sampleCount intervalInMs : Int) : SliceWindow Int Unit :=
  { sampleCount := sampleCount
    intervalInMs := intervalInMs
    generator := MockGenerator
    windowSizeInMs := wrapInt (sampleCount * intervalInMs)
    array := List.replicate sampleCount.toNat none
    deprecatedFunc := none
    updateLock := { locked := false }
    deprecatedLock := { locked := false } }

/-- The window of `NewSliceWindow(5, 1000, g)` for the generator
`keepsStartGenerator`. -/
def keepsStartWindow : SliceWindow Int Unit :=
  { mockWindow 5 1000 with generator := keepsStartGenerator }

/-- The statement `b.Value.Store(v)` of the test, for a payload that is not nil:
the caller writes the payload of the bucket it was handed. -/
def storeValue {V G : Type} (mem : Memory V G) (b : Nat) (v : V) : Memory V G :=
  { mem with cells := Function.update mem.cells b ⟨(mem.cells b).BucketStart, some v⟩ }

/-- Expiry of a bucket as the specification words it, over the integers:
`now - bucketStart > windowSizeInMs + intervalInMs`. -/
def expiredSpec {V G : Type} (sw : SliceWindow V G) (cells : Nat → Bucket V) (now b : Nat) :
    Prop :=
  (now : Int) - ((cells b).BucketStart : Int) > sw.windowSizeInMs + sw.intervalInMs

instance {V G : Type} (sw : SliceWindow V G) (cells : Nat → Bucket V) (now : Nat) :
    DecidablePred (expiredSpec sw cells now) := by
  intro b; unfold expiredSpec; infer_instance

/-- Expiry of a bucket in unsigned 64-bit arithmetic: the difference and the
bound are both taken modulo `2 ^ 64`. -/
def expiredWrapped {V G : Type} (sw : SliceWindow V G) (cells : Nat → Bucket V) (now b : Nat) :
    Prop :=
  ((now : Int) - ((cells b).BucketStart : Int)) % 2 ^ 64
    > (sw.windowSizeInMs + sw.intervalInMs) % 2 ^ 64

instance {V G : Type} (sw : SliceWindow V G) (cells : Nat → Bucket V) (now : Nat) :
    DecidablePred (expiredWrapped sw cells now) := by
  intro b; unfold expiredWrapped; infer_instance

/-- The snapshot as the specification words it: empty when `now <= 0`,
otherwise the buckets of the occupied slots that are not expired, in slot order. -/
def liveBuckets (expired : Nat → Prop) [DecidablePred expired] (array : List (Option Nat))
    (now : Nat) : List Nat :=
  if now ≤ 0 then []
  else array.filterMap (fun slot => slot.bind (fun b => if expired b then none else some b))

/-- The window of the test after a first call at 1: five slots of 1000 ms, the
callback `Deprecated` registered, the bucket of the first interval in slot 0. -/
def testWindow : SliceWindow Int Unit :=
  SetDeprecatedFunc (currentBucketOfTime 1 (mockWindow 5 1000) blankMemory 1).sw (some Deprecated)

/-- The memory that goes with `testWindow`, with the clock at 5000. -/
def testMemory : Memory Int Unit :=
  { (currentBucketOfTime 1 (mockWindow 5 1000) blankMemory 1).mem with clock := fun _ => 5000 }

/-- The arguments of the calls of `ResetBucketTo` in a record of calls, in order. -/
def resetCalls (calls : List Call) : List (Nat × Nat) :=
  calls.filterMap (fun c =>
    match c with
    | Call.ResetBucketTo b startTime => some (b, startTime)
    | _ => none)

/-- The arguments of the invocations of the deprecation callback in a record of
calls, in order. -/
def deprecatedCalls (calls : List Call) : List (List Nat) :=
  calls.filterMap (fun c =>
    match c with
    | Call.deprecatedFunc buckets => some buckets
    | _ => none)

/-- The slot invariant of the specification (section 3): the array has
`sampleCount` slots, and every occupied slot `j` holds a bucket whose start is a
multiple of the interval and whose interval number is `j` modulo `sampleCount`. -/
def SlotInvariant {V G : Type} (sw : SliceWindow V G) (cells : Nat → Bucket V) : Prop :=
  (sw.array.length : Int) = sw.sampleCount ∧
  ∀ (j a : Nat), sw.array[j]? = some (some a) →
    sw.intervalInMs.toNat ∣ (cells a).BucketStart ∧
    ((cells a).BucketStart / sw.intervalInMs.toNat) % sw.sampleCount.toNat = j

/-- Every bucket of the array has been handed out by the allocator. -/
def Allocated {V G : Type} (sw : SliceWindow V G) (mem : Memory V G) : Prop :=
  ∀ (j a : Nat), sw.array[j]? = some (some a) → a < mem.next

/-- The state of a window between two calls of a sequential use, in any order
of timestamps: well formed, update lock free, law-abiding generator whose
`NewEmptyBucket` is never nil, a callback (if any) that keeps the bucket starts,
allocated buckets, and every occupied
slot `j` holding a bucket whose start is a multiple of the interval with
interval number `j` modulo `sampleCount`. -/
def Settled {V G : Type} (sw : SliceWindow V G) (mem : Memory V G) : Prop :=
  WellFormed sw ∧ sw.updateLock.locked = false ∧
    (LawAbiding sw.generator ∧ GivesPayload sw.generator) ∧
    (∀ f, sw.deprecatedFunc = some f → KeepsStarts f) ∧ Allocated sw mem ∧
    ∀ (j a : Nat), sw.array[j]? = some (some a) →
      sw.intervalInMs.toNat ∣ (mem.cells a).BucketStart ∧
      ((mem.cells a).BucketStart / sw.intervalInMs.toNat) % sw.sampleCount.toNat = j

/-! ## Two callers of `currentBucketOfTime` -/

/-- Where a caller stands in the loop of `currentBucketOfTime`: at the top of the
loop body (line 55), past the test `bucketStart > old.BucketStart` of line 63
with the bucket `old` it read, or returned. -/
inductive Pc where
  | top
  | tested (old : Nat)
  | returned (r : Ret)
deriving DecidableEq, Repr

/-- The first part of the loop body (lines 55 to 63, and the branches that
return): read the slot, create the bucket of an empty slot, compare the starts.
A caller whose start is greater than the bucket's goes on to line 64. -/
def inspectSlot {V G : Type} (idx : Int) (bucketStart : Nat) (sw : SliceWindow V G)
    (mem : Memory V G) : Pc × SliceWindow V G × Memory V G :=
  if idx < 0 then (Pc.returned Ret.panic, sw, mem)
  else
    match sw.array[idx.toNat]? with
    | none => (Pc.returned Ret.panic, sw, mem)
    | some none =>
      let n := mem.next
      let v := sw.generator.NewEmptyBucket mem.gen
      match v.1 with
      | none =>
        (Pc.returned Ret.panic, sw,
         { mem with cells := Function.update mem.cells n ⟨bucketStart, none⟩,
                    next := n + 1,
                    gen := v.2,
                    calls := mem.calls ++ [Call.NewEmptyBucket] })
      | some x =>
        (Pc.returned (Ret.ok (some n)),
         { sw with array := sw.array.set idx.toNat (some n) },
         { mem with cells := Function.update mem.cells n ⟨bucketStart, some x⟩,
                    next := n + 1,
                    gen := v.2,
                    calls := mem.calls ++ [Call.NewEmptyBucket] })
    | some (some old) =>
      let oldStart := (mem.cells old).BucketStart
      if bucketStart = oldStart then (Pc.returned (Ret.ok (some old)), sw, mem)
      else if bucketStart > oldStart then (Pc.tested old, sw, mem)
      else (Pc.returned (Ret.error (Error.behind bucketStart oldStart)), sw, mem)

/-- The second part of the loop body (lines 64 to 71), for a caller that read
`old` and passed the test of line 63: notify, try the update lock, then reset
and return, or yield and go back to the top of the loop.  The test of line 63
is not made again. -/
def rotate {V G : Type} (old : Nat) (bucketStart : Nat) (sw : SliceWindow V G)
    (mem : Memory V G) : Pc × SliceWindow V G × Memory V G :=
  match callDeprecatedCallbackFunc sw mem with
  | none => (Pc.returned Ret.panic, sw, mem)
  | some (sw1, mem1) =>
    match sw1.updateLock.TryLock with
    | (true, l) =>
      let r := sw1.generator.ResetBucketTo mem1.gen mem1.cells old bucketStart
      (Pc.returned (Ret.ok r.ret),
       { sw1 with updateLock := l.Unlock },
       { mem1 with cells := r.cells,
                   gen := r.gen,
                   calls := mem1.calls ++ [Call.ResetBucketTo old bucketStart] })
    | (false, l) =>
      (Pc.top, { sw1 with updateLock := l },
       { mem1 with calls := mem1.calls ++ [Call.Gosched] })

/-- One step of a caller, from where it stands. -/
def step {V G : Type} (idx : Int) (bucketStart : Nat) :
    Pc → SliceWindow V G → Memory V G → Pc × SliceWindow V G × Memory V G
  | Pc.top, sw, mem => inspectSlot idx bucketStart sw mem
  | Pc.tested old, sw, mem => rotate old bucketStart sw mem
  | Pc.returned r, sw, mem => (Pc.returned r, sw, mem)

/-- A caller that runs alone: both parts of the loop body, one after the other,
one pass of the loop per unit of fuel. -/
def alone {V G : Type} (idx : Int) (bucketStart : Nat) :
    Nat → SliceWindow V G → Memory V G → Outcome V G
  | 0, sw, mem => ⟨Ret.spinning, sw, mem⟩
  | fuel + 1, sw, mem =>
    match inspectSlot idx bucketStart sw mem with
    | (Pc.returned r, sw1, mem1) => ⟨r, sw1, mem1⟩
    | (Pc.top, sw1, mem1) => alone idx bucketStart fuel sw1 mem1
    | (Pc.tested old, sw1, mem1) =>
      match rotate old bucketStart sw1 mem1 with
      | (Pc.returned r, sw2, mem2) => ⟨r, sw2, mem2⟩
      | (_, sw2, mem2) => alone idx bucketStart fuel sw2 mem2

/-- Two callers inside `currentBucketOfTime` on one window: where each of them
stands, and the state they share. -/
structure Callers (V G : Type) where
  first : Pc
  second : Pc
  sw : SliceWindow V G
  mem : Memory V G

/-- The run of two callers, both with the slot index `idx` and the start
`bucketStart`, under a schedule: `true` lets the first caller take its next
step, `false` the second. -/
def runSchedule {V G : Type} (idx : Int) (bucketStart : Nat) :
    List Bool → Callers V G → Callers V G
  | [], c => c
  | true :: rest, c =>
    let r := step idx bucketStart c.first c.sw c.mem
    runSchedule idx bucketStart rest { c with first := r.1, sw := r.2.1, mem := r.2.2 }
  | false :: rest, c =>
    let r := step idx bucketStart c.second c.sw c.mem
    runSchedule idx bucketStart rest { c with second := r.1, sw := r.2.1, mem := r.2.2 }

/-! ## Machine arithmetic -/

theorem toUint64_eq_toNat {x : Int} (hx : IsInt x) (hpos : 0 ≤ x) : toUint64 x = x.toNat := by
  unfold IsInt at hx
  unfold toUint64 wrapUint64
  have h : x % 2 ^ 64 = x := Int.emod_eq_of_lt hpos (by omega)
  rw [h]

theorem toInt_eq_self {x : Nat} (hx : x < 2 ^ 63) : toInt x = (x : Int) := by
  unfold toInt wrapInt
  have h : ((x : Int) + 2 ^ 63) % 2 ^ 64 = (x : Int) + 2 ^ 63 :=
    Int.emod_eq_of_lt (by omega) (by omega)
  rw [h]; omega

theorem MockGenerator_lawAbiding : LawAbiding MockGenerator := by
  refine ⟨fun st cells b startTime => ⟨rfl, ?_⟩, fun st cells b startTime a hab => ?_⟩
  · simp [MockGenerator, MockGenerator.ResetBucketTo]
  · simp [MockGenerator, MockGenerator.ResetBucketTo, Function.update, hab]

theorem MockGenerator_returnsBucket : ReturnsBucket MockGenerator := by
  intro st cells b startTime
  simp [MockGenerator, MockGenerator.ResetBucketTo]

theorem MockGenerator_givesPayload : GivesPayload MockGenerator := by
  intro st
  simp [MockGenerator, MockGenerator.NewEmptyBucket]

/-! ## Frame of the deprecation call -/

theorem callDeprecatedCallbackFunc_frame {V G : Type} {sw sw1 : SliceWindow V G}
    {mem mem1 : Memory V G} (h : callDeprecatedCallbackFunc sw mem = some (sw1, mem1)) :
    sw1.generator = sw.generator ∧ sw1.array = sw.array ∧
      sw1.sampleCount = sw.sampleCount ∧ sw1.intervalInMs = sw.intervalInMs ∧
      sw1.windowSizeInMs = sw.windowSizeInMs ∧ sw1.deprecatedFunc = sw.deprecatedFunc ∧
      sw1.updateLock = sw.updateLock ∧ mem1.next = mem.next ∧ mem1.gen = mem.gen := by
  unfold callDeprecatedCallbackFunc at h
  split at h
  · simp only [Option.some.injEq, Prod.mk.injEq] at h
    obtain ⟨rfl, rfl⟩ := h
    simp
  · split at h
    · simp only [Option.some.injEq, Prod.mk.injEq] at h
      obtain ⟨rfl, rfl⟩ := h
      simp
    · split at h
      · exact absurd h (by simp)
      · rename_i hv
        simp only [Option.some.injEq, Prod.mk.injEq] at h
        obtain ⟨rfl, rfl⟩ := h
        simp only [Values, CurrentTimeMillsWithTicker, Prod.mk.injEq] at hv
        obtain ⟨-, rfl⟩ := hv
        simp

/-! ## Unfolding of `currentBucketOfTime` -/

theorem currentBucketOfTime_zero {V G : Type} (fuel : Nat) (sw : SliceWindow V G)
    (mem : Memory V G) :
    currentBucketOfTime fuel sw mem 0 = ⟨Ret.error Error.currentTimeLessThanZero, sw, mem⟩ := by
  simp [currentBucketOfTime]

theorem currentBucketOfTime_of_idx {V G : Type} {fuel : Nat} {sw : SliceWindow V G}
    {mem : Memory V G} {now : Nat} {idx : Int} (hnow : 0 < now)
    (hidx : calculateTimeIdx sw now = some idx) :
    currentBucketOfTime fuel sw mem now
      = inspect idx (now - now % toUint64 sw.intervalInMs) fuel sw mem := by
  have hn : ¬ now ≤ 0 := by omega
  simp [currentBucketOfTime, hn, hidx]

theorem currentBucketOfTime_of_idx_none {V G : Type} {fuel : Nat} {sw : SliceWindow V G}
    {mem : Memory V G} {now : Nat} (hnow : 0 < now)
    (hidx : calculateTimeIdx sw now = none) :
    currentBucketOfTime fuel sw mem now = ⟨Ret.panic, sw, mem⟩ := by
  have hn : ¬ now ≤ 0 := by omega
  simp [currentBucketOfTime, hn, hidx]

/-! ## C1: the bucket of the interval containing `now` -/

theorem inspect_ok_start {V G : Type} (idx : Int) (bucketStart : Nat) (fuel : Nat) :
    ∀ (sw : SliceWindow V G) (mem : Memory V G) (p : Option Nat),
      SetsStart sw.generator → (inspect idx bucketStart fuel sw mem).ret = Ret.ok p →
      ∃ b, p = some b ∧
        ((inspect idx bucketStart fuel sw mem).mem.cells b).BucketStart = bucketStart := by
  induction fuel with
  | zero => intro sw mem p _ h; simp [inspect] at h
  | succ fuel ih =>
    intro sw mem p hgen h
    unfold inspect at h ⊢
    split at h
    · simp at h
    · rename_i hidx
      simp only [hidx, if_false]
      split at h
      · simp at h
      · simp only at h
        cases hv : (sw.generator.NewEmptyBucket mem.gen).1 with
        | none => simp [hv] at h
        | some x =>
          simp only [hv, Ret.ok.injEq] at h
          exact ⟨mem.next, h.symm, by simp [hv]⟩
      · rename_i old hslot
        simp only at h ⊢
        split at h
        · rename_i heq
          simp only [Ret.ok.injEq] at h
          exact ⟨old, h.symm, by simp [heq]⟩
        · rename_i hne
          simp only [hne, if_false]
          split at h
          · rename_i hgt
            simp only [hgt, if_true]
            split at h
            · simp at h
            · rename_i sw1 mem1 hcall
              have hfr := callDeprecatedCallbackFunc_frame hcall
              split at h
              · simp only [Ret.ok.injEq] at h
                have hs := hgen mem1.gen mem1.cells old bucketStart
                rw [← hfr.1] at hs
                exact ⟨old, by rw [← h, hs.1], hs.2⟩
              · exact ih _ _ p (by simpa [hfr.1] using hgen) h
          · simp at h

/-- C1: on a configured window with a generator whose `ResetBucketTo` sets the
start and returns the same bucket, a successful `currentBucketOfTime(now)` with
`now > 0` returns a bucket whose `BucketStart` is `now - now mod intervalInMs`,
a multiple of `intervalInMs`, with `BucketStart <= now < BucketStart + intervalInMs`. -/
theorem currentBucketOfTime_returns_interval_of_now {V G : Type} (fuel : Nat)
    (sw : SliceWindow V G) (mem : Memory V G) (now : Nat) (p : Option Nat)
    (hcfg : Configured sw) (hgen : SetsStart sw.generator) (hnow : 0 < now)
    (hok : (currentBucketOfTime fuel sw mem now).ret = Ret.ok p) :
    ∃ b, p = some b ∧
      ((currentBucketOfTime fuel sw mem now).mem.cells b).BucketStart
          = now - now % sw.intervalInMs.toNat ∧
      sw.intervalInMs.toNat ∣ ((currentBucketOfTime fuel sw mem now).mem.cells b).BucketStart ∧
      ((currentBucketOfTime fuel sw mem now).mem.cells b).BucketStart ≤ now ∧
      now < ((currentBucketOfTime fuel sw mem now).mem.cells b).BucketStart
              + sw.intervalInMs.toNat := by
  obtain ⟨-, hI, -, -, hIpos⟩ := hcfg
  have hconv : toUint64 sw.intervalInMs = sw.intervalInMs.toNat :=
    toUint64_eq_toNat hI (le_of_lt hIpos)
  have hpos : 0 < sw.intervalInMs.toNat := by omega
  cases hidx : calculateTimeIdx sw now with
  | none => rw [currentBucketOfTime_of_idx_none hnow hidx] at hok; simp at hok
  | some idx =>
    rw [currentBucketOfTime_of_idx hnow hidx] at hok ⊢
    obtain ⟨b, hb, hstart⟩ := inspect_ok_start idx _ fuel sw mem p hgen hok
    refine ⟨b, hb, ?_⟩
    rw [hstart, hconv]
    have hmod : now % sw.intervalInMs.toNat < sw.intervalInMs.toNat := Nat.mod_lt _ hpos
    have hle : now % sw.intervalInMs.toNat ≤ now := Nat.mod_le _ _
    refine ⟨rfl, Nat.dvd_sub_mod now, by omega, by omega⟩

/-- Witness of C1: the mock window of 5 slots of 1000 ms, at `now = 1500`; the
returned bucket is the one at address 0 and its start is 1000. -/
theorem currentBucketOfTime_returns_interval_of_now_witness :
    (currentBucketOfTime 1 (mockWindow 5 1000) blankMemory 1500).ret = Ret.ok (some 0) ∧
    ((currentBucketOfTime 1 (mockWindow 5 1000) blankMemory 1500).mem.cells 0).BucketStart
        = 1500 - 1500 % 1000 ∧
    1000 ∣ ((currentBucketOfTime 1 (mockWindow 5 1000) blankMemory 1500).mem.cells 0).BucketStart ∧
    ((currentBucketOfTime 1 (mockWindow 5 1000) blankMemory 1500).mem.cells 0).BucketStart
        ≤ 1500 ∧
    1500 < ((currentBucketOfTime 1 (mockWindow 5 1000) blankMemory 1500).mem.cells 0).BucketStart
            + 1000 := by
  obtain ⟨b, hb, h⟩ := currentBucketOfTime_returns_interval_of_now 1 (mockWindow 5 1000)
    blankMemory 1500 (some 0) (by decide) MockGenerator_lawAbiding.1 (by decide) (by decide)
  cases hb
  exact ⟨by decide, h⟩

/-! ## The four cases of one inspection of the slot -/

theorem inspect_empty {V G : Type} {idx : Int} (bucketStart fuel : Nat) {sw : SliceWindow V G}
    (mem : Memory V G) (h0 : 0 ≤ idx) (hslot : sw.array[idx.toNat]? = some none)
    (hv : (sw.generator.NewEmptyBucket mem.gen).1 ≠ none) :
    inspect idx bucketStart (fuel + 1) sw mem
      = ⟨Ret.ok (some mem.next),
         { sw with array := sw.array.set idx.toNat (some mem.next) },
         { mem with cells := Function.update mem.cells mem.next
                              ⟨bucketStart, (sw.generator.NewEmptyBucket mem.gen).1⟩,
                    next := mem.next + 1,
                    gen := (sw.generator.NewEmptyBucket mem.gen).2,
                    calls := mem.calls ++ [Call.NewEmptyBucket] }⟩ := by
  have hneg : ¬ idx < 0 := by omega
  obtain ⟨x, hx⟩ := Option.ne_none_iff_exists.1 hv
  simp [inspect, hneg, hslot, ← hx]

theorem inspect_empty_nil {V G : Type} {idx : Int} (bucketStart fuel : Nat)
    {sw : SliceWindow V G} (mem : Memory V G) (h0 : 0 ≤ idx)
    (hslot : sw.array[idx.toNat]? = some none)
    (hv : (sw.generator.NewEmptyBucket mem.gen).1 = none) :
    inspect idx bucketStart (fuel + 1) sw mem
      = ⟨Ret.panic, sw,
         { mem with cells := Function.update mem.cells mem.next ⟨bucketStart, none⟩,
                    next := mem.next + 1,
                    gen := (sw.generator.NewEmptyBucket mem.gen).2,
                    calls := mem.calls ++ [Call.NewEmptyBucket] }⟩ := by
  have hneg : ¬ idx < 0 := by omega
  simp [inspect, hneg, hslot, hv]

theorem inspect_same {V G : Type} {idx : Int} {bucketStart : Nat} (fuel : Nat)
    {sw : SliceWindow V G} {mem : Memory V G} {old : Nat} (h0 : 0 ≤ idx)
    (hslot : sw.array[idx.toNat]? = some (some old))
    (hstart : bucketStart = (mem.cells old).BucketStart) :
    inspect idx bucketStart (fuel + 1) sw mem = ⟨Ret.ok (some old), sw, mem⟩ := by
  have hneg : ¬ idx < 0 := by omega
  simp [inspect, hneg, hslot, hstart]

theorem inspect_stale {V G : Type} {idx : Int} {bucketStart : Nat} (fuel : Nat)
    {sw : SliceWindow V G} {mem : Memory V G} {old : Nat} (h0 : 0 ≤ idx)
    (hslot : sw.array[idx.toNat]? = some (some old))
    (hstart : bucketStart < (mem.cells old).BucketStart) :
    inspect idx bucketStart (fuel + 1) sw mem
      = ⟨Ret.error (Error.behind bucketStart (mem.cells old).BucketStart), sw, mem⟩ := by
  have hneg : ¬ idx < 0 := by omega
  have hne : ¬ bucketStart = (mem.cells old).BucketStart := by omega
  have hgt : ¬ bucketStart > (mem.cells old).BucketStart := by omega
  simp [inspect, hneg, hslot, hne, hgt]

theorem inspect_rotate {V G : Type} {idx : Int} {bucketStart : Nat} (fuel : Nat)
    {sw sw1 : SliceWindow V G} {mem mem1 : Memory V G} {old : Nat} (h0 : 0 ≤ idx)
    (hslot : sw.array[idx.toNat]? = some (some old))
    (hstart : (mem.cells old).BucketStart < bucketStart)
    (hcall : callDeprecatedCallbackFunc sw mem = some (sw1, mem1))
    (hlock : sw.updateLock.locked = false) :
    inspect idx bucketStart (fuel + 1) sw mem
      = ⟨Ret.ok (sw1.generator.ResetBucketTo mem1.gen mem1.cells old bucketStart).ret,
         { sw1 with updateLock := { locked := false } },
         { mem1 with
             cells := (sw1.generator.ResetBucketTo mem1.gen mem1.cells old bucketStart).cells,
             gen := (sw1.generator.ResetBucketTo mem1.gen mem1.cells old bucketStart).gen,
             calls := mem1.calls ++ [Call.ResetBucketTo old bucketStart] }⟩ := by
  have hneg : ¬ idx < 0 := by omega
  have hne : ¬ bucketStart = (mem.cells old).BucketStart := by omega
  have hl1 : sw1.updateLock.locked = false := by
    rw [(callDeprecatedCallbackFunc_frame hcall).2.2.2.2.2.2.1]; exact hlock
  simp [inspect, hneg, hslot, hne, hstart, hcall, mutex.TryLock, hl1, mutex.Unlock]

/-! ## The slot index when the interval number fits an `int` -/

theorem calculateTimeIdx_of_lt {V G : Type} {sw : SliceWindow V G} {now : Nat}
    (hcfg : Configured sw) (hrange : now / sw.intervalInMs.toNat < 2 ^ 63) :
    calculateTimeIdx sw now
      = some (((now / sw.intervalInMs.toNat) % sw.sampleCount.toNat : Nat) : Int) := by
  obtain ⟨hS, hI, -, hSpos, hIpos⟩ := hcfg
  have hconv : toUint64 sw.intervalInMs = sw.intervalInMs.toNat :=
    toUint64_eq_toNat hI (le_of_lt hIpos)
  have hne : ¬ sw.intervalInMs.toNat = 0 := by omega
  have hsne : ¬ sw.sampleCount = 0 := by omega
  unfold calculateTimeIdx
  simp only [hconv, hne, hsne, if_false]
  rw [toInt_eq_self hrange]
  have hs : sw.sampleCount = ((sw.sampleCount.toNat : Nat) : Int) :=
    (Int.toNat_of_nonneg (le_of_lt hSpos)).symm
  conv_lhs => rw [hs]
  rw [Int.ofNat_tmod]

theorem slot_lt_length {V G : Type} {sw : SliceWindow V G} (hwf : WellFormed sw) (q : Nat) :
    q % sw.sampleCount.toNat < sw.array.length := by
  obtain ⟨⟨-, -, -, hSpos, -⟩, hlen⟩ := hwf
  rw [hlen]
  exact Nat.mod_lt _ (by omega)

/-! ## C5: a timestamp behind the slot is rejected -/

/-- C5: when `now > 0` maps to a slot occupied by a bucket whose `BucketStart`
is greater than `now - now mod intervalInMs`, `currentBucketOfTime(now)` returns
the stale-timestamp error and no bucket, and leaves the window and the memory
(slots, bucket starts, payloads, record of collaborator calls) as they were. -/
theorem currentBucketOfTime_stale_rejected {V G : Type} (fuel : Nat) (sw : SliceWindow V G)
    (mem : Memory V G) (now : Nat) (idx : Int) (old : Nat)
    (hcfg : Configured sw) (hnow : 0 < now)
    (hidx : calculateTimeIdx sw now = some idx) (h0 : 0 ≤ idx)
    (hslot : sw.array[idx.toNat]? = some (some old))
    (hstale : now - now % sw.intervalInMs.toNat < (mem.cells old).BucketStart) :
    currentBucketOfTime (fuel + 1) sw mem now
      = ⟨Ret.error (Error.behind (now - now % sw.intervalInMs.toNat) (mem.cells old).BucketStart),
         sw, mem⟩ := by
  have hconv : toUint64 sw.intervalInMs = sw.intervalInMs.toNat :=
    toUint64_eq_toNat hcfg.2.1 (le_of_lt hcfg.2.2.2.2)
  rw [currentBucketOfTime_of_idx hnow hidx, hconv]
  exact inspect_stale fuel h0 hslot hstale

/-- Witness of C5: one slot of 1000 ms; after the call at 2000 the slot holds
`BucketStart = 2000`, and the call at 1500 is rejected. -/
theorem currentBucketOfTime_stale_rejected_witness :
    ((currentBucketOfTime 1 (mockWindow 1 1000) blankMemory 2000).mem.cells 0).BucketStart = 2000 ∧
    currentBucketOfTime 1 (currentBucketOfTime 1 (mockWindow 1 1000) blankMemory 2000).sw
        (currentBucketOfTime 1 (mockWindow 1 1000) blankMemory 2000).mem 1500
      = ⟨Ret.error (Error.behind
            (1500 - 1500 % (currentBucketOfTime 1 (mockWindow 1 1000) blankMemory 2000).sw.intervalInMs.toNat)
            ((currentBucketOfTime 1 (mockWindow 1 1000) blankMemory 2000).mem.cells 0).BucketStart),
         (currentBucketOfTime 1 (mockWindow 1 1000) blankMemory 2000).sw,
         (currentBucketOfTime 1 (mockWindow 1 1000) blankMemory 2000).mem⟩ :=
  ⟨by decide,
   currentBucketOfTime_stale_rejected 0
    (currentBucketOfTime 1 (mockWindow 1 1000) blankMemory 2000).sw
    (currentBucketOfTime 1 (mockWindow 1 1000) blankMemory 2000).mem 1500 0 0
    (by decide) (by decide) (by decide) (by decide) (by decide) (by decide)⟩

/-! ## C3: the snapshot of live buckets -/

theorem isBucketDeprecated_iff {V G : Type} (sw : SliceWindow V G) (cells : Nat → Bucket V)
    (now b : Nat) : isBucketDeprecated sw cells now b = true ↔ expiredWrapped sw cells now b := by
  unfold isBucketDeprecated expiredWrapped subUint64 toUint64 wrapUint64 wrapInt
  simp only [decide_eq_true_eq, gt_iff_lt]
  omega

theorem valuesLoop_eq {V G : Type} (sw : SliceWindow V G) (cells : Nat → Bucket V) (now : Nat)
    (k : Nat) : ∀ (i : Nat) (ret : List Nat), i + k ≤ sw.array.length →
      valuesLoop sw cells now k i ret
        = some (ret ++ ((sw.array.drop i).take k).filterMap
            (fun slot => slot.bind
              (fun b => if expiredWrapped sw cells now b then none else some b))) := by
  induction k with
  | zero => intro i ret _; simp [valuesLoop]
  | succ k ih =>
    intro i ret hik
    have hi : i < sw.array.length := by omega
    rw [List.drop_eq_getElem_cons hi, List.take_succ_cons]
    unfold valuesLoop
    rw [List.getElem?_eq_getElem hi]
    cases hslot : sw.array[i] with
    | none =>
      simp only [List.filterMap_cons, Option.none_bind]
      exact ih (i + 1) ret (by omega)
    | some b =>
      by_cases hdep : isBucketDeprecated sw cells now b = true
      · have hexp := (isBucketDeprecated_iff sw cells now b).1 hdep
        simp only [hdep, if_true, List.filterMap_cons, Option.some_bind, hexp]
        exact ih (i + 1) ret (by omega)
      · have hexp : ¬ expiredWrapped sw cells now b :=
          fun h => hdep ((isBucketDeprecated_iff sw cells now b).2 h)
        simp only [hdep, List.filterMap_cons, Option.some_bind, hexp, if_false]
        rw [ih (i + 1) (ret ++ [b]) (by omega)]
        simp

theorem valuesWithTime_eq {V G : Type} (sw : SliceWindow V G) (cells : Nat → Bucket V)
    (now : Nat) (hS : 0 ≤ sw.sampleCount) (hlen : sw.array.length = sw.sampleCount.toNat) :
    valuesWithTime sw cells now
      = some (liveBuckets (expiredWrapped sw cells now) sw.array now) := by
  unfold valuesWithTime liveBuckets
  by_cases hnow : now ≤ 0
  · simp [hnow]
  · have hneg : ¬ sw.sampleCount < 0 := by omega
    simp only [hnow, hneg, if_false]
    rw [valuesLoop_eq sw cells now _ 0 [] (by omega), ← hlen]
    simp

theorem mem_liveBuckets {expired : Nat → Prop} [DecidablePred expired]
    {array : List (Option Nat)} {now b : Nat} (hnow : 0 < now) :
    b ∈ liveBuckets expired array now ↔ some b ∈ array ∧ ¬ expired b := by
  have hn : ¬ now ≤ 0 := by omega
  unfold liveBuckets
  simp only [hn, if_false, List.mem_filterMap]
  constructor
  · rintro ⟨slot, hmem, hb⟩
    cases slot with
    | none => simp at hb
    | some a =>
      by_cases he : expired a
      · simp [he] at hb
      · simp only [Option.some_bind, he, if_false, Option.some.injEq] at hb
        subst hb
        exact ⟨hmem, he⟩
  · rintro ⟨hmem, he⟩
    exact ⟨some b, hmem, by simp [he]⟩

/-- Counterexample to C3 as stated.  After the calls at 1, 1000 and 2000 on five
slots of 1000 ms, the bucket with `BucketStart = 2000` is not expired at
`now = 1500` over the integers (`1500 - 2000 <= 6000`), yet `valuesWithTime(1500)`
leaves it out.  And on a window of two slots of `2^62 + 1` ms, whose
`windowSizeInMs + intervalInMs` is `3 - 2^62`, after the call at 1 the bucket
with `BucketStart = 0` is expired at `now = 1` over the integers
(`1 - 0 > 3 - 2^62`), yet `valuesWithTime(1)` contains it. -/
theorem valuesWithTime_drops_future_bucket :
    ((callsOfTimes 1 [1, 1000, 2000] (mockWindow 5 1000) blankMemory).2.2.cells 2).BucketStart
        = 2000 ∧
    ¬ expiredSpec (callsOfTimes 1 [1, 1000, 2000] (mockWindow 5 1000) blankMemory).2.1
        (callsOfTimes 1 [1, 1000, 2000] (mockWindow 5 1000) blankMemory).2.2.cells 1500 2 ∧
    liveBuckets
        (expiredSpec (callsOfTimes 1 [1, 1000, 2000] (mockWindow 5 1000) blankMemory).2.1
          (callsOfTimes 1 [1, 1000, 2000] (mockWindow 5 1000) blankMemory).2.2.cells 1500)
        (callsOfTimes 1 [1, 1000, 2000] (mockWindow 5 1000) blankMemory).2.1.array 1500
      = [0, 1, 2] ∧
    valuesWithTime (callsOfTimes 1 [1, 1000, 2000] (mockWindow 5 1000) blankMemory).2.1
        (callsOfTimes 1 [1, 1000, 2000] (mockWindow 5 1000) blankMemory).2.2.cells 1500
      = some [0, 1] ∧
    (mockWindow 2 (2 ^ 62 + 1)).windowSizeInMs + (mockWindow 2 (2 ^ 62 + 1)).intervalInMs
      = 3 - 2 ^ 62 ∧
    ((callsOfTimes 1 [1] (mockWindow 2 (2 ^ 62 + 1)) blankMemory).2.2.cells 0).BucketStart = 0 ∧
    expiredSpec (callsOfTimes 1 [1] (mockWindow 2 (2 ^ 62 + 1)) blankMemory).2.1
        (callsOfTimes 1 [1] (mockWindow 2 (2 ^ 62 + 1)) blankMemory).2.2.cells 1 0 ∧
    liveBuckets
        (expiredSpec (callsOfTimes 1 [1] (mockWindow 2 (2 ^ 62 + 1)) blankMemory).2.1
          (callsOfTimes 1 [1] (mockWindow 2 (2 ^ 62 + 1)) blankMemory).2.2.cells 1)
        (callsOfTimes 1 [1] (mockWindow 2 (2 ^ 62 + 1)) blankMemory).2.1.array 1
      = [] ∧
    valuesWithTime (callsOfTimes 1 [1] (mockWindow 2 (2 ^ 62 + 1)) blankMemory).2.1
        (callsOfTimes 1 [1] (mockWindow 2 (2 ^ 62 + 1)) blankMemory).2.2.cells 1
      = some [0] := by
  decide

/-- C3, amended: on a window whose `sampleCount` is not negative and whose array
has `sampleCount` slots, `valuesWithTime(now)` is empty when `now <= 0` and otherwise is, in slot order,
the sequence of the buckets of the occupied slots that are not expired, where
expiry is decided in unsigned 64-bit arithmetic (`now - bucketStart` and
`windowSizeInMs + intervalInMs` modulo `2 ^ 64`).  When the `int` fields satisfy
`windowSizeInMs + intervalInMs >= 0`, for a `uint64` timestamp and a bucket with
`bucketStart <= now` that is the comparison
`now - bucketStart > windowSizeInMs + intervalInMs` of the integers.  With
`sampleCount = 5`, `intervalInMs = 1000`, `windowSizeInMs = 5000`, a bucket of
the array with `bucketStart = 0` is in the snapshot at `now = 6000` and at no
`now > 6000`. -/
theorem valuesWithTime_eq_live_buckets {V G : Type} (sw : SliceWindow V G)
    (cells : Nat → Bucket V) (now : Nat)
    (hS : 0 ≤ sw.sampleCount) (hlen : sw.array.length = sw.sampleCount.toNat) :
    valuesWithTime sw cells now
        = some (liveBuckets (expiredWrapped sw cells now) sw.array now) ∧
    (now ≤ 0 → valuesWithTime sw cells now = some []) ∧
    (∀ b, isBucketDeprecated sw cells now b = true ↔ expiredWrapped sw cells now b) ∧
    (∀ b, IsUint64 now → (cells b).BucketStart ≤ now →
        IsInt sw.windowSizeInMs → IsInt sw.intervalInMs →
        0 ≤ sw.windowSizeInMs + sw.intervalInMs →
        (expiredWrapped sw cells now b ↔ expiredSpec sw cells now b)) ∧
    (∀ b, sw.sampleCount = 5 → sw.intervalInMs = 1000 → sw.windowSizeInMs = 5000 →
        some b ∈ sw.array → (cells b).BucketStart = 0 → 0 < now → IsUint64 now →
        (b ∈ liveBuckets (expiredWrapped sw cells now) sw.array now ↔ now ≤ 6000)) := by
  refine ⟨valuesWithTime_eq sw cells now hS hlen, ?_,
    fun b => isBucketDeprecated_iff sw cells now b, ?_, ?_⟩
  · intro h0
    simp [valuesWithTime, h0]
  · intro b hu hle hW hI h0
    unfold IsUint64 at hu
    unfold IsInt at hW hI
    unfold expiredWrapped expiredSpec
    omega
  · intro b h5 h1000 h5000 hmem hstart hpos hu
    unfold IsUint64 at hu
    rw [mem_liveBuckets hpos]
    unfold expiredWrapped
    rw [hstart, h5000, h1000]
    constructor
    · rintro ⟨-, hne⟩
      omega
    · intro hle
      exact ⟨hmem, by omega⟩

/-- Witness of C3: the state after the calls at 1, 1000 and 2000 on five slots
of 1000 ms, read at `now = 6000`. -/
theorem valuesWithTime_eq_live_buckets_witness :
    valuesWithTime (callsOfTimes 1 [1, 1000, 2000] (mockWindow 5 1000) blankMemory).2.1
        (callsOfTimes 1 [1, 1000, 2000] (mockWindow 5 1000) blankMemory).2.2.cells 6000
      = some [0, 1, 2] ∧
    (0 ∈ liveBuckets
        (expiredWrapped (callsOfTimes 1 [1, 1000, 2000] (mockWindow 5 1000) blankMemory).2.1
          (callsOfTimes 1 [1, 1000, 2000] (mockWindow 5 1000) blankMemory).2.2.cells 6000)
        (callsOfTimes 1 [1, 1000, 2000] (mockWindow 5 1000) blankMemory).2.1.array 6000
      ↔ 6000 ≤ 6000) :=
  ⟨((valuesWithTime_eq_live_buckets
      (callsOfTimes 1 [1, 1000, 2000] (mockWindow 5 1000) blankMemory).2.1
      (callsOfTimes 1 [1, 1000, 2000] (mockWindow 5 1000) blankMemory).2.2.cells 6000
      (by decide) (by decide)).1).trans (by decide),
   (valuesWithTime_eq_live_buckets
      (callsOfTimes 1 [1, 1000, 2000] (mockWindow 5 1000) blankMemory).2.1
      (callsOfTimes 1 [1, 1000, 2000] (mockWindow 5 1000) blankMemory).2.2.cells 6000
      (by decide) (by decide)).2.2.2.2 0 (by decide) (by decide) (by decide)
      (by decide) (by decide) (by decide) (by decide)⟩

/-! ## C7: the constructor -/

theorem NewSliceWindow_mock (sampleCount intervalInMs : Int) (hS : 0 < sampleCount)
    (hI : 0 < intervalInMs) (hcap : sampleCount.toNat * ptrSize ≤ maxAlloc) :
    NewSliceWindow sampleCount intervalInMs (some MockGenerator)
      = some (Except.ok (mockWindow sampleCount intervalInMs)) := by
  have h : ¬ (sampleCount ≤ 0 ∨ intervalInMs ≤ 0) := by omega
  have hm : ¬ makePanics sampleCount := by
    unfold makePanics
    rintro (h | h)
    · omega
    · exact absurd hcap (not_le.2 h)
  simp [NewSliceWindow, mockWindow, h, hm]

theorem NewSliceWindow_ok {V G : Type} {sampleCount intervalInMs : Int}
    {g : BucketGenerator V G} {w : SliceWindow V G}
    (hw : NewSliceWindow sampleCount intervalInMs (some g) = some (Except.ok w)) :
    0 < sampleCount ∧ 0 < intervalInMs ∧ sampleCount.toNat * ptrSize ≤ maxAlloc ∧
    w = { sampleCount := sampleCount
          intervalInMs := intervalInMs
          generator := g
          windowSizeInMs := wrapInt (sampleCount * intervalInMs)
          array := List.replicate sampleCount.toNat none
          deprecatedFunc := none
          updateLock := { locked := false }
          deprecatedLock := { locked := false } } := by
  unfold NewSliceWindow at hw
  by_cases hbad : sampleCount ≤ 0 ∨ intervalInMs ≤ 0
  · simp [hbad] at hw
  · simp only [hbad, if_false] at hw
    by_cases hm : makePanics sampleCount
    · simp [hm] at hw
    · simp only [hm, if_false, Option.some.injEq, Except.ok.injEq] at hw
      refine ⟨by omega, by omega, ?_, hw.symm⟩
      unfold makePanics at hm
      exact not_lt.1 (fun h => hm (Or.inr h))

/-- Counterexample to C7 as stated: `NewSliceWindow(3, 2^62, &MockGenerator{})`
returns a window whose `windowSizeInMs` is `-2^62`, not `3 * 2^62`; and
`NewSliceWindow(2^62, 4, &MockGenerator{})`, with positive parameters and a
generator, returns neither an error nor a window: `make` panics. -/
theorem NewSliceWindow_windowSize_wraps :
    IsInt 3 ∧ IsInt (2 ^ 62) ∧
    NewSliceWindow 3 (2 ^ 62) (some MockGenerator) = some (Except.ok (mockWindow 3 (2 ^ 62))) ∧
    (mockWindow 3 (2 ^ 62)).windowSizeInMs = -2 ^ 62 ∧
    (mockWindow 3 (2 ^ 62)).windowSizeInMs ≠ 3 * 2 ^ 62 ∧
    IsInt 4 ∧
    NewSliceWindow (2 ^ 62) 4 (some MockGenerator) = none :=
  ⟨by decide, by decide, NewSliceWindow_mock 3 (2 ^ 62) (by decide) (by decide) (by decide),
   by decide, by decide, by decide, by
    have hm : makePanics (2 ^ 62) := by decide
    have h : ¬ ((2 ^ 62 : Int) ≤ 0 ∨ (4 : Int) ≤ 0) := by decide
    simp only [NewSliceWindow, h, hm, if_true, if_false]⟩

/-- C7, amended: `NewSliceWindow(sampleCount, intervalInMs, generator)` returns
an error and no window exactly when `sampleCount <= 0` or `intervalInMs <= 0` or
the generator is nil; with positive parameters and a generator it panics in
`make` exactly when `sampleCount` pointers take more than `maxAlloc` bytes
(`sampleCount * 8 > 2 ^ 48`); otherwise, the allocation succeeding, it returns a
window with exactly `sampleCount` slots, all empty, the given `sampleCount`,
`intervalInMs` and generator, no deprecation callback, both locks free, and
`windowSizeInMs` equal to the `int` product `sampleCount * intervalInMs`: the
exact product when that is below `2 ^ 63`, its reduction to the 64-bit two's
complement range otherwise. -/
theorem NewSliceWindow_result {V G : Type} (sampleCount intervalInMs : Int)
    (generator : Option (BucketGenerator V G)) :
    ((∃ e, NewSliceWindow sampleCount intervalInMs generator = some (Except.error e))
        ↔ (sampleCount ≤ 0 ∨ intervalInMs ≤ 0 ∨ generator.isNone = true)) ∧
    (NewSliceWindow sampleCount intervalInMs generator = none
        ↔ (0 < sampleCount ∧ 0 < intervalInMs ∧ generator.isNone = false ∧
            sampleCount.toNat * 8 > 2 ^ 48)) ∧
    ((∃ w, NewSliceWindow sampleCount intervalInMs generator = some (Except.ok w))
        ↔ (0 < sampleCount ∧ 0 < intervalInMs ∧ generator.isNone = false ∧
            sampleCount.toNat * 8 ≤ 2 ^ 48)) ∧
    (∀ w, NewSliceWindow sampleCount intervalInMs generator = some (Except.ok w) →
        (w.array.length : Int) = sampleCount ∧
        (∀ slot ∈ w.array, slot = none) ∧
        w.sampleCount = sampleCount ∧
        w.intervalInMs = intervalInMs ∧
        generator = some w.generator ∧
        w.deprecatedFunc.isNone = true ∧
        w.updateLock.locked = false ∧
        w.deprecatedLock.locked = false ∧
        w.windowSizeInMs = wrapInt (sampleCount * intervalInMs) ∧
        (sampleCount * intervalInMs < 2 ^ 63 →
          w.windowSizeInMs = sampleCount * intervalInMs)) := by
  unfold NewSliceWindow
  by_cases hbad : sampleCount ≤ 0 ∨ intervalInMs ≤ 0
  · simp only [hbad, if_true]
    refine ⟨⟨fun _ => ?_, fun _ => ⟨_, rfl⟩⟩, ⟨fun h => by simp at h, fun h => by omega⟩,
      ⟨fun ⟨w, hw⟩ => by simp at hw, fun h => by omega⟩, fun w hw => by simp at hw⟩
    rcases hbad with h | h
    · exact Or.inl h
    · exact Or.inr (Or.inl h)
  · simp only [hbad, if_false]
    have hS : 0 < sampleCount := by omega
    have hI : 0 < intervalInMs := by omega
    cases generator with
    | none =>
      exact ⟨⟨fun _ => Or.inr (Or.inr rfl), fun _ => ⟨_, rfl⟩⟩,
        ⟨fun h => by simp at h, fun h => by simp at h⟩,
        ⟨fun ⟨w, hw⟩ => by simp at hw, fun h => by simp at h⟩, fun w hw => by simp at hw⟩
    | some g =>
      have hmk : makePanics sampleCount ↔ sampleCount.toNat * 8 > 2 ^ 48 := by
        unfold makePanics ptrSize maxAlloc
        constructor
        · rintro (h | h)
          · omega
          · exact h
        · intro h
          exact Or.inr h
      by_cases hm : makePanics sampleCount
      · have hgt := hmk.1 hm
        simp only [hm, if_true]
        refine ⟨⟨fun ⟨e, he⟩ => by simp at he, fun h => ?_⟩,
          ⟨fun _ => ⟨hS, hI, rfl, hgt⟩, fun _ => trivial⟩,
          ⟨fun ⟨w, hw⟩ => by simp at hw, fun h => by omega⟩, fun w hw => by simp at hw⟩
        rcases h with h | h | h
        · omega
        · omega
        · simp at h
      · have hle : sampleCount.toNat * 8 ≤ 2 ^ 48 := not_lt.1 (fun h => hm (hmk.2 h))
        simp only [hm, if_false]
        refine ⟨⟨fun ⟨e, he⟩ => by simp at he, fun h => ?_⟩,
          ⟨fun h => by simp at h, fun h => by omega⟩,
          ⟨fun _ => ⟨hS, hI, rfl, hle⟩, fun _ => ⟨_, rfl⟩⟩, fun w hw => ?_⟩
        · rcases h with h | h | h
          · omega
          · omega
          · simp at h
        · simp only [Option.some.injEq, Except.ok.injEq] at hw
          subst hw
          refine ⟨?_, ?_, rfl, rfl, rfl, rfl, rfl, rfl, rfl, fun hlt => ?_⟩
          · simp only [List.length_replicate]
            exact Int.toNat_of_nonneg (le_of_lt hS)
          · intro slot hslot
            exact (List.mem_replicate.1 hslot).2
          · have hprod : 0 < sampleCount * intervalInMs := Int.mul_pos hS hI
            show wrapInt (sampleCount * intervalInMs) = sampleCount * intervalInMs
            unfold wrapInt
            omega

/-- Witness of C7: `NewSliceWindow(5, 1000, &MockGenerator{})`. -/
theorem NewSliceWindow_result_witness :
    (mockWindow 5 1000).array.length = 5 ∧ (mockWindow 5 1000).windowSizeInMs = 5 * 1000 :=
  ⟨by
    have h := ((NewSliceWindow_result 5 1000 (some MockGenerator)).2.2.2 (mockWindow 5 1000)
      (NewSliceWindow_mock 5 1000 (by decide) (by decide) (by decide))).1
    exact_mod_cast h,
   ((NewSliceWindow_result 5 1000 (some MockGenerator)).2.2.2 (mockWindow 5 1000)
      (NewSliceWindow_mock 5 1000 (by decide) (by decide) (by decide))).2.2.2.2.2.2.2.2.2
      (by decide)⟩

/-! ## What a successful inspection leaves in the slot -/

theorem callDeprecatedCallbackFunc_none {V G : Type} {sw : SliceWindow V G} (mem : Memory V G)
    (h : sw.deprecatedFunc = none) : callDeprecatedCallbackFunc sw mem = some (sw, mem) := by
  simp [callDeprecatedCallbackFunc, h]

theorem inspect_config {V G : Type} (idx : Int) (bucketStart : Nat) (fuel : Nat) :
    ∀ (sw : SliceWindow V G) (mem : Memory V G),
      (inspect idx bucketStart fuel sw mem).sw.sampleCount = sw.sampleCount ∧
      (inspect idx bucketStart fuel sw mem).sw.intervalInMs = sw.intervalInMs ∧
      (inspect idx bucketStart fuel sw mem).sw.windowSizeInMs = sw.windowSizeInMs ∧
      (inspect idx bucketStart fuel sw mem).sw.generator = sw.generator ∧
      (inspect idx bucketStart fuel sw mem).sw.deprecatedFunc = sw.deprecatedFunc ∧
      (inspect idx bucketStart fuel sw mem).sw.array.length = sw.array.length := by
  induction fuel with
  | zero => intro sw mem; simp [inspect]
  | succ fuel ih =>
    intro sw mem
    unfold inspect
    split
    · simp
    · split
      · simp
      · simp only
        split <;> simp
      · rename_i old hslot
        simp only
        split
        · simp
        · split
          · split
            · simp
            · rename_i sw1 mem1 hcall
              have hfr := callDeprecatedCallbackFunc_frame hcall
              split
              · simp [hfr]
              · rename_i l hl
                have := ih { sw1 with updateLock := l }
                  { mem1 with calls := mem1.calls ++ [Call.Gosched] }
                simpa [hfr] using this
          · simp

theorem inspect_ok_slot {V G : Type} (idx : Int) (bucketStart : Nat) (fuel : Nat) :
    ∀ (sw : SliceWindow V G) (mem : Memory V G) (p : Option Nat),
      SetsStart sw.generator → (inspect idx bucketStart fuel sw mem).ret = Ret.ok p →
      0 ≤ idx ∧ ∃ b, p = some b ∧
        (inspect idx bucketStart fuel sw mem).sw.array[idx.toNat]? = some (some b) ∧
        ((inspect idx bucketStart fuel sw mem).mem.cells b).BucketStart = bucketStart := by
  induction fuel with
  | zero => intro sw mem p _ h; simp [inspect] at h
  | succ fuel ih =>
    intro sw mem p hgen h
    by_cases hneg : idx < 0
    · simp [inspect, hneg] at h
    · have h0 : 0 ≤ idx := by omega
      refine ⟨h0, ?_⟩
      cases hslot : sw.array[idx.toNat]? with
      | none => simp [inspect, hneg, hslot] at h
      | some slot =>
        cases slot with
        | none =>
          by_cases hv : (sw.generator.NewEmptyBucket mem.gen).1 = none
          · rw [inspect_empty_nil bucketStart fuel mem h0 hslot hv] at h
            simp at h
          · rw [inspect_empty bucketStart fuel mem h0 hslot hv] at h ⊢
            simp only [Ret.ok.injEq] at h
            have hlt : idx.toNat < sw.array.length := by
              by_contra hge
              rw [List.getElem?_eq_none (by omega)] at hslot
              exact absurd hslot (by simp)
            exact ⟨mem.next, h.symm, by simp [List.getElem?_set_self hlt], by simp⟩
        | some old =>
          rcases Nat.lt_trichotomy bucketStart (mem.cells old).BucketStart with hlt | heq | hgt
          · rw [inspect_stale fuel h0 hslot hlt] at h
            simp at h
          · rw [inspect_same fuel h0 hslot heq] at h ⊢
            simp only [Ret.ok.injEq] at h
            exact ⟨old, h.symm, hslot, heq.symm⟩
          · have hne : ¬ bucketStart = (mem.cells old).BucketStart := by omega
            cases hcall : callDeprecatedCallbackFunc sw mem with
            | none => simp [inspect, hneg, hslot, hne, hgt, hcall] at h
            | some r =>
              obtain ⟨sw1, mem1⟩ := r
              have hfr := callDeprecatedCallbackFunc_frame hcall
              by_cases hlock : sw.updateLock.locked = false
              · rw [inspect_rotate fuel h0 hslot hgt hcall hlock] at h ⊢
                simp only [Ret.ok.injEq] at h
                have hs := hgen mem1.gen mem1.cells old bucketStart
                rw [← hfr.1] at hs
                refine ⟨old, by rw [← h, hs.1], ?_, hs.2⟩
                simp [hfr.2.1, hslot]
              · have hl1 : sw1.updateLock.locked = true := by
                  rw [hfr.2.2.2.2.2.2.1]; simpa using hlock
                have hstep : inspect idx bucketStart (fuel + 1) sw mem
                    = inspect idx bucketStart fuel { sw1 with updateLock := sw1.updateLock }
                        { mem1 with calls := mem1.calls ++ [Call.Gosched] } := by
                  simp [inspect, hneg, hslot, hne, hgt, hcall, mutex.TryLock, hl1]
                rw [hstep] at h ⊢
                exact (ih _ _ p (by simpa [hfr.1] using hgen) h).2

theorem sub_mod_eq_of_div_eq {a b n : Nat} (h : a / n = b / n) : a - a % n = b - b % n := by
  have ha := Nat.div_add_mod a n
  have hb := Nat.div_add_mod b n
  have hma : a - a % n = n * (a / n) := by omega
  have hmb : b - b % n = n * (b / n) := by omega
  rw [hma, hmb, h]

/-- After a successful call at `now1`, a call at any `now2 > 0` of the same
interval returns the same bucket and changes nothing. -/
theorem second_call_same {V G : Type} (fuel fuel2 : Nat) (sw : SliceWindow V G)
    (mem : Memory V G) (now1 now2 : Nat) (p : Option Nat)
    (hgen : SetsStart sw.generator) (h2 : 0 < now2)
    (hq : now1 / toUint64 sw.intervalInMs = now2 / toUint64 sw.intervalInMs)
    (hok : (currentBucketOfTime fuel sw mem now1).ret = Ret.ok p) :
    currentBucketOfTime (fuel2 + 1) (currentBucketOfTime fuel sw mem now1).sw
        (currentBucketOfTime fuel sw mem now1).mem now2
      = ⟨Ret.ok p, (currentBucketOfTime fuel sw mem now1).sw,
          (currentBucketOfTime fuel sw mem now1).mem⟩ ∧
    ∃ b idx, p = some b ∧ calculateTimeIdx sw now2 = some idx ∧ 0 ≤ idx ∧
      (currentBucketOfTime fuel sw mem now1).sw.array[idx.toNat]? = some (some b) ∧
      ((currentBucketOfTime fuel sw mem now1).mem.cells b).BucketStart
        = now2 - now2 % toUint64 sw.intervalInMs := by
  have h1 : 0 < now1 := by
    by_contra hn
    have : now1 = 0 := by omega
    subst this
    rw [currentBucketOfTime_zero] at hok
    simp at hok
  have hidx12 : calculateTimeIdx sw now2 = calculateTimeIdx sw now1 := by
    unfold calculateTimeIdx
    simp only [hq]
  have hbs : now1 - now1 % toUint64 sw.intervalInMs = now2 - now2 % toUint64 sw.intervalInMs :=
    sub_mod_eq_of_div_eq hq
  cases hidx : calculateTimeIdx sw now1 with
  | none => rw [currentBucketOfTime_of_idx_none h1 hidx] at hok; simp at hok
  | some idx =>
    rw [currentBucketOfTime_of_idx h1 hidx] at hok ⊢
    obtain ⟨h0, b, hb, hslot, hstart⟩ := inspect_ok_slot idx _ fuel sw mem p hgen hok
    have hcfg := inspect_config idx (now1 - now1 % toUint64 sw.intervalInMs) fuel sw mem
    have hidx2 : calculateTimeIdx
        (inspect idx (now1 - now1 % toUint64 sw.intervalInMs) fuel sw mem).sw now2 = some idx := by
      rw [← hidx, ← hidx12]
      unfold calculateTimeIdx
      rw [hcfg.1, hcfg.2.1]
    refine ⟨?_, b, idx, hb, by rw [hidx12, hidx], h0, hslot, by rw [hstart, hbs]⟩
    rw [currentBucketOfTime_of_idx h2 hidx2, hcfg.2.1, ← hbs, hb]
    exact inspect_same fuel2 h0 hslot hstart.symm

theorem callsOfTimes_replicate_fixed {V G : Type} (fuel : Nat) (sw : SliceWindow V G)
    (mem : Memory V G) (t : Nat) (r : Ret)
    (h : currentBucketOfTime fuel sw mem t = ⟨r, sw, mem⟩) (k : Nat) :
    callsOfTimes fuel (List.replicate k t) sw mem = (List.replicate k r, sw, mem) := by
  induction k with
  | zero => rfl
  | succ k ih =>
    simp only [List.replicate_succ, callsOfTimes, h, ih]

/-! ## C8: the idempotent fast path -/

/-- Counterexample to C8 as stated.  The generator `keepsStartGenerator` resets
the payload and returns the bucket, and leaves `BucketStart` alone.  On five
slots of 1000 ms, after the call at 1, the call at `now = 5000` succeeds and
returns the bucket of slot 0, whose start is still 0; the caller stores the
payload 7; a further call at `now = 5000` returns the same bucket, and it calls
`ResetBucketTo` once more and the payload is 0 again. -/
theorem repeated_call_resets_again :
    NewSliceWindow 5 1000 (some keepsStartGenerator) = some (Except.ok keepsStartWindow) ∧
    (callsOfTimes 1 [1, 5000] keepsStartWindow blankMemory).1
      = [Ret.ok (some 0), Ret.ok (some 0)] ∧
    ((callsOfTimes 1 [1, 5000] keepsStartWindow blankMemory).2.2.cells 0).BucketStart = 0 ∧
    resetCalls (callsOfTimes 1 [1, 5000] keepsStartWindow blankMemory).2.2.calls
      = [(0, 5000)] ∧
    ((storeValue (callsOfTimes 1 [1, 5000] keepsStartWindow blankMemory).2.2 0 7).cells 0).Value
      = some 7 ∧
    (currentBucketOfTime 1 (callsOfTimes 1 [1, 5000] keepsStartWindow blankMemory).2.1
        (storeValue (callsOfTimes 1 [1, 5000] keepsStartWindow blankMemory).2.2 0 7) 5000).ret
      = Ret.ok (some 0) ∧
    resetCalls (currentBucketOfTime 1
        (callsOfTimes 1 [1, 5000] keepsStartWindow blankMemory).2.1
        (storeValue (callsOfTimes 1 [1, 5000] keepsStartWindow blankMemory).2.2 0 7)
        5000).mem.calls
      = [(0, 5000), (0, 5000)] ∧
    ((currentBucketOfTime 1 (callsOfTimes 1 [1, 5000] keepsStartWindow blankMemory).2.1
        (storeValue (callsOfTimes 1 [1, 5000] keepsStartWindow blankMemory).2.2 0 7)
        5000).mem.cells 0).Value
      = some 0 :=
  ⟨rfl, by decide, by decide, by decide, by decide, by decide, by decide, by decide⟩

/-- C8, amended: with a generator whose `ResetBucketTo` sets the start and
returns the same bucket, after one successful `currentBucketOfTime(now)` any
number of further calls at the same `now` all return the same bucket, which
occupies the slot of `now` with `BucketStart = now - now mod intervalInMs`, and
leave the window and the memory unchanged: no slot, bucket start or payload is
written and no call of the generator or of the deprecation callback is
recorded. -/
theorem repeated_call_returns_same_bucket {V G : Type} (fuel fuel2 k : Nat)
    (sw : SliceWindow V G) (mem : Memory V G) (now : Nat) (p : Option Nat)
    (hgen : SetsStart sw.generator)
    (hok : (currentBucketOfTime fuel sw mem now).ret = Ret.ok p) :
    callsOfTimes (fuel2 + 1) (List.replicate k now) (currentBucketOfTime fuel sw mem now).sw
        (currentBucketOfTime fuel sw mem now).mem
      = (List.replicate k (Ret.ok p), (currentBucketOfTime fuel sw mem now).sw,
          (currentBucketOfTime fuel sw mem now).mem) ∧
    ∃ b idx, p = some b ∧ calculateTimeIdx sw now = some idx ∧ 0 ≤ idx ∧
      (currentBucketOfTime fuel sw mem now).sw.array[idx.toNat]? = some (some b) ∧
      ((currentBucketOfTime fuel sw mem now).mem.cells b).BucketStart
        = now - now % toUint64 sw.intervalInMs := by
  have hnow : 0 < now := by
    by_contra hn
    have : now = 0 := by omega
    subst this
    rw [currentBucketOfTime_zero] at hok
    simp at hok
  have h := second_call_same fuel fuel2 sw mem now now p hgen hnow rfl hok
  exact ⟨callsOfTimes_replicate_fixed _ _ _ _ _ h.1 k, h.2⟩

/-- Witness of C8: five slots of 1000 ms, `now = 1500`, three further calls. -/
theorem repeated_call_returns_same_bucket_witness :
    callsOfTimes 1 (List.replicate 3 1500)
        (currentBucketOfTime 1 (mockWindow 5 1000) blankMemory 1500).sw
        (currentBucketOfTime 1 (mockWindow 5 1000) blankMemory 1500).mem
      = (List.replicate 3 (Ret.ok (some 0)),
          (currentBucketOfTime 1 (mockWindow 5 1000) blankMemory 1500).sw,
          (currentBucketOfTime 1 (mockWindow 5 1000) blankMemory 1500).mem) :=
  (repeated_call_returns_same_bucket 1 0 3 (mockWindow 5 1000) blankMemory 1500 (some 0)
    MockGenerator_lawAbiding.1 (by decide)).1

/-! ## C9: slot determinism -/

/-- Counterexample to C9 as stated.  With the generator `keepsStartGenerator`,
which resets the payload and returns the bucket and leaves `BucketStart` alone,
on five slots of 1000 ms with slot 0 holding the bucket of start 0: `5001` and
`5999` have the same interval number; the call at `5001` succeeds and returns the
bucket of slot 0; the caller stores the payload 7; the call at `5999` returns
the same bucket, whose payload has been reset in between (it is 0 again, by a
second call of `ResetBucketTo`) and whose start is 0, not 5000. -/
theorem same_interval_resets_again :
    NewSliceWindow 5 1000 (some keepsStartGenerator) = some (Except.ok keepsStartWindow) ∧
    5001 / 1000 = 5999 / 1000 ∧
    (callsOfTimes 1 [1, 5001] keepsStartWindow blankMemory).1
      = [Ret.ok (some 0), Ret.ok (some 0)] ∧
    resetCalls (callsOfTimes 1 [1, 5001] keepsStartWindow blankMemory).2.2.calls
      = [(0, 5000)] ∧
    ((storeValue (callsOfTimes 1 [1, 5001] keepsStartWindow blankMemory).2.2 0 7).cells 0).Value
      = some 7 ∧
    (currentBucketOfTime 1 (callsOfTimes 1 [1, 5001] keepsStartWindow blankMemory).2.1
        (storeValue (callsOfTimes 1 [1, 5001] keepsStartWindow blankMemory).2.2 0 7) 5999).ret
      = Ret.ok (some 0) ∧
    resetCalls (currentBucketOfTime 1
        (callsOfTimes 1 [1, 5001] keepsStartWindow blankMemory).2.1
        (storeValue (callsOfTimes 1 [1, 5001] keepsStartWindow blankMemory).2.2 0 7)
        5999).mem.calls
      = [(0, 5000), (0, 5000)] ∧
    ((currentBucketOfTime 1 (callsOfTimes 1 [1, 5001] keepsStartWindow blankMemory).2.1
        (storeValue (callsOfTimes 1 [1, 5001] keepsStartWindow blankMemory).2.2 0 7)
        5999).mem.cells 0).Value
      = some 0 ∧
    ((currentBucketOfTime 1 (callsOfTimes 1 [1, 5001] keepsStartWindow blankMemory).2.1
        (storeValue (callsOfTimes 1 [1, 5001] keepsStartWindow blankMemory).2.2 0 7)
        5999).mem.cells 0).BucketStart
      = 0 :=
  ⟨rfl, by decide, by decide, by decide, by decide, by decide, by decide, by decide, by decide⟩

/-- C9, amended: on a configured window with a generator whose `ResetBucketTo`
sets the start and returns the same bucket, for positive `now1`, `now2` with
`floor(now1 / intervalInMs) = floor(now2 / intervalInMs)`, a successful
`currentBucketOfTime(now1)` followed by `currentBucketOfTime(now2)` returns the
same bucket: it occupies the slot of `now2`, its `BucketStart` is the interval
start of `now2`, and the second call writes nothing (the payload is not reset). -/
theorem same_interval_returns_same_bucket {V G : Type} (fuel fuel2 : Nat)
    (sw : SliceWindow V G) (mem : Memory V G) (now1 now2 : Nat) (p : Option Nat)
    (hcfg : Configured sw) (hgen : SetsStart sw.generator) (_h1 : 0 < now1) (h2 : 0 < now2)
    (hq : now1 / sw.intervalInMs.toNat = now2 / sw.intervalInMs.toNat)
    (hok : (currentBucketOfTime fuel sw mem now1).ret = Ret.ok p) :
    currentBucketOfTime (fuel2 + 1) (currentBucketOfTime fuel sw mem now1).sw
        (currentBucketOfTime fuel sw mem now1).mem now2
      = ⟨Ret.ok p, (currentBucketOfTime fuel sw mem now1).sw,
          (currentBucketOfTime fuel sw mem now1).mem⟩ ∧
    ∃ b idx, p = some b ∧ calculateTimeIdx sw now1 = some idx ∧
      calculateTimeIdx sw now2 = some idx ∧ 0 ≤ idx ∧
      (currentBucketOfTime fuel sw mem now1).sw.array[idx.toNat]? = some (some b) ∧
      ((currentBucketOfTime fuel sw mem now1).mem.cells b).BucketStart
        = now2 - now2 % sw.intervalInMs.toNat ∧
      now1 - now1 % sw.intervalInMs.toNat = now2 - now2 % sw.intervalInMs.toNat := by
  have hconv : toUint64 sw.intervalInMs = sw.intervalInMs.toNat :=
    toUint64_eq_toNat hcfg.2.1 (le_of_lt hcfg.2.2.2.2)
  have hq2 : now1 / toUint64 sw.intervalInMs = now2 / toUint64 sw.intervalInMs := by
    rw [hconv]; exact hq
  obtain ⟨hcall, b, idx, hb, hidx, h0, hslot, hstart⟩ :=
    second_call_same fuel fuel2 sw mem now1 now2 p hgen h2 hq2 hok
  refine ⟨hcall, b, idx, hb, ?_, hidx, h0, hslot, by rw [hstart, hconv],
    sub_mod_eq_of_div_eq hq⟩
  rw [← hidx]
  unfold calculateTimeIdx
  simp only [hq2]

/-- Witness of C9: five slots of 1000 ms, `now1 = 1001` and `now2 = 1999`. -/
theorem same_interval_returns_same_bucket_witness :
    currentBucketOfTime 1 (currentBucketOfTime 1 (mockWindow 5 1000) blankMemory 1001).sw
        (currentBucketOfTime 1 (mockWindow 5 1000) blankMemory 1001).mem 1999
      = ⟨Ret.ok (some 0), (currentBucketOfTime 1 (mockWindow 5 1000) blankMemory 1001).sw,
          (currentBucketOfTime 1 (mockWindow 5 1000) blankMemory 1001).mem⟩ :=
  (same_interval_returns_same_bucket 1 0 (mockWindow 5 1000) blankMemory 1001 1999 (some 0)
    (by decide) MockGenerator_lawAbiding.1 (by decide) (by decide) (by decide) (by decide)).1

/-! ## One call on a configured window, by the state of the slot -/

theorem currentBucketOfTime_eq_inspect {V G : Type} (fuel : Nat) {sw : SliceWindow V G}
    (mem : Memory V G) {now : Nat} (hcfg : Configured sw) (hnow : 0 < now)
    (hrange : now / sw.intervalInMs.toNat < 2 ^ 63) :
    currentBucketOfTime fuel sw mem now
      = inspect (((now / sw.intervalInMs.toNat) % sw.sampleCount.toNat : Nat) : Int)
          (now - now % sw.intervalInMs.toNat) fuel sw mem := by
  have hconv : toUint64 sw.intervalInMs = sw.intervalInMs.toNat :=
    toUint64_eq_toNat hcfg.2.1 (le_of_lt hcfg.2.2.2.2)
  rw [currentBucketOfTime_of_idx hnow (calculateTimeIdx_of_lt hcfg hrange), hconv]

theorem currentBucketOfTime_empty {V G : Type} (fuel : Nat) {sw : SliceWindow V G}
    (mem : Memory V G) {now : Nat} (hcfg : Configured sw) (hnow : 0 < now)
    (hrange : now / sw.intervalInMs.toNat < 2 ^ 63)
    (hslot : sw.array[(now / sw.intervalInMs.toNat) % sw.sampleCount.toNat]? = some none)
    (hv : (sw.generator.NewEmptyBucket mem.gen).1 ≠ none) :
    currentBucketOfTime (fuel + 1) sw mem now
      = ⟨Ret.ok (some mem.next),
         { sw with array := sw.array.set ((now / sw.intervalInMs.toNat) % sw.sampleCount.toNat)
                              (some mem.next) },
         { mem with cells := Function.update mem.cells mem.next
                              ⟨now - now % sw.intervalInMs.toNat,
                               (sw.generator.NewEmptyBucket mem.gen).1⟩,
                    next := mem.next + 1,
                    gen := (sw.generator.NewEmptyBucket mem.gen).2,
                    calls := mem.calls ++ [Call.NewEmptyBucket] }⟩ := by
  rw [currentBucketOfTime_eq_inspect _ mem hcfg hnow hrange]
  exact inspect_empty _ fuel mem (Int.ofNat_nonneg _) (by rw [Int.toNat_ofNat]; exact hslot) hv

theorem currentBucketOfTime_same {V G : Type} (fuel : Nat) {sw : SliceWindow V G}
    {mem : Memory V G} {now old : Nat} (hcfg : Configured sw) (hnow : 0 < now)
    (hrange : now / sw.intervalInMs.toNat < 2 ^ 63)
    (hslot : sw.array[(now / sw.intervalInMs.toNat) % sw.sampleCount.toNat]? = some (some old))
    (hstart : now - now % sw.intervalInMs.toNat = (mem.cells old).BucketStart) :
    currentBucketOfTime (fuel + 1) sw mem now = ⟨Ret.ok (some old), sw, mem⟩ := by
  rw [currentBucketOfTime_eq_inspect _ mem hcfg hnow hrange]
  exact inspect_same fuel (Int.ofNat_nonneg _) (by rw [Int.toNat_ofNat]; exact hslot) hstart

theorem currentBucketOfTime_stale {V G : Type} (fuel : Nat) {sw : SliceWindow V G}
    {mem : Memory V G} {now old : Nat} (hcfg : Configured sw) (hnow : 0 < now)
    (hrange : now / sw.intervalInMs.toNat < 2 ^ 63)
    (hslot : sw.array[(now / sw.intervalInMs.toNat) % sw.sampleCount.toNat]? = some (some old))
    (hstart : now - now % sw.intervalInMs.toNat < (mem.cells old).BucketStart) :
    currentBucketOfTime (fuel + 1) sw mem now
      = ⟨Ret.error (Error.behind (now - now % sw.intervalInMs.toNat)
            (mem.cells old).BucketStart), sw, mem⟩ := by
  rw [currentBucketOfTime_eq_inspect _ mem hcfg hnow hrange]
  exact inspect_stale fuel (Int.ofNat_nonneg _) (by rw [Int.toNat_ofNat]; exact hslot) hstart

theorem currentBucketOfTime_rotate {V G : Type} (fuel : Nat) {sw sw1 : SliceWindow V G}
    {mem mem1 : Memory V G} {now old : Nat} (hcfg : Configured sw) (hnow : 0 < now)
    (hrange : now / sw.intervalInMs.toNat < 2 ^ 63)
    (hslot : sw.array[(now / sw.intervalInMs.toNat) % sw.sampleCount.toNat]? = some (some old))
    (hstart : (mem.cells old).BucketStart < now - now % sw.intervalInMs.toNat)
    (hcall : callDeprecatedCallbackFunc sw mem = some (sw1, mem1))
    (hlock : sw.updateLock.locked = false) :
    currentBucketOfTime (fuel + 1) sw mem now
      = ⟨Ret.ok (sw1.generator.ResetBucketTo mem1.gen mem1.cells old
            (now - now % sw.intervalInMs.toNat)).ret,
         { sw1 with updateLock := { locked := false } },
         { mem1 with
             cells := (sw1.generator.ResetBucketTo mem1.gen mem1.cells old
                        (now - now % sw.intervalInMs.toNat)).cells,
             gen := (sw1.generator.ResetBucketTo mem1.gen mem1.cells old
                        (now - now % sw.intervalInMs.toNat)).gen,
             calls := mem1.calls ++
                        [Call.ResetBucketTo old (now - now % sw.intervalInMs.toNat)] }⟩ := by
  rw [currentBucketOfTime_eq_inspect _ mem hcfg hnow hrange]
  exact inspect_rotate fuel (Int.ofNat_nonneg _) (by rw [Int.toNat_ofNat]; exact hslot) hstart hcall hlock

theorem Values_total {V G : Type} (sw : SliceWindow V G) (mem : Memory V G)
    (hS : 0 ≤ sw.sampleCount) (hlen : sw.array.length = sw.sampleCount.toNat) :
    ∃ values, Values sw mem = (some values, { mem with ticks := mem.ticks + 1 }) := by
  refine ⟨liveBuckets (expiredWrapped sw mem.cells (mem.clock mem.ticks % 2 ^ 64)) sw.array
    (mem.clock mem.ticks % 2 ^ 64), ?_⟩
  show (valuesWithTime sw mem.cells (mem.clock mem.ticks % 2 ^ 64),
      ({ mem with ticks := mem.ticks + 1 } : Memory V G)) = _
  rw [valuesWithTime_eq sw _ _ hS hlen]

theorem callDeprecatedCallbackFunc_total {V G : Type} {sw : SliceWindow V G} (mem : Memory V G)
    (hwf : WellFormed sw) : ∃ r, callDeprecatedCallbackFunc sw mem = some r := by
  obtain ⟨⟨-, -, -, hSpos, -⟩, hlen⟩ := hwf
  unfold callDeprecatedCallbackFunc
  split
  · exact ⟨_, rfl⟩
  · split
    · exact ⟨_, rfl⟩
    · rename_i l hl
      obtain ⟨values, hv⟩ := Values_total { sw with deprecatedLock := l } mem
        (le_of_lt hSpos) hlen
      rw [hv]
      exact ⟨_, rfl⟩

/-! ## C6: when a call fails -/

/-- Counterexample to C6 as stated.  With the total generator `nilGenerator`,
five slots of 1000 ms and slot 0 holding `BucketStart = 0`, the call at
`now = 5000` is neither of the two error cases, yet it returns no bucket (the
nil pointer the generator answered, with a nil error).  With the total
generator `nilPayloadGenerator`, whose `NewEmptyBucket` answers nil, the call at
`now = 1` on the fresh window (every slot empty) returns neither an error nor a
bucket: `Value.Store` panics.  And with the mock generator on five slots of
1 ms, the call at `now = 2 ^ 63` on the fresh window returns neither an error
nor a bucket: the array access panics. -/
theorem currentBucketOfTime_returns_nil_of_generator :
    NewSliceWindow 5 1000 (some nilGenerator)
      = some (Except.ok { mockWindow 5 1000 with generator := nilGenerator }) ∧
    (currentBucketOfTime 1 { mockWindow 5 1000 with generator := nilGenerator } blankMemory 1).ret
      = Ret.ok (some 0) ∧
    ((currentBucketOfTime 1 { mockWindow 5 1000 with generator := nilGenerator }
        blankMemory 1).mem.cells 0).BucketStart = 0 ∧
    (currentBucketOfTime 1
        (currentBucketOfTime 1 { mockWindow 5 1000 with generator := nilGenerator }
          blankMemory 1).sw
        (currentBucketOfTime 1 { mockWindow 5 1000 with generator := nilGenerator }
          blankMemory 1).mem 5000).ret
      = Ret.ok none ∧
    NewSliceWindow 5 1000 (some nilPayloadGenerator)
      = some (Except.ok { mockWindow 5 1000 with generator := nilPayloadGenerator }) ∧
    (currentBucketOfTime 1 { mockWindow 5 1000 with generator := nilPayloadGenerator }
        blankMemory 1).ret = Ret.panic ∧
    (currentBucketOfTime 1 (mockWindow 5 1) blankMemory (2 ^ 63)).ret = Ret.panic :=
  ⟨rfl, by decide, by decide, by decide, rfl, by decide, by decide⟩

/-- C6, amended: on a well-formed window with the update lock free and a
generator whose `NewEmptyBucket` and `ResetBucketTo` never answer nil, for a
timestamp whose interval number `floor(now / intervalInMs)` is below `2 ^ 63`,
`currentBucketOfTime(now)` ends after a single inspection of the slot (more fuel
changes nothing); it returns an error exactly when `now <= 0` (the
non-positive-time error, state unchanged) or the slot of `now` is occupied by a
bucket whose `BucketStart` is greater than the computed start (the
stale-timestamp error); in every other case it returns a bucket. -/
theorem currentBucketOfTime_error_iff {V G : Type} (fuel : Nat) (sw : SliceWindow V G)
    (mem : Memory V G) (now : Nat)
    (hwf : WellFormed sw) (hlock : sw.updateLock.locked = false)
    (hpay : GivesPayload sw.generator) (hgen : ReturnsBucket sw.generator)
    (hrange : now / sw.intervalInMs.toNat < 2 ^ 63) :
    currentBucketOfTime (fuel + 1) sw mem now = currentBucketOfTime 1 sw mem now ∧
    ((∃ e, (currentBucketOfTime 1 sw mem now).ret = Ret.error e) ↔
      (now ≤ 0 ∨ ∃ old,
        sw.array[(now / sw.intervalInMs.toNat) % sw.sampleCount.toNat]? = some (some old) ∧
        now - now % sw.intervalInMs.toNat < (mem.cells old).BucketStart)) ∧
    ((∃ b, (currentBucketOfTime 1 sw mem now).ret = Ret.ok (some b)) ↔
      ¬ (now ≤ 0 ∨ ∃ old,
        sw.array[(now / sw.intervalInMs.toNat) % sw.sampleCount.toNat]? = some (some old) ∧
        now - now % sw.intervalInMs.toNat < (mem.cells old).BucketStart)) ∧
    (now ≤ 0 → currentBucketOfTime 1 sw mem now
        = ⟨Ret.error Error.currentTimeLessThanZero, sw, mem⟩) ∧
    (∀ old, 0 < now →
        sw.array[(now / sw.intervalInMs.toNat) % sw.sampleCount.toNat]? = some (some old) →
        now - now % sw.intervalInMs.toNat < (mem.cells old).BucketStart →
        (currentBucketOfTime 1 sw mem now).ret
          = Ret.error (Error.behind (now - now % sw.intervalInMs.toNat)
              (mem.cells old).BucketStart)) := by
  have hcfg := hwf.1
  by_cases hnow : now ≤ 0
  · have h0 : now = 0 := by omega
    subst h0
    simp [currentBucketOfTime_zero]
  · have hpos : 0 < now := by omega
    have hne0 : now ≠ 0 := by omega
    have hlt := slot_lt_length hwf (now / sw.intervalInMs.toNat)
    cases hslot : sw.array[(now / sw.intervalInMs.toNat) % sw.sampleCount.toNat]? with
    | none =>
      rw [List.getElem?_eq_getElem hlt] at hslot
      exact absurd hslot (by simp)
    | some slot =>
      cases slot with
      | none =>
        rw [currentBucketOfTime_empty fuel mem hcfg hpos hrange hslot (hpay mem.gen),
          currentBucketOfTime_empty 0 mem hcfg hpos hrange hslot (hpay mem.gen)]
        simp [hnow]
      | some old =>
        rcases Nat.lt_trichotomy (now - now % sw.intervalInMs.toNat) (mem.cells old).BucketStart
          with hlt2 | heq | hgt
        · rw [currentBucketOfTime_stale fuel hcfg hpos hrange hslot hlt2,
            currentBucketOfTime_stale 0 hcfg hpos hrange hslot hlt2]
          simp [hlt2, hne0]
        · rw [currentBucketOfTime_same fuel hcfg hpos hrange hslot heq,
            currentBucketOfTime_same 0 hcfg hpos hrange hslot heq]
          simp [hnow, heq]
        · obtain ⟨⟨sw1, mem1⟩, hcall⟩ := callDeprecatedCallbackFunc_total mem hwf
          have hfr := callDeprecatedCallbackFunc_frame hcall
          rw [currentBucketOfTime_rotate fuel hcfg hpos hrange hslot hgt hcall hlock,
            currentBucketOfTime_rotate 0 hcfg hpos hrange hslot hgt hcall hlock]
          have hret := hgen mem1.gen mem1.cells old (now - now % sw.intervalInMs.toNat)
          rw [← hfr.1] at hret
          obtain ⟨b, hb⟩ := Option.ne_none_iff_exists.1 hret
          have hngt : ¬ now - now % sw.intervalInMs.toNat < (mem.cells old).BucketStart := by
            omega
          simp only [← hb]
          refine ⟨trivial, ⟨fun ⟨e, he⟩ => by simp at he, fun h => ?_⟩, ⟨fun _ => ?_, fun _ => ⟨b, rfl⟩⟩,
            fun h => absurd h hnow, fun old2 _ hs hl => ?_⟩
          · rcases h with h | ⟨old2, hs, hl⟩
            · exact absurd h hnow
            · simp only [Option.some.injEq] at hs
              subst hs
              omega
          · rintro (h | ⟨old2, hs, hl⟩)
            · exact absurd h hnow
            · simp only [Option.some.injEq] at hs
              subst hs
              omega
          · simp only [Option.some.injEq] at hs
            subst hs
            omega

/-- Witness of C6: five slots of 1000 ms with the mock generator, `now = 1500`. -/
theorem currentBucketOfTime_error_iff_witness :
    currentBucketOfTime 3 (mockWindow 5 1000) blankMemory 1500
      = currentBucketOfTime 1 (mockWindow 5 1000) blankMemory 1500 ∧
    (currentBucketOfTime 1 (mockWindow 5 1000) blankMemory 1500).ret = Ret.ok (some 0) :=
  ⟨(currentBucketOfTime_error_iff 2 (mockWindow 5 1000) blankMemory 1500
      (by decide) (by decide) MockGenerator_givesPayload MockGenerator_returnsBucket
      (by decide)).1,
   by decide⟩

/-! ## C10: rotation on five slots of 1000 ms -/

theorem rotation_steps {V G : Type} (fuel : Nat) (w : SliceWindow V G) (mem : Memory V G)
    (hcfg : Configured w) (hS : w.sampleCount = 5) (hI : w.intervalInMs = 1000)
    (harr : w.array = [none, none, none, none, none]) (hdep : w.deprecatedFunc = none)
    (hlock : w.updateLock.locked = false) (hg : LawAbiding w.generator)
    (hp : GivesPayload w.generator) :
    (callsOfTimes (fuel + 1) [1, 1000, 5000] w mem).1
      = [Ret.ok (some mem.next), Ret.ok (some (mem.next + 1)), Ret.ok (some mem.next)] ∧
    (callsOfTimes (fuel + 1) [1] w mem).2.1.array
      = [some mem.next, none, none, none, none] ∧
    ((callsOfTimes (fuel + 1) [1] w mem).2.2.cells mem.next).BucketStart = 0 ∧
    (callsOfTimes (fuel + 1) [1, 1000] w mem).2.1.array
      = [some mem.next, some (mem.next + 1), none, none, none] ∧
    ((callsOfTimes (fuel + 1) [1, 1000] w mem).2.2.cells mem.next).BucketStart = 0 ∧
    ((callsOfTimes (fuel + 1) [1, 1000] w mem).2.2.cells (mem.next + 1)).BucketStart = 1000 ∧
    (callsOfTimes (fuel + 1) [1, 1000, 5000] w mem).2.1.array
      = [some mem.next, some (mem.next + 1), none, none, none] ∧
    ((callsOfTimes (fuel + 1) [1, 1000, 5000] w mem).2.2.cells mem.next).BucketStart = 5000 ∧
    ((callsOfTimes (fuel + 1) [1, 1000, 5000] w mem).2.2.cells (mem.next + 1)).BucketStart
      = 1000 := by
  have hne : mem.next + 1 ≠ mem.next := by omega
  have hIn : w.intervalInMs.toNat = 1000 := by rw [hI]; rfl
  have hSn : w.sampleCount.toNat = 5 := by rw [hS]; rfl
  -- the call at 1
  have h1 := currentBucketOfTime_empty fuel mem hcfg (by decide : 0 < 1)
    (by rw [hIn]; decide) (by rw [hIn, hSn, harr]; rfl) (hp mem.gen)
  rw [hIn, hSn, harr] at h1
  -- the call at 1000
  have h2 := @currentBucketOfTime_empty V G fuel (currentBucketOfTime (fuel + 1) w mem 1).sw
    (currentBucketOfTime (fuel + 1) w mem 1).mem 1000
    (by rw [h1]; exact hcfg) (by decide) (by rw [h1]; simp only [hIn]; decide)
    (by rw [h1]; simp only [hIn, hSn]; rfl) (by rw [h1]; exact hp _)
  rw [h1] at h2
  simp only [hIn, hSn] at h2
  -- the call at 5000
  have hcall := @callDeprecatedCallbackFunc_none V G
    (currentBucketOfTime (fuel + 1) (currentBucketOfTime (fuel + 1) w mem 1).sw
      (currentBucketOfTime (fuel + 1) w mem 1).mem 1000).sw
    (currentBucketOfTime (fuel + 1) (currentBucketOfTime (fuel + 1) w mem 1).sw
      (currentBucketOfTime (fuel + 1) w mem 1).mem 1000).mem
    (by rw [h1, h2]; exact hdep)
  have h3 := @currentBucketOfTime_rotate V G fuel _ _ _ _ 5000 mem.next
    (by rw [h1, h2]; exact hcfg) (by decide)
    (by rw [h1, h2]; simp only [hIn]; decide)
    (by rw [h1, h2]; simp only [hIn, hSn]; rfl)
    (by rw [h1, h2]; simp [hIn, Function.update, hne.symm])
    hcall (by rw [h1, h2]; exact hlock)
  rw [h1, h2] at h3
  simp only [hIn, hSn] at h3
  have hs1 := hg.1 (w.generator.NewEmptyBucket (w.generator.NewEmptyBucket mem.gen).2).2
    (Function.update
      (Function.update mem.cells mem.next
        ⟨1 - 1 % 1000, (w.generator.NewEmptyBucket mem.gen).1⟩) (mem.next + 1)
      ⟨1000 - 1000 % 1000, (w.generator.NewEmptyBucket (w.generator.NewEmptyBucket mem.gen).2).1⟩)
    mem.next (5000 - 5000 % 1000)
  have hs2 := hg.2 (w.generator.NewEmptyBucket (w.generator.NewEmptyBucket mem.gen).2).2
    (Function.update
      (Function.update mem.cells mem.next
        ⟨1 - 1 % 1000, (w.generator.NewEmptyBucket mem.gen).1⟩) (mem.next + 1)
      ⟨1000 - 1000 % 1000, (w.generator.NewEmptyBucket (w.generator.NewEmptyBucket mem.gen).2).1⟩)
    mem.next (5000 - 5000 % 1000) (mem.next + 1) hne
  simp only [callsOfTimes, h1, h2, h3, hs1.1, hs1.2, hs2]
  simp [Function.update, hne.symm]

/-- Counterexample to C10 as stated: on the window of
`NewSliceWindow(5, 1000, &MockGenerator{})` the call at `now = 0` returns the
non-positive-time error and no bucket. -/
theorem call_at_zero_is_rejected :
    NewSliceWindow 5 1000 (some MockGenerator) = some (Except.ok (mockWindow 5 1000)) ∧
    (currentBucketOfTime 1 (mockWindow 5 1000) blankMemory 0).ret
      = Ret.error Error.currentTimeLessThanZero :=
  ⟨NewSliceWindow_mock 5 1000 (by decide) (by decide) (by decide), by decide⟩

/-- C10, amended: on a window constructed with `sampleCount = 5`,
`intervalInMs = 1000` and a law-abiding generator (whose `NewEmptyBucket` does
not answer nil), the call at `now = 0` returns
an error and leaves the state unchanged; the call at `now = 1` returns a new
bucket, stored in slot 0, with `BucketStart = 0`; the call at `now = 1000` then
returns a different bucket, stored in slot 1, with `BucketStart = 1000`; the call
at `now = 5000` then returns the bucket of slot 0 again, now with
`BucketStart = 5000`, so that no bucket with `BucketStart = 0` is left, and the
bucket of slot 1 still has `BucketStart = 1000`. -/
theorem rotation_on_five_slots {V G : Type} (fuel : Nat) (g : BucketGenerator V G)
    (w : SliceWindow V G) (mem : Memory V G) (hg : LawAbiding g) (hp : GivesPayload g)
    (hw : NewSliceWindow 5 1000 (some g) = some (Except.ok w)) :
    currentBucketOfTime (fuel + 1) w mem 0
      = ⟨Ret.error Error.currentTimeLessThanZero, w, mem⟩ ∧
    (callsOfTimes (fuel + 1) [1, 1000, 5000] w mem).1
      = [Ret.ok (some mem.next), Ret.ok (some (mem.next + 1)), Ret.ok (some mem.next)] ∧
    (callsOfTimes (fuel + 1) [1] w mem).2.1.array
      = [some mem.next, none, none, none, none] ∧
    ((callsOfTimes (fuel + 1) [1] w mem).2.2.cells mem.next).BucketStart = 0 ∧
    (callsOfTimes (fuel + 1) [1, 1000] w mem).2.1.array
      = [some mem.next, some (mem.next + 1), none, none, none] ∧
    ((callsOfTimes (fuel + 1) [1, 1000] w mem).2.2.cells mem.next).BucketStart = 0 ∧
    ((callsOfTimes (fuel + 1) [1, 1000] w mem).2.2.cells (mem.next + 1)).BucketStart = 1000 ∧
    (callsOfTimes (fuel + 1) [1, 1000, 5000] w mem).2.1.array
      = [some mem.next, some (mem.next + 1), none, none, none] ∧
    ((callsOfTimes (fuel + 1) [1, 1000, 5000] w mem).2.2.cells mem.next).BucketStart = 5000 ∧
    ((callsOfTimes (fuel + 1) [1, 1000, 5000] w mem).2.2.cells (mem.next + 1)).BucketStart
      = 1000 := by
  have hw0 : w = { sampleCount := 5, intervalInMs := 1000, generator := g,
                   windowSizeInMs := wrapInt (5 * 1000),
                   array := [none, none, none, none, none], deprecatedFunc := none,
                   updateLock := { locked := false }, deprecatedLock := { locked := false } } :=
    (NewSliceWindow_ok hw).2.2.2
  subst hw0
  refine ⟨currentBucketOfTime_zero _ _ _, ?_⟩
  refine rotation_steps fuel _ mem ?_ rfl rfl rfl rfl rfl hg hp
  unfold Configured
  exact ⟨(by decide : IsInt 5), (by decide : IsInt 1000),
    (by decide : IsInt (wrapInt (5 * 1000))), (by decide : (0 : Int) < 5),
    (by decide : (0 : Int) < 1000)⟩

/-- Witness of C10: the mock generator and a blank memory. -/
theorem rotation_on_five_slots_witness :
    (callsOfTimes 1 [1, 1000, 5000] (mockWindow 5 1000) blankMemory).1
      = [Ret.ok (some blankMemory.next), Ret.ok (some (blankMemory.next + 1)),
          Ret.ok (some blankMemory.next)] :=
  (rotation_on_five_slots 0 MockGenerator (mockWindow 5 1000) blankMemory
    MockGenerator_lawAbiding MockGenerator_givesPayload
    (NewSliceWindow_mock 5 1000 (by decide) (by decide) (by decide))).2.1

/-! ## C4 and C2: timestamps whose interval number does not fit an `int` -/

/-- C4, at the failing input: on the window of `NewSliceWindow(5, 1, &MockGenerator{})`
the single call at `now = 2 ^ 63` computes the slot index `-3` and panics on the
array access, for every amount of fuel. -/
theorem call_at_two_pow_63_panics (fuel : Nat) :
    NewSliceWindow 5 1 (some MockGenerator) = some (Except.ok (mockWindow 5 1)) ∧
    calculateTimeIdx (mockWindow 5 1) (2 ^ 63) = some (-3) ∧
    (callsOfTimes (fuel + 1) [2 ^ 63] (mockWindow 5 1) blankMemory).1 = [Ret.panic] := by
  refine ⟨NewSliceWindow_mock 5 1 (by decide) (by decide) (by decide), by decide, ?_⟩
  have hidx : calculateTimeIdx (mockWindow 5 1) (2 ^ 63) = some (-3) := by decide
  simp only [callsOfTimes]
  rw [currentBucketOfTime_of_idx (by decide) hidx]
  simp [inspect]

/-- C2, at the failing input: on the window of `NewSliceWindow(7, 1, &MockGenerator{})`
the calls at `2 ^ 63 - 1` and `2 ^ 63 + 1` both succeed and both map to slot 0,
so the second rotates the bucket of the first away: the interval start
`2 ^ 63 - 1` is greater than `(2 ^ 63 + 1) - windowSizeInMs`, yet the snapshot at
`2 ^ 63 + 1` holds only the bucket with `BucketStart = 2 ^ 63 + 1`. -/
theorem coverage_lost_beyond_two_pow_63 :
    NewSliceWindow 7 1 (some MockGenerator) = some (Except.ok (mockWindow 7 1)) ∧
    (mockWindow 7 1).windowSizeInMs = 7 ∧
    calculateTimeIdx (mockWindow 7 1) (2 ^ 63 - 1) = some 0 ∧
    calculateTimeIdx (mockWindow 7 1) (2 ^ 63 + 1) = some 0 ∧
    (callsOfTimes 1 [2 ^ 63 - 1, 2 ^ 63 + 1] (mockWindow 7 1) blankMemory).1
      = [Ret.ok (some 0), Ret.ok (some 0)] ∧
    ((2 ^ 63 - 1 : Int) > (2 ^ 63 + 1) - 7) ∧
    valuesWithTime (callsOfTimes 1 [2 ^ 63 - 1, 2 ^ 63 + 1] (mockWindow 7 1) blankMemory).2.1
        (callsOfTimes 1 [2 ^ 63 - 1, 2 ^ 63 + 1] (mockWindow 7 1) blankMemory).2.2.cells
        (2 ^ 63 + 1)
      = some [0] ∧
    ((callsOfTimes 1 [2 ^ 63 - 1, 2 ^ 63 + 1] (mockWindow 7 1) blankMemory).2.2.cells 0).BucketStart
      = 2 ^ 63 + 1 :=
  ⟨NewSliceWindow_mock 7 1 (by decide) (by decide) (by decide), by decide, by decide, by decide, by decide,
   by decide, by decide, by decide⟩

/-! ## One call in a time-ordered use -/

theorem callDeprecatedCallbackFunc_starts {V G : Type} {sw sw1 : SliceWindow V G}
    {mem mem1 : Memory V G} (h : callDeprecatedCallbackFunc sw mem = some (sw1, mem1))
    (hf : ∀ f, sw.deprecatedFunc = some f → KeepsStarts f) (a : Nat) :
    (mem1.cells a).BucketStart = (mem.cells a).BucketStart := by
  unfold callDeprecatedCallbackFunc at h
  split at h
  · simp only [Option.some.injEq, Prod.mk.injEq] at h
    obtain ⟨-, rfl⟩ := h
    rfl
  · rename_i f hfun
    split at h
    · simp only [Option.some.injEq, Prod.mk.injEq] at h
      obtain ⟨-, rfl⟩ := h
      rfl
    · split at h
      · exact absurd h (by simp)
      · rename_i hv
        simp only [Option.some.injEq, Prod.mk.injEq] at h
        obtain ⟨-, rfl⟩ := h
        simp only [Values, CurrentTimeMillsWithTicker, Prod.mk.injEq] at hv
        obtain ⟨-, rfl⟩ := hv
        exact hf f hfun _ _ a

theorem intervalStart_facts (now I : Nat) (hI : 0 < I) :
    I ∣ now - now % I ∧ (now - now % I) / I = now / I ∧ now - now % I ≤ now := by
  have h := Nat.div_add_mod now I
  have hle : now % I ≤ now := Nat.mod_le _ _
  have heq : now - now % I = I * (now / I) := by omega
  refine ⟨Nat.dvd_sub_mod now, ?_, by omega⟩
  rw [heq, Nat.mul_div_cancel_left _ hI]

theorem intervalStart_mono {a b : Nat} (I : Nat) (hab : a ≤ b) : a - a % I ≤ b - b % I := by
  have ha := Nat.div_add_mod a I
  have hb := Nat.div_add_mod b I
  have hla : a % I ≤ a := Nat.mod_le _ _
  have hlb : b % I ≤ b := Nat.mod_le _ _
  have hd : a / I ≤ b / I := Nat.div_le_div_right hab
  have hm : I * (a / I) ≤ I * (b / I) := Nat.mul_le_mul_left _ hd
  omega

/-- One call at a timestamp that is not behind the window, on a steady state:
it returns the bucket of the slot of `now`, whose start is the interval start of
`now`; the state stays steady; no slot loses its bucket and no start decreases. -/
theorem currentBucketOfTime_steady {V G : Type} (fuel : Nat) (sw : SliceWindow V G)
    (mem : Memory V G) (B now : Nat) (hst : Steady sw mem B) (hnow : 0 < now)
    (hrange : now / sw.intervalInMs.toNat < 2 ^ 63)
    (hB : B ≤ now - now % sw.intervalInMs.toNat) :
    (∃ b, (currentBucketOfTime (fuel + 1) sw mem now).ret = Ret.ok (some b) ∧
        (currentBucketOfTime (fuel + 1) sw mem now).sw.array[
            (now / sw.intervalInMs.toNat) % sw.sampleCount.toNat]? = some (some b) ∧
        ((currentBucketOfTime (fuel + 1) sw mem now).mem.cells b).BucketStart
          = now - now % sw.intervalInMs.toNat) ∧
    Steady (currentBucketOfTime (fuel + 1) sw mem now).sw
      (currentBucketOfTime (fuel + 1) sw mem now).mem (now - now % sw.intervalInMs.toNat) ∧
    ((currentBucketOfTime (fuel + 1) sw mem now).sw.sampleCount = sw.sampleCount ∧
      (currentBucketOfTime (fuel + 1) sw mem now).sw.intervalInMs = sw.intervalInMs ∧
      (currentBucketOfTime (fuel + 1) sw mem now).sw.windowSizeInMs = sw.windowSizeInMs) ∧
    (∀ (j a : Nat), sw.array[j]? = some (some a) →
      ∃ a2, (currentBucketOfTime (fuel + 1) sw mem now).sw.array[j]? = some (some a2) ∧
        (mem.cells a).BucketStart
          ≤ ((currentBucketOfTime (fuel + 1) sw mem now).mem.cells a2).BucketStart) := by
  obtain ⟨hwf, hlock, ⟨hlaw, hpay⟩, hcb, hslots⟩ := hst
  have hcfg := hwf.1
  have hIpos : 0 < sw.intervalInMs.toNat := by
    have := hcfg.2.2.2.2
    omega
  obtain ⟨hdvd, hquot, -⟩ := intervalStart_facts now sw.intervalInMs.toNat hIpos
  have hlt := slot_lt_length hwf (now / sw.intervalInMs.toNat)
  cases hslot : sw.array[(now / sw.intervalInMs.toNat) % sw.sampleCount.toNat]? with
  | none =>
    rw [List.getElem?_eq_getElem hlt] at hslot
    exact absurd hslot (by simp)
  | some slot =>
    cases slot with
    | none =>
      rw [currentBucketOfTime_empty fuel mem hcfg hnow hrange hslot (hpay mem.gen)]
      refine ⟨⟨mem.next, rfl, by simp [List.getElem?_set_self hlt], by simp⟩,
        ⟨⟨hcfg, by simpa using hwf.2⟩, hlock, ⟨hlaw, hpay⟩, hcb, ?_⟩,
        ⟨rfl, rfl, rfl⟩, ?_⟩
      · intro j a hj
        simp only at hj ⊢
        by_cases hji : (now / sw.intervalInMs.toNat) % sw.sampleCount.toNat = j
        · subst hji
          rw [List.getElem?_set_self hlt] at hj
          simp only [Option.some.injEq] at hj
          subst hj
          simp only [Function.update_same]
          exact ⟨by omega, le_refl _, hdvd, by rw [hquot]⟩
        · rw [List.getElem?_set_ne hji] at hj
          obtain ⟨h1, h2, h3, h4⟩ := hslots j a hj
          have hne : a ≠ mem.next := by omega
          simp only [Function.update_noteq hne]
          exact ⟨by omega, by omega, h3, h4⟩
      · intro j a hj
        have hji : (now / sw.intervalInMs.toNat) % sw.sampleCount.toNat ≠ j := by
          intro h
          subst h
          rw [hslot] at hj
          simp at hj
        have hne : a ≠ mem.next := by
          have := (hslots j a hj).1
          omega
        exact ⟨a, by simp [List.getElem?_set_ne hji, hj], by simp [Function.update_noteq hne]⟩
    | some old =>
      obtain ⟨ho1, ho2, ho3, ho4⟩ := hslots _ old hslot
      rcases Nat.lt_trichotomy (now - now % sw.intervalInMs.toNat) (mem.cells old).BucketStart
        with hlt2 | heq | hgt
      · omega
      · rw [currentBucketOfTime_same fuel hcfg hnow hrange hslot heq]
        refine ⟨⟨old, rfl, hslot, heq.symm⟩, ⟨hwf, hlock, ⟨hlaw, hpay⟩, hcb, ?_⟩,
          ⟨rfl, rfl, rfl⟩, ?_⟩
        · intro j a hj
          obtain ⟨h1, h2, h3, h4⟩ := hslots j a hj
          exact ⟨h1, le_trans h2 hB, h3, h4⟩
        · intro j a hj
          exact ⟨a, hj, le_refl _⟩
      · obtain ⟨⟨sw1, mem1⟩, hcall⟩ := callDeprecatedCallbackFunc_total mem hwf
        obtain ⟨hf1, hf2, hf3, hf4, hf5, hf6, hf7, hf8, hf9⟩ :=
          callDeprecatedCallbackFunc_frame hcall
        have hstarts := callDeprecatedCallbackFunc_starts hcall hcb
        rw [currentBucketOfTime_rotate fuel hcfg hnow hrange hslot hgt hcall hlock]
        have hret := (hlaw.1 mem1.gen mem1.cells old (now - now % sw.intervalInMs.toNat))
        have hframe := hlaw.2 mem1.gen mem1.cells old (now - now % sw.intervalInMs.toNat)
        rw [← hf1] at hret hframe
        refine ⟨⟨old, by rw [hret.1], by simp [hf2, hslot], hret.2⟩,
          ⟨⟨?_, by simpa [hf2, hf3] using hwf.2⟩, rfl,
            ⟨by simpa [hf1] using hlaw, by simpa [hf1] using hpay⟩,
            by simpa [hf6] using hcb, ?_⟩,
          ⟨hf3, hf4, hf5⟩, ?_⟩
        · unfold Configured
          simp only [hf3, hf4, hf5]
          exact hcfg
        · intro j a hj
          simp only [hf2, hf3, hf4, hf8] at hj ⊢
          obtain ⟨h1, h2, h3, h4⟩ := hslots j a hj
          by_cases hao : a = old
          · subst hao
            rw [hret.2]
            have hj2 : j = (now / sw.intervalInMs.toNat) % sw.sampleCount.toNat := by
              rw [← h4, ho4]
            exact ⟨h1, le_refl _, hdvd, by rw [hquot, hj2]⟩
          · rw [hframe a hao, hstarts a]
            exact ⟨h1, by omega, h3, h4⟩
        · intro j a hj
          refine ⟨a, by simp [hf2, hj], ?_⟩
          simp only
          by_cases hao : a = old
          · subst hao
            rw [hret.2]
            omega
          · rw [hframe a hao, hstarts a]

/-! ## A time-ordered sequence of calls -/

theorem Steady.mono {V G : Type} {sw : SliceWindow V G} {mem : Memory V G} {B B2 : Nat}
    (h : Steady sw mem B) (hB : B ≤ B2) : Steady sw mem B2 := by
  obtain ⟨hwf, hlock, hlaw, hcb, hslots⟩ := h
  refine ⟨hwf, hlock, hlaw, hcb, fun j a hj => ?_⟩
  obtain ⟨h1, h2, h3, h4⟩ := hslots j a hj
  exact ⟨h1, le_trans h2 hB, h3, h4⟩

theorem callsOfTimes_steady {V G : Type} (fuel : Nat) (ts : List Nat) :
    ∀ (sw : SliceWindow V G) (mem : Memory V G) (B : Nat), Steady sw mem B →
      ts.Pairwise (· ≤ ·) →
      (∀ t ∈ ts, 0 < t ∧ t / sw.intervalInMs.toNat < 2 ^ 63 ∧
        B ≤ t - t % sw.intervalInMs.toNat) →
      (∀ x ∈ (callsOfTimes (fuel + 1) ts sw mem).1, ∃ b, x = Ret.ok (some b)) ∧
      (callsOfTimes (fuel + 1) ts sw mem).1.length = ts.length ∧
      ((callsOfTimes (fuel + 1) ts sw mem).2.1.sampleCount = sw.sampleCount ∧
        (callsOfTimes (fuel + 1) ts sw mem).2.1.intervalInMs = sw.intervalInMs ∧
        (callsOfTimes (fuel + 1) ts sw mem).2.1.windowSizeInMs = sw.windowSizeInMs) ∧
      (∀ T, B ≤ T - T % sw.intervalInMs.toNat → (∀ t ∈ ts, t ≤ T) →
        Steady (callsOfTimes (fuel + 1) ts sw mem).2.1 (callsOfTimes (fuel + 1) ts sw mem).2.2
          (T - T % sw.intervalInMs.toNat)) ∧
      (∀ (j a : Nat), sw.array[j]? = some (some a) →
        ∃ a2, (callsOfTimes (fuel + 1) ts sw mem).2.1.array[j]? = some (some a2) ∧
          (mem.cells a).BucketStart
            ≤ ((callsOfTimes (fuel + 1) ts sw mem).2.2.cells a2).BucketStart) ∧
      (∀ t ∈ ts, ∃ a,
        (callsOfTimes (fuel + 1) ts sw mem).2.1.array[
            (t / sw.intervalInMs.toNat) % sw.sampleCount.toNat]? = some (some a) ∧
        t - t % sw.intervalInMs.toNat
          ≤ ((callsOfTimes (fuel + 1) ts sw mem).2.2.cells a).BucketStart) := by
  induction ts with
  | nil =>
    intro sw mem B hst _ _
    refine ⟨by simp [callsOfTimes], rfl, ⟨rfl, rfl, rfl⟩, fun T hT _ => hst.mono hT,
      fun j a hj => ⟨a, hj, le_refl _⟩, by simp⟩
  | cons t ts ih =>
    intro sw mem B hst hsorted hts
    obtain ⟨htle, hsorted2⟩ := List.pairwise_cons.1 hsorted
    obtain ⟨htpos, htrange, htB⟩ := hts t (List.mem_cons_self _ _)
    obtain ⟨⟨b, hret, hbslot, hbstart⟩, hst1, ⟨hc1, hc2, hc3⟩, hmono1⟩ :=
      currentBucketOfTime_steady fuel sw mem B t hst htpos htrange htB
    have hts2 : ∀ t2 ∈ ts, 0 < t2 ∧
        t2 / (currentBucketOfTime (fuel + 1) sw mem t).sw.intervalInMs.toNat < 2 ^ 63 ∧
        t - t % sw.intervalInMs.toNat
          ≤ t2 - t2 % (currentBucketOfTime (fuel + 1) sw mem t).sw.intervalInMs.toNat := by
      intro t2 ht2
      obtain ⟨h1, h2, -⟩ := hts t2 (List.mem_cons_of_mem _ ht2)
      rw [hc2]
      exact ⟨h1, h2, intervalStart_mono _ (htle t2 ht2)⟩
    obtain ⟨hrets, hlen, ⟨hd1, hd2, hd3⟩, hsteady, hmono2, hcover⟩ :=
      ih (currentBucketOfTime (fuel + 1) sw mem t).sw
        (currentBucketOfTime (fuel + 1) sw mem t).mem (t - t % sw.intervalInMs.toNat)
        hst1 hsorted2 hts2
    rw [hc1, hc2] at hcover
    rw [hc2] at hsteady
    simp only [callsOfTimes]
    refine ⟨?_, by simp [hlen], ⟨hd1.trans hc1, hd2.trans hc2, hd3.trans hc3⟩, ?_, ?_, ?_⟩
    · intro x hx
      rcases List.mem_cons.1 hx with hx | hx
      · exact ⟨b, hx.trans hret⟩
      · exact hrets x hx
    · intro T _ hT
      exact hsteady T (intervalStart_mono _ (hT t (List.mem_cons_self _ _)))
        (fun t2 ht2 => hT t2 (List.mem_cons_of_mem _ ht2))
    · intro j a hj
      obtain ⟨a1, hj1, hle1⟩ := hmono1 j a hj
      obtain ⟨a2, hj2, hle2⟩ := hmono2 j a1 hj1
      exact ⟨a2, hj2, le_trans hle1 hle2⟩
    · intro t2 ht2
      rcases List.mem_cons.1 ht2 with ht2 | ht2
      · subst ht2
        obtain ⟨a2, hj2, hle2⟩ := hmono2 _ b hbslot
        exact ⟨a2, hj2, by omega⟩
      · exact hcover t2 ht2

theorem NewSliceWindow_steady {V G : Type} {sampleCount intervalInMs : Int}
    {g : BucketGenerator V G} {w : SliceWindow V G} (mem : Memory V G)
    (hw : NewSliceWindow sampleCount intervalInMs (some g) = some (Except.ok w))
    (hS : IsInt sampleCount) (hI : IsInt intervalInMs) (hg : LawAbiding g)
    (hp : GivesPayload g) :
    Steady w mem 0 ∧ w.sampleCount = sampleCount ∧ w.intervalInMs = intervalInMs ∧
      w.windowSizeInMs = wrapInt (sampleCount * intervalInMs) := by
  obtain ⟨hSpos, hIpos, hcap, hw0⟩ := NewSliceWindow_ok hw
  subst hw0
  refine ⟨⟨⟨⟨hS, hI, ?_, hSpos, hIpos⟩, by simp⟩, rfl, ⟨hg, hp⟩,
    fun f hf => by simp at hf, ?_⟩, rfl, rfl, rfl⟩
  · unfold IsInt wrapInt
    simp only
    omega
  · intro j a hj
    simp only [List.getElem?_replicate] at hj
    split at hj <;> simp at hj

theorem same_slot_within_window {I n x qi qn : Nat} (hI : 0 < I) (hdvd : I ∣ x)
    (h1 : I * qi ≤ x) (h2 : x ≤ I * qn) (hmod : (x / I) % n = qi % n)
    (hwin : (I : Int) * qn - n * I < I * qi) : x = I * qi := by
  obtain ⟨q, rfl⟩ := hdvd
  rw [Nat.mul_div_cancel_left _ hI] at hmod
  have hq1 : qi ≤ q := Nat.le_of_mul_le_mul_left h1 hI
  have hq2 : q ≤ qn := Nat.le_of_mul_le_mul_left h2 hI
  have hIz : (0 : Int) < I := by exact_mod_cast hI
  have hlt : (qn : Int) - n < qi := by
    have h : (I : Int) * (qn - n) < I * qi := by
      have : (I : Int) * (qn - n) = I * qn - n * I := by ring
      rw [this]; exact hwin
    exact lt_of_mul_lt_mul_left h (le_of_lt hIz)
  have hd : (q - qi) % n = 0 := Nat.sub_mod_eq_zero_of_mod_eq hmod
  have hsmall : q - qi < n := by omega
  have hz : q - qi = 0 := by
    rw [Nat.mod_eq_of_lt hsmall] at hd
    exact hd
  have : q = qi := by omega
  rw [this]

/-- The calls of a time-ordered sequence of positive timestamps whose interval
numbers are below `2 ^ 63`, on a freshly constructed window with a law-abiding
generator, all return a bucket. -/
theorem calls_below_two_pow_63_succeed {V G : Type} (fuel : Nat) (sampleCount intervalInMs : Int)
    (g : BucketGenerator V G) (w : SliceWindow V G) (mem : Memory V G) (ts : List Nat)
    (hw : NewSliceWindow sampleCount intervalInMs (some g) = some (Except.ok w))
    (hS : IsInt sampleCount) (hI : IsInt intervalInMs) (hg : LawAbiding g)
    (hp : GivesPayload g) (hsorted : ts.Pairwise (· ≤ ·))
    (hts : ∀ t ∈ ts, 0 < t ∧ t / intervalInMs.toNat < 2 ^ 63) :
    (callsOfTimes (fuel + 1) ts w mem).1.length = ts.length ∧
    ∀ x ∈ (callsOfTimes (fuel + 1) ts w mem).1, ∃ b, x = Ret.ok (some b) := by
  obtain ⟨hst, -, hwI, -⟩ := NewSliceWindow_steady mem hw hS hI hg hp
  have h := callsOfTimes_steady fuel ts w mem 0 hst hsorted
    (fun t ht => ⟨(hts t ht).1, by rw [hwI]; exact (hts t ht).2, Nat.zero_le _⟩)
  exact ⟨h.2.1, h.1⟩

/-- Rolling-window coverage for timestamps whose interval numbers are below
`2 ^ 63`: after a time-ordered sequence of positive timestamps ending in `tn`,
applied to a freshly constructed window (law-abiding generator, window size
below `2 ^ 63`), the snapshot at `tn` holds, for every timestamp of the sequence
whose interval start is greater than the interval start of `tn` minus
`windowSizeInMs`, a bucket with that interval start, and every bucket of the
snapshot has `BucketStart <= tn`. -/
theorem coverage_below_two_pow_63 {V G : Type} (fuel : Nat) (sampleCount intervalInMs : Int)
    (g : BucketGenerator V G) (w : SliceWindow V G) (mem : Memory V G) (ts : List Nat)
    (tn : Nat)
    (hw : NewSliceWindow sampleCount intervalInMs (some g) = some (Except.ok w))
    (hS : IsInt sampleCount) (hI : IsInt intervalInMs)
    (hprod : sampleCount * intervalInMs < 2 ^ 63) (hg : LawAbiding g) (hp : GivesPayload g)
    (hsorted : (ts ++ [tn]).Pairwise (· ≤ ·)) (htn : IsUint64 tn)
    (hts : ∀ t ∈ ts ++ [tn], 0 < t ∧ t / intervalInMs.toNat < 2 ^ 63) :
    ∃ l, valuesWithTime (callsOfTimes (fuel + 1) (ts ++ [tn]) w mem).2.1
          (callsOfTimes (fuel + 1) (ts ++ [tn]) w mem).2.2.cells tn = some l ∧
      (∀ b ∈ l, ((callsOfTimes (fuel + 1) (ts ++ [tn]) w mem).2.2.cells b).BucketStart ≤ tn) ∧
      (∀ ti ∈ ts ++ [tn],
        ((tn - tn % intervalInMs.toNat : Nat) : Int) - w.windowSizeInMs
          < ((ti - ti % intervalInMs.toNat : Nat) : Int) →
        ∃ b ∈ l, ((callsOfTimes (fuel + 1) (ts ++ [tn]) w mem).2.2.cells b).BucketStart
          = ti - ti % intervalInMs.toNat) := by
  obtain ⟨hst, hwS, hwI, hwW⟩ := NewSliceWindow_steady mem hw hS hI hg hp
  have hSpos : 0 < sampleCount := by have := hst.1.1.2.2.2.1; rw [hwS] at this; exact this
  have hIpos : 0 < intervalInMs := by have := hst.1.1.2.2.2.2; rw [hwI] at this; exact this
  have hWeq : w.windowSizeInMs = sampleCount * intervalInMs := by
    rw [hwW]
    have hpos : 0 < sampleCount * intervalInMs := Int.mul_pos hSpos hIpos
    unfold wrapInt
    omega
  have hle_tn : ∀ t ∈ ts ++ [tn], t ≤ tn := by
    intro t ht
    rcases List.mem_append.1 ht with ht | ht
    · exact (List.pairwise_append.1 hsorted).2.2 t ht tn (by simp)
    · simp at ht; omega
  obtain ⟨-, -, ⟨hc1, hc2, hc3⟩, hsteady, -, hcover⟩ :=
    callsOfTimes_steady fuel (ts ++ [tn]) w mem 0 hst hsorted
      (fun t ht => ⟨(hts t ht).1, by rw [hwI]; exact (hts t ht).2, Nat.zero_le _⟩)
  have hfin := hsteady tn (Nat.zero_le _) hle_tn
  rw [hwI] at hfin hcover
  rw [hwS] at hcover
  obtain ⟨hwf, -, -, -, hslots⟩ := hfin
  unfold SlotsOk at hslots
  rw [hc2.trans hwI, hc1.trans hwS] at hslots
  have htnpos : 0 < tn := (hts tn (by simp)).1
  have hIn : 0 < intervalInMs.toNat := by omega
  have hSn : 0 < sampleCount.toNat := by omega
  have hIcast : (intervalInMs.toNat : Int) = intervalInMs := Int.toNat_of_nonneg (le_of_lt hIpos)
  have hScast : (sampleCount.toNat : Int) = sampleCount := Int.toNat_of_nonneg (le_of_lt hSpos)
  refine ⟨_, valuesWithTime_eq _ _ tn (le_of_lt hwf.1.2.2.2.1) hwf.2, ?_, ?_⟩
  · intro b hb
    obtain ⟨hmem, -⟩ := (mem_liveBuckets htnpos).1 hb
    obtain ⟨j, hj⟩ := List.mem_iff_getElem?.1 hmem
    have := (hslots j b hj).2.1
    have := (intervalStart_facts tn intervalInMs.toNat hIn).2.2
    omega
  · intro ti hti hwin
    obtain ⟨a, hslot, hge⟩ := hcover ti hti
    obtain ⟨-, hle, hdvd, hmod⟩ := hslots _ a hslot
    have hti_eq : ti - ti % intervalInMs.toNat = intervalInMs.toNat * (ti / intervalInMs.toNat) := by
      have := Nat.div_add_mod ti intervalInMs.toNat
      have := Nat.mod_le ti intervalInMs.toNat
      omega
    have htn_eq : tn - tn % intervalInMs.toNat = intervalInMs.toNat * (tn / intervalInMs.toNat) := by
      have := Nat.div_add_mod tn intervalInMs.toNat
      have := Nat.mod_le tn intervalInMs.toNat
      omega
    have hstart : ((callsOfTimes (fuel + 1) (ts ++ [tn]) w mem).2.2.cells a).BucketStart
        = intervalInMs.toNat * (ti / intervalInMs.toNat) := by
      refine same_slot_within_window hIn hdvd (by rw [← hti_eq]; exact hge)
        (by rw [← htn_eq]; exact hle) hmod ?_
      rw [hti_eq, htn_eq, hWeq] at hwin
      simp only [Nat.cast_mul] at hwin
      rw [hIcast, hScast]
      rw [hIcast] at hwin
      linarith
    refine ⟨a, (mem_liveBuckets htnpos).2 ⟨List.mem_iff_getElem?.2 ⟨_, hslot⟩, ?_⟩,
      by rw [hstart, hti_eq]⟩
    unfold expiredWrapped
    rw [hc3, hc2, hWeq, hwI, hstart, ← hti_eq]
    have hmodlt : tn % intervalInMs.toNat < intervalInMs.toNat := Nat.mod_lt _ hIn
    have hmodle : tn % intervalInMs.toNat ≤ tn := Nat.mod_le _ _
    have hle2 : ti - ti % intervalInMs.toNat ≤ tn := by
      rw [← hti_eq] at hstart
      have := (intervalStart_facts tn intervalInMs.toNat hIn).2.2
      omega
    rw [hWeq] at hwin
    unfold IsUint64 at htn
    unfold IsInt at hI
    have hprodpos : 0 < sampleCount * intervalInMs := Int.mul_pos hSpos hIpos
    generalize sampleCount * intervalInMs = W at hwin hprod hprodpos ⊢
    omega

/-! ## The record of collaborator calls -/

theorem deprecatedCalls_append (xs ys : List Call) :
    deprecatedCalls (xs ++ ys) = deprecatedCalls xs ++ deprecatedCalls ys := by
  simp [deprecatedCalls]

/-- Counterexample to C14 as stated: with the generator `nilPayloadGenerator`,
whose `NewEmptyBucket` answers nil, on five slots of 1000 ms, all empty, the call
at `now = 1500` maps to the empty slot 1, calls `NewEmptyBucket`, and panics in
`Value.Store`: it returns no bucket and slot 1 stays empty. -/
theorem currentBucketOfTime_panics_on_nil_payload :
    NewSliceWindow 5 1000 (some nilPayloadGenerator)
      = some (Except.ok { mockWindow 5 1000 with generator := nilPayloadGenerator }) ∧
    calculateTimeIdx { mockWindow 5 1000 with generator := nilPayloadGenerator } 1500 = some 1 ∧
    ({ mockWindow 5 1000 with generator := nilPayloadGenerator } :
        SliceWindow Int Unit).array[1]? = some none ∧
    (currentBucketOfTime 1 { mockWindow 5 1000 with generator := nilPayloadGenerator }
        blankMemory 1500).ret = Ret.panic ∧
    (currentBucketOfTime 1 { mockWindow 5 1000 with generator := nilPayloadGenerator }
        blankMemory 1500).sw.array[1]? = some none ∧
    (currentBucketOfTime 1 { mockWindow 5 1000 with generator := nilPayloadGenerator }
        blankMemory 1500).mem.calls = [Call.NewEmptyBucket] :=
  ⟨rfl, by decide, by decide, by decide, by decide, by decide⟩

/-- C14, amended: on a configured window, when `now > 0` maps to an empty slot
`idx` and `generator.NewEmptyBucket()` returns a payload that is not nil,
`currentBucketOfTime(now)` returns a newly allocated bucket with
`BucketStart = now - now mod intervalInMs` and that payload, stores exactly that
bucket in slot `idx`, records the call of `NewEmptyBucket` and no call of
`ResetBucketTo` or of the deprecation callback, and leaves every other slot and
every other bucket as it was. -/
theorem currentBucketOfTime_creates_lazily {V G : Type} (fuel : Nat) (sw : SliceWindow V G)
    (mem : Memory V G) (now : Nat) (idx : Int)
    (hcfg : Configured sw) (hnow : 0 < now)
    (hidx : calculateTimeIdx sw now = some idx) (h0 : 0 ≤ idx)
    (hslot : sw.array[idx.toNat]? = some none)
    (hv : (sw.generator.NewEmptyBucket mem.gen).1 ≠ none) :
    (currentBucketOfTime (fuel + 1) sw mem now).ret = Ret.ok (some mem.next) ∧
    (currentBucketOfTime (fuel + 1) sw mem now).mem.next = mem.next + 1 ∧
    (currentBucketOfTime (fuel + 1) sw mem now).mem.cells mem.next
      = ⟨now - now % sw.intervalInMs.toNat, (sw.generator.NewEmptyBucket mem.gen).1⟩ ∧
    (currentBucketOfTime (fuel + 1) sw mem now).mem.gen
      = (sw.generator.NewEmptyBucket mem.gen).2 ∧
    (currentBucketOfTime (fuel + 1) sw mem now).sw.array[idx.toNat]? = some (some mem.next) ∧
    (currentBucketOfTime (fuel + 1) sw mem now).sw.array.length = sw.array.length ∧
    (∀ (j : Nat), j ≠ idx.toNat →
      (currentBucketOfTime (fuel + 1) sw mem now).sw.array[j]? = sw.array[j]?) ∧
    (∀ (a : Nat), a ≠ mem.next →
      (currentBucketOfTime (fuel + 1) sw mem now).mem.cells a = mem.cells a) ∧
    (currentBucketOfTime (fuel + 1) sw mem now).mem.calls
      = mem.calls ++ [Call.NewEmptyBucket] ∧
    resetCalls (currentBucketOfTime (fuel + 1) sw mem now).mem.calls = resetCalls mem.calls ∧
    deprecatedCalls (currentBucketOfTime (fuel + 1) sw mem now).mem.calls
      = deprecatedCalls mem.calls := by
  have hconv : toUint64 sw.intervalInMs = sw.intervalInMs.toNat :=
    toUint64_eq_toNat hcfg.2.1 (le_of_lt hcfg.2.2.2.2)
  have hlt : idx.toNat < sw.array.length := by
    by_contra hge
    rw [List.getElem?_eq_none (by omega)] at hslot
    exact absurd hslot (by simp)
  rw [currentBucketOfTime_of_idx hnow hidx, hconv, inspect_empty _ fuel mem h0 hslot hv]
  refine ⟨rfl, rfl, by simp, rfl, by simp [List.getElem?_set_self hlt], by simp,
    fun j hj => by simp [List.getElem?_set_ne (Ne.symm hj)],
    fun a ha => by simp [Function.update_noteq ha], rfl, ?_, ?_⟩
  · simp [resetCalls]
  · simp [deprecatedCalls]

/-- Witness of C14: five slots of 1000 ms, all empty, `now = 1500`. -/
theorem currentBucketOfTime_creates_lazily_witness :
    (currentBucketOfTime 1 (mockWindow 5 1000) blankMemory 1500).ret = Ret.ok (some 0) ∧
    (currentBucketOfTime 1 (mockWindow 5 1000) blankMemory 1500).mem.calls
      = [Call.NewEmptyBucket] :=
  ⟨(currentBucketOfTime_creates_lazily 0 (mockWindow 5 1000) blankMemory 1500 1
      (by decide) (by decide) (by decide) (by decide) (by decide) (by decide)).1,
   (currentBucketOfTime_creates_lazily 0 (mockWindow 5 1000) blankMemory 1500 1
      (by decide) (by decide) (by decide) (by decide) (by decide)
      (by decide)).2.2.2.2.2.2.2.2.1⟩

/-! ## C13: rotation in place -/

theorem callDeprecatedCallbackFunc_registered {V G : Type} {sw : SliceWindow V G}
    (mem : Memory V G) {f : DeprecatedCallbackFunc V} (hwf : WellFormed sw)
    (hf : sw.deprecatedFunc = some f) (hl : sw.deprecatedLock.locked = false) :
    ∃ values, (Values sw mem).1 = some values ∧
      callDeprecatedCallbackFunc sw mem
        = some ({ sw with deprecatedLock := { locked := false } },
                { mem with ticks := mem.ticks + 1,
                           cells := f values mem.cells,
                           calls := mem.calls ++ [Call.deprecatedFunc values] }) := by
  have hS : 0 ≤ sw.sampleCount := le_of_lt hwf.1.2.2.2.1
  refine ⟨liveBuckets (expiredWrapped sw mem.cells (mem.clock mem.ticks % 2 ^ 64)) sw.array
    (mem.clock mem.ticks % 2 ^ 64), ?_, ?_⟩
  · show valuesWithTime sw mem.cells (mem.clock mem.ticks % 2 ^ 64) = _
    exact valuesWithTime_eq sw _ _ hS hwf.2
  · have hv : Values { sw with deprecatedLock := { locked := true } } mem
        = (some (liveBuckets (expiredWrapped sw mem.cells (mem.clock mem.ticks % 2 ^ 64))
            sw.array (mem.clock mem.ticks % 2 ^ 64)),
           { mem with ticks := mem.ticks + 1 }) := by
      show (valuesWithTime { sw with deprecatedLock := { locked := true } } mem.cells
        (mem.clock mem.ticks % 2 ^ 64), ({ mem with ticks := mem.ticks + 1 } : Memory V G)) = _
      rw [valuesWithTime_eq { sw with deprecatedLock := { locked := true } } mem.cells _ hS hwf.2]
      rfl
    have htl : sw.deprecatedLock.TryLock = (true, { locked := true }) := by
      simp [mutex.TryLock, hl]
    unfold callDeprecatedCallbackFunc
    split
    · rename_i hnone
      rw [hf] at hnone
      exact absurd hnone (by simp)
    · rename_i f2 hf2
      have hff : f2 = f := by
        rw [hf] at hf2
        exact (Option.some.inj hf2).symm
      subst hff
      rw [htl]
      simp only
      rw [hv]
      rfl

theorem inspect_deprecatedCalls_of_none {V G : Type} (idx : Int) (bucketStart : Nat)
    (fuel : Nat) : ∀ (sw : SliceWindow V G) (mem : Memory V G), sw.deprecatedFunc = none →
      deprecatedCalls (inspect idx bucketStart fuel sw mem).mem.calls
        = deprecatedCalls mem.calls := by
  induction fuel with
  | zero => intro sw mem _; simp [inspect]
  | succ fuel ih =>
    intro sw mem hnone
    unfold inspect
    split
    · rfl
    · split
      · rfl
      · simp only
        split <;> simp [deprecatedCalls]
      · simp only
        split
        · rfl
        · split
          · rw [callDeprecatedCallbackFunc_none mem hnone]
            simp only
            split
            · simp [deprecatedCalls]
            · rename_i l hl
              rw [ih { sw with updateLock := l } _ hnone]
              simp [deprecatedCalls]
          · rfl

theorem inspect_deprecatedCalls_without_rotation {V G : Type} (idx : Int) (bucketStart : Nat)
    (fuel : Nat) (sw : SliceWindow V G) (mem : Memory V G)
    (h : ¬ (0 ≤ idx ∧ ∃ old, sw.array[idx.toNat]? = some (some old) ∧
      (mem.cells old).BucketStart < bucketStart)) :
    deprecatedCalls (inspect idx bucketStart (fuel + 1) sw mem).mem.calls
      = deprecatedCalls mem.calls := by
  by_cases hneg : idx < 0
  · simp [inspect, hneg]
  · have h0 : 0 ≤ idx := by omega
    cases hslot : sw.array[idx.toNat]? with
    | none => simp [inspect, hneg, hslot]
    | some slot =>
      cases slot with
      | none =>
        by_cases hv : (sw.generator.NewEmptyBucket mem.gen).1 = none
        · rw [inspect_empty_nil bucketStart fuel mem h0 hslot hv]
          simp [deprecatedCalls]
        · rw [inspect_empty bucketStart fuel mem h0 hslot hv]
          simp [deprecatedCalls]
      | some old =>
        rcases Nat.lt_trichotomy bucketStart (mem.cells old).BucketStart with hlt | heq | hgt
        · rw [inspect_stale fuel h0 hslot hlt]
        · rw [inspect_same fuel h0 hslot heq]
        · exact absurd ⟨h0, old, hslot, hgt⟩ h

/-- C11: on a well-formed window with a callback registered and both locks
free, `currentBucketOfTime(now)` invokes the callback exactly once when the slot
of `now` is occupied by a bucket with an older `BucketStart`: the invocation is
recorded before the call of `ResetBucketTo`, and its argument is the result of
`Values()` on the state before the rotation.  In every other case with a
callback registered (empty slot, same start, stale timestamp, `now <= 0`) and in
every case without a registered callback, no invocation is recorded. -/
theorem deprecation_callback_on_rotation_only {V G : Type} (fuel : Nat)
    (sw : SliceWindow V G) (mem : Memory V G) (now : Nat) (hwf : WellFormed sw) :
    (∀ f, sw.deprecatedFunc = some f → sw.deprecatedLock.locked = false →
      sw.updateLock.locked = false →
      (∀ (idx : Int) (old : Nat), 0 < now → calculateTimeIdx sw now = some idx → 0 ≤ idx →
        sw.array[idx.toNat]? = some (some old) →
        (mem.cells old).BucketStart < now - now % sw.intervalInMs.toNat →
        ∃ values, (Values sw mem).1 = some values ∧
          (currentBucketOfTime (fuel + 1) sw mem now).mem.calls
            = mem.calls ++ [Call.deprecatedFunc values,
                Call.ResetBucketTo old (now - now % sw.intervalInMs.toNat)] ∧
          deprecatedCalls (currentBucketOfTime (fuel + 1) sw mem now).mem.calls
            = deprecatedCalls mem.calls ++ [values]) ∧
      (¬ (0 < now ∧ ∃ (idx : Int) (old : Nat), calculateTimeIdx sw now = some idx ∧ 0 ≤ idx ∧
          sw.array[idx.toNat]? = some (some old) ∧
          (mem.cells old).BucketStart < now - now % sw.intervalInMs.toNat) →
        deprecatedCalls (currentBucketOfTime (fuel + 1) sw mem now).mem.calls
          = deprecatedCalls mem.calls)) ∧
    (sw.deprecatedFunc = none →
      deprecatedCalls (currentBucketOfTime fuel sw mem now).mem.calls
        = deprecatedCalls mem.calls) := by
  have hconv : toUint64 sw.intervalInMs = sw.intervalInMs.toNat :=
    toUint64_eq_toNat hwf.1.2.1 (le_of_lt hwf.1.2.2.2.2)
  refine ⟨fun f hf hdl hul => ⟨?_, ?_⟩, fun hnone => ?_⟩
  · intro idx old hnow hidx h0 hslot hstart
    obtain ⟨values, hv, hcall⟩ := callDeprecatedCallbackFunc_registered mem hwf hf hdl
    refine ⟨values, hv, ?_⟩
    rw [currentBucketOfTime_of_idx hnow hidx, hconv,
      inspect_rotate fuel h0 hslot hstart hcall hul]
    constructor
    · simp
    · simp [deprecatedCalls]
  · intro hnot
    by_cases hnow : 0 < now
    · cases hidx : calculateTimeIdx sw now with
      | none => rw [currentBucketOfTime_of_idx_none hnow hidx]
      | some idx =>
        rw [currentBucketOfTime_of_idx hnow hidx, hconv]
        refine inspect_deprecatedCalls_without_rotation idx _ fuel sw mem ?_
        rintro ⟨h0, old, hslot, hstart⟩
        exact hnot ⟨hnow, idx, old, hidx, h0, hslot, hstart⟩
    · have : now = 0 := by omega
      subst this
      rw [currentBucketOfTime_zero]
  · by_cases hnow : 0 < now
    · cases hidx : calculateTimeIdx sw now with
      | none => rw [currentBucketOfTime_of_idx_none hnow hidx]
      | some idx =>
        rw [currentBucketOfTime_of_idx hnow hidx]
        exact inspect_deprecatedCalls_of_none idx _ fuel sw mem hnone
    · have : now = 0 := by omega
      subst this
      rw [currentBucketOfTime_zero]

/-- Witness of C11: the test window with `Deprecated` registered; the call at
5000 rotates slot 0 and notifies once, with the snapshot `[0]`, before the reset. -/
theorem deprecation_callback_on_rotation_only_witness :
    (currentBucketOfTime 1 testWindow testMemory 5000).mem.calls
      = testMemory.calls ++ [Call.deprecatedFunc [0], Call.ResetBucketTo 0 5000] := by
  obtain ⟨values, hv, hcalls, -⟩ :=
    ((deprecation_callback_on_rotation_only 0 testWindow testMemory 5000 (by decide)).1
      Deprecated rfl (by decide) (by decide)).1 0 0 (by decide) (by decide) (by decide)
      (by decide) (by decide)
  have hvalues : (Values testWindow testMemory).1 = some [0] := by decide
  rw [hvalues] at hv
  cases hv
  exact hcalls

/-! ## C16: the slot index -/

/-- C16, at the failing input: with `sampleCount = 5`, `intervalInMs = 1` and the
`uint64` timestamp `2 ^ 64 - 1`, `calculateTimeIdx` returns `-1`, which is
neither `floor(now / intervalInMs) mod sampleCount = 0` nor in `[0, 5)`, and
`currentBucketOfTime` panics on the array access. -/
theorem calculateTimeIdx_negative_at_max_uint64 :
    Configured (mockWindow 5 1) ∧ IsUint64 (2 ^ 64 - 1) ∧
    calculateTimeIdx (mockWindow 5 1) (2 ^ 64 - 1) = some (-1) ∧
    ((2 ^ 64 - 1) / 1) % 5 = 0 ∧
    (currentBucketOfTime 1 (mockWindow 5 1) blankMemory (2 ^ 64 - 1)).ret = Ret.panic := by
  decide

/-- The slot index is `floor(now / intervalInMs) mod sampleCount`, in
`[0, sampleCount)` and inside the array, for every timestamp whose interval
number is below `2 ^ 63`. -/
theorem calculateTimeIdx_in_bounds_below_two_pow_63 {V G : Type} (sw : SliceWindow V G)
    (now : Nat) (hwf : WellFormed sw) (hrange : now / sw.intervalInMs.toNat < 2 ^ 63) :
    ∃ idx, calculateTimeIdx sw now = some idx ∧
      idx = (((now / sw.intervalInMs.toNat) % sw.sampleCount.toNat : Nat) : Int) ∧
      0 ≤ idx ∧ idx < sw.sampleCount ∧ idx.toNat < sw.array.length := by
  have hSpos := hwf.1.2.2.2.1
  have hlt := slot_lt_length hwf (now / sw.intervalInMs.toNat)
  have hmod : (now / sw.intervalInMs.toNat) % sw.sampleCount.toNat < sw.sampleCount.toNat :=
    Nat.mod_lt _ (by omega)
  refine ⟨_, calculateTimeIdx_of_lt hwf.1 hrange, rfl, Int.ofNat_nonneg _, by omega, ?_⟩
  rw [Int.toNat_ofNat]
  exact hlt

/-! ## C19: slot collisions -/

/-- C19, at the failing input: with `sampleCount = 31` and `intervalInMs = 1`,
the timestamps `2 ^ 63 - 8` and `2 ^ 63 + 8` have interval numbers that differ
by `16 < 31`, and both map to slot 0; with `sampleCount = 5`, the timestamps
`2 ^ 63 - 5` and `2 ^ 63` have interval numbers that differ by `5`, and map to
`3` and to `-3`. -/
theorem slots_collide_beyond_two_pow_63 :
    Configured (mockWindow 31 1) ∧
    (2 ^ 63 + 8) / 1 - (2 ^ 63 - 8) / 1 = 16 ∧
    calculateTimeIdx (mockWindow 31 1) (2 ^ 63 - 8) = some 0 ∧
    calculateTimeIdx (mockWindow 31 1) (2 ^ 63 + 8) = some 0 ∧
    Configured (mockWindow 5 1) ∧
    2 ^ 63 / 1 - (2 ^ 63 - 5) / 1 = 5 ∧
    calculateTimeIdx (mockWindow 5 1) (2 ^ 63 - 5) = some 3 ∧
    calculateTimeIdx (mockWindow 5 1) (2 ^ 63) = some (-3) := by
  decide

/-- For timestamps whose interval numbers are below `2 ^ 63`: different interval
numbers that differ by less than `sampleCount` map to different slots, and
interval numbers that differ by a multiple of `sampleCount` map to the same slot. -/
theorem slots_distinct_below_two_pow_63 {V G : Type} (sw : SliceWindow V G) (now1 now2 : Nat)
    (hcfg : Configured sw) (h1 : now1 / sw.intervalInMs.toNat < 2 ^ 63)
    (h2 : now2 / sw.intervalInMs.toNat < 2 ^ 63) :
    (now1 / sw.intervalInMs.toNat ≠ now2 / sw.intervalInMs.toNat →
      now1 / sw.intervalInMs.toNat < now2 / sw.intervalInMs.toNat + sw.sampleCount.toNat →
      now2 / sw.intervalInMs.toNat < now1 / sw.intervalInMs.toNat + sw.sampleCount.toNat →
      calculateTimeIdx sw now1 ≠ calculateTimeIdx sw now2) ∧
    (∀ k : Nat, now1 / sw.intervalInMs.toNat = now2 / sw.intervalInMs.toNat + k * sw.sampleCount.toNat →
      calculateTimeIdx sw now1 = calculateTimeIdx sw now2) := by
  rw [calculateTimeIdx_of_lt hcfg h1, calculateTimeIdx_of_lt hcfg h2]
  constructor
  · intro hne hlt1 hlt2 heq
    simp only [Option.some.injEq, Nat.cast_inj] at heq
    rcases Nat.lt_or_ge (now1 / sw.intervalInMs.toNat) (now2 / sw.intervalInMs.toNat) with hlt | hge
    · have hd := Nat.sub_mod_eq_zero_of_mod_eq heq.symm
      rw [Nat.mod_eq_of_lt (by omega)] at hd
      omega
    · have hd := Nat.sub_mod_eq_zero_of_mod_eq heq
      rw [Nat.mod_eq_of_lt (by omega)] at hd
      omega
  · intro k hk
    rw [hk, Nat.add_mul_mod_self_right]

/-! ## C15: the slot invariant -/

/-- C15, at the failing input: on the window of `NewSliceWindow(7, 1, &MockGenerator{})`
the call at `2 ^ 63 + 1` succeeds and stores its bucket, of start `2 ^ 63 + 1`,
in slot 0, although `(2 ^ 63 + 1) mod 7 = 2`: the reached state does not satisfy
the slot invariant. -/
theorem slot_invariant_broken_beyond_two_pow_63 :
    NewSliceWindow 7 1 (some MockGenerator) = some (Except.ok (mockWindow 7 1)) ∧
    (callsOfTimes 1 [2 ^ 63 + 1] (mockWindow 7 1) blankMemory).1 = [Ret.ok (some 0)] ∧
    (callsOfTimes 1 [2 ^ 63 + 1] (mockWindow 7 1) blankMemory).2.1.array[0]? = some (some 0) ∧
    ((callsOfTimes 1 [2 ^ 63 + 1] (mockWindow 7 1) blankMemory).2.2.cells 0).BucketStart
      = 2 ^ 63 + 1 ∧
    ((2 ^ 63 + 1) / 1) % 7 = 2 ∧
    ¬ SlotInvariant (callsOfTimes 1 [2 ^ 63 + 1] (mockWindow 7 1) blankMemory).2.1
        (callsOfTimes 1 [2 ^ 63 + 1] (mockWindow 7 1) blankMemory).2.2.cells := by
  refine ⟨NewSliceWindow_mock 7 1 (by decide) (by decide) (by decide), by decide, by decide, by decide,
    by decide, fun h => ?_⟩
  have h2 := (h.2 0 0 (by decide)).2
  revert h2
  decide

theorem currentBucketOfTime_settled {V G : Type} (fuel : Nat) (sw : SliceWindow V G)
    (mem : Memory V G) (now : Nat) (hst : Settled sw mem)
    (hrange : now / sw.intervalInMs.toNat < 2 ^ 63) :
    Settled (currentBucketOfTime (fuel + 1) sw mem now).sw
      (currentBucketOfTime (fuel + 1) sw mem now).mem ∧
    (currentBucketOfTime (fuel + 1) sw mem now).sw.sampleCount = sw.sampleCount ∧
    (currentBucketOfTime (fuel + 1) sw mem now).sw.intervalInMs = sw.intervalInMs ∧
    (currentBucketOfTime (fuel + 1) sw mem now).sw.windowSizeInMs = sw.windowSizeInMs := by
  obtain ⟨hwf, hlock, ⟨hlaw, hpay⟩, hcb, halloc, hslots⟩ := hst
  have hcfg := hwf.1
  have hIpos : 0 < sw.intervalInMs.toNat := by
    have := hcfg.2.2.2.2
    omega
  by_cases hnow : 0 < now
  · obtain ⟨hdvd, hquot, -⟩ := intervalStart_facts now sw.intervalInMs.toNat hIpos
    have hlt := slot_lt_length hwf (now / sw.intervalInMs.toNat)
    cases hslot : sw.array[(now / sw.intervalInMs.toNat) % sw.sampleCount.toNat]? with
    | none =>
      rw [List.getElem?_eq_getElem hlt] at hslot
      exact absurd hslot (by simp)
    | some slot =>
      cases slot with
      | none =>
        rw [currentBucketOfTime_empty fuel mem hcfg hnow hrange hslot (hpay mem.gen)]
        refine ⟨⟨⟨hcfg, by simpa using hwf.2⟩, hlock, ⟨hlaw, hpay⟩, hcb, ?_, ?_⟩,
          rfl, rfl, rfl⟩
        · intro j a hj
          simp only at hj ⊢
          by_cases hji : (now / sw.intervalInMs.toNat) % sw.sampleCount.toNat = j
          · subst hji
            rw [List.getElem?_set_self hlt] at hj
            simp only [Option.some.injEq] at hj
            omega
          · rw [List.getElem?_set_ne hji] at hj
            have := halloc j a hj
            omega
        · intro j a hj
          simp only at hj ⊢
          by_cases hji : (now / sw.intervalInMs.toNat) % sw.sampleCount.toNat = j
          · subst hji
            rw [List.getElem?_set_self hlt] at hj
            simp only [Option.some.injEq] at hj
            subst hj
            simp only [Function.update_same]
            exact ⟨hdvd, by rw [hquot]⟩
          · rw [List.getElem?_set_ne hji] at hj
            have hne : a ≠ mem.next := by
              have := halloc j a hj
              omega
            simp only [Function.update_noteq hne]
            exact hslots j a hj
      | some old =>
        obtain ⟨ho3, ho4⟩ := hslots _ old hslot
        rcases Nat.lt_trichotomy (now - now % sw.intervalInMs.toNat) (mem.cells old).BucketStart
          with hlt2 | heq | hgt
        · rw [currentBucketOfTime_stale fuel hcfg hnow hrange hslot hlt2]
          exact ⟨⟨hwf, hlock, ⟨hlaw, hpay⟩, hcb, halloc, hslots⟩, rfl, rfl, rfl⟩
        · rw [currentBucketOfTime_same fuel hcfg hnow hrange hslot heq]
          exact ⟨⟨hwf, hlock, ⟨hlaw, hpay⟩, hcb, halloc, hslots⟩, rfl, rfl, rfl⟩
        · obtain ⟨⟨sw1, mem1⟩, hcall⟩ := callDeprecatedCallbackFunc_total mem hwf
          obtain ⟨hf1, hf2, hf3, hf4, hf5, hf6, hf7, hf8, hf9⟩ :=
            callDeprecatedCallbackFunc_frame hcall
          have hstarts := callDeprecatedCallbackFunc_starts hcall hcb
          rw [currentBucketOfTime_rotate fuel hcfg hnow hrange hslot hgt hcall hlock]
          have hret := (hlaw.1 mem1.gen mem1.cells old (now - now % sw.intervalInMs.toNat))
          have hframe := hlaw.2 mem1.gen mem1.cells old (now - now % sw.intervalInMs.toNat)
          rw [← hf1] at hret hframe
          refine ⟨⟨⟨?_, by simpa [hf2, hf3] using hwf.2⟩, rfl,
              ⟨by simpa [hf1] using hlaw, by simpa [hf1] using hpay⟩,
              by simpa [hf6] using hcb, ?_, ?_⟩, hf3, hf4, hf5⟩
          · unfold Configured
            simp only [hf3, hf4, hf5]
            exact hcfg
          · intro j a hj
            simp only [hf2, hf8] at hj ⊢
            exact halloc j a hj
          · intro j a hj
            simp only [hf2, hf3, hf4] at hj ⊢
            obtain ⟨h3, h4⟩ := hslots j a hj
            by_cases hao : a = old
            · subst hao
              rw [hret.2]
              have hj2 : j = (now / sw.intervalInMs.toNat) % sw.sampleCount.toNat := by
                rw [← h4, ho4]
              exact ⟨hdvd, by rw [hquot, hj2]⟩
            · rw [hframe a hao, hstarts a]
              exact ⟨h3, h4⟩
  · have h0 : now = 0 := by omega
    subst h0
    rw [currentBucketOfTime_zero]
    exact ⟨⟨hwf, hlock, ⟨hlaw, hpay⟩, hcb, halloc, hslots⟩, rfl, rfl, rfl⟩

theorem callsOfTimes_settled {V G : Type} (fuel : Nat) (ts : List Nat) :
    ∀ (sw : SliceWindow V G) (mem : Memory V G), Settled sw mem →
      (∀ t ∈ ts, t / sw.intervalInMs.toNat < 2 ^ 63) →
      Settled (callsOfTimes (fuel + 1) ts sw mem).2.1 (callsOfTimes (fuel + 1) ts sw mem).2.2 ∧
      (callsOfTimes (fuel + 1) ts sw mem).2.1.sampleCount = sw.sampleCount ∧
      (callsOfTimes (fuel + 1) ts sw mem).2.1.intervalInMs = sw.intervalInMs ∧
      (callsOfTimes (fuel + 1) ts sw mem).2.1.windowSizeInMs = sw.windowSizeInMs := by
  induction ts with
  | nil => intro sw mem hst _; exact ⟨hst, rfl, rfl, rfl⟩
  | cons t ts ih =>
    intro sw mem hst hts
    obtain ⟨hst1, hc1, hc2, hc3⟩ :=
      currentBucketOfTime_settled fuel sw mem t hst (hts t (List.mem_cons_self _ _))
    obtain ⟨hst2, hd1, hd2, hd3⟩ := ih (currentBucketOfTime (fuel + 1) sw mem t).sw
      (currentBucketOfTime (fuel + 1) sw mem t).mem hst1
      (fun t2 ht2 => by rw [hc2]; exact hts t2 (List.mem_cons_of_mem _ ht2))
    simp only [callsOfTimes]
    exact ⟨hst2, hd1.trans hc1, hd2.trans hc2, hd3.trans hc3⟩

theorem NewSliceWindow_settled {V G : Type} {sampleCount intervalInMs : Int}
    {g : BucketGenerator V G} {w : SliceWindow V G} (mem : Memory V G)
    (hw : NewSliceWindow sampleCount intervalInMs (some g) = some (Except.ok w))
    (hS : IsInt sampleCount) (hI : IsInt intervalInMs) (hg : LawAbiding g)
    (hp : GivesPayload g) :
    Settled w mem := by
  obtain ⟨⟨hwf, hlock, hlaw, hcb, hslots⟩, -, -, -⟩ := NewSliceWindow_steady mem hw hS hI hg hp
  exact ⟨hwf, hlock, hlaw, hcb, fun j a hj => (hslots j a hj).1,
    fun j a hj => (hslots j a hj).2.2⟩

/-- The slot invariant for timestamps whose interval numbers are below `2 ^ 63`:
after any sequence of calls of `currentBucketOfTime`, in any order, on a freshly
constructed window with a law-abiding generator, the array has `sampleCount`
slots, every occupied slot `j` holds a bucket whose start is a multiple of
`intervalInMs` with `(BucketStart / intervalInMs) mod sampleCount = j`, and no
two occupied slots hold buckets with the same start. -/
theorem slot_invariant_below_two_pow_63 {V G : Type} (fuel : Nat)
    (sampleCount intervalInMs : Int) (g : BucketGenerator V G) (w : SliceWindow V G)
    (mem : Memory V G) (ts : List Nat)
    (hw : NewSliceWindow sampleCount intervalInMs (some g) = some (Except.ok w))
    (hS : IsInt sampleCount) (hI : IsInt intervalInMs) (hg : LawAbiding g)
    (hp : GivesPayload g) (hts : ∀ t ∈ ts, t / intervalInMs.toNat < 2 ^ 63) :
    SlotInvariant (callsOfTimes (fuel + 1) ts w mem).2.1
      (callsOfTimes (fuel + 1) ts w mem).2.2.cells ∧
    ∀ (i j a b : Nat),
      (callsOfTimes (fuel + 1) ts w mem).2.1.array[i]? = some (some a) →
      (callsOfTimes (fuel + 1) ts w mem).2.1.array[j]? = some (some b) →
      ((callsOfTimes (fuel + 1) ts w mem).2.2.cells a).BucketStart
        = ((callsOfTimes (fuel + 1) ts w mem).2.2.cells b).BucketStart →
      i = j := by
  have hwI : w.intervalInMs = intervalInMs := (NewSliceWindow_steady mem hw hS hI hg hp).2.2.1
  obtain ⟨⟨hwf, -, -, -, -, hslots⟩, -, -, -⟩ :=
    callsOfTimes_settled fuel ts w mem (NewSliceWindow_settled mem hw hS hI hg hp)
      (fun t ht => by rw [hwI]; exact hts t ht)
  refine ⟨⟨?_, hslots⟩, fun i j a b hi hj hab => ?_⟩
  · rw [hwf.2]
    exact Int.toNat_of_nonneg (le_of_lt hwf.1.2.2.2.1)
  · rw [← (hslots i a hi).2, ← (hslots j b hj).2, hab]

/-! ## C18: a just-acquired bucket is live -/

theorem currentBucketOfTime_config {V G : Type} (fuel : Nat) (sw : SliceWindow V G)
    (mem : Memory V G) (now : Nat) :
    (currentBucketOfTime fuel sw mem now).sw.sampleCount = sw.sampleCount ∧
    (currentBucketOfTime fuel sw mem now).sw.intervalInMs = sw.intervalInMs ∧
    (currentBucketOfTime fuel sw mem now).sw.windowSizeInMs = sw.windowSizeInMs ∧
    (currentBucketOfTime fuel sw mem now).sw.generator = sw.generator ∧
    (currentBucketOfTime fuel sw mem now).sw.deprecatedFunc = sw.deprecatedFunc ∧
    (currentBucketOfTime fuel sw mem now).sw.array.length = sw.array.length := by
  by_cases hnow : 0 < now
  · cases hidx : calculateTimeIdx sw now with
    | none => rw [currentBucketOfTime_of_idx_none hnow hidx]; simp
    | some idx =>
      rw [currentBucketOfTime_of_idx hnow hidx]
      exact inspect_config idx _ fuel sw mem
  · have h0 : now = 0 := by omega
    subst h0
    rw [currentBucketOfTime_zero]
    simp

theorem length_liveBuckets_le (expired : Nat → Prop) [DecidablePred expired]
    (array : List (Option Nat)) (now : Nat) :
    (liveBuckets expired array now).length ≤ array.length := by
  unfold liveBuckets
  split
  · simp
  · exact List.length_filterMap_le _ _

/-- Counterexample to C18 as stated: `NewSliceWindow(3, 2^62, &MockGenerator{})`
has `windowSizeInMs = -2^62`; the call at `now = 1` succeeds and returns the
bucket of start 0, and `valuesWithTime(1)` on the resulting state is empty. -/
theorem acquired_bucket_dropped_after_overflow :
    NewSliceWindow 3 (2 ^ 62) (some MockGenerator) = some (Except.ok (mockWindow 3 (2 ^ 62))) ∧
    (mockWindow 3 (2 ^ 62)).windowSizeInMs = -2 ^ 62 ∧
    (currentBucketOfTime 1 (mockWindow 3 (2 ^ 62)) blankMemory 1).ret = Ret.ok (some 0) ∧
    valuesWithTime (currentBucketOfTime 1 (mockWindow 3 (2 ^ 62)) blankMemory 1).sw
        (currentBucketOfTime 1 (mockWindow 3 (2 ^ 62)) blankMemory 1).mem.cells 1
      = some [] :=
  ⟨NewSliceWindow_mock 3 (2 ^ 62) (by decide) (by decide) (by decide), by decide, by decide, by decide⟩

/-- C18, amended: on a well-formed window whose `windowSizeInMs` is not negative
(as it is when `sampleCount * intervalInMs` is below `2 ^ 63`), with a generator
whose `ResetBucketTo` sets the start and returns the same bucket, and `now > 0`:
if `currentBucketOfTime(now)` succeeds, then `valuesWithTime(now)` on the
resulting state contains the returned bucket and has at most `sampleCount`
elements. -/
theorem acquired_bucket_is_live {V G : Type} (fuel : Nat) (sw : SliceWindow V G)
    (mem : Memory V G) (now : Nat) (p : Option Nat)
    (hwf : WellFormed sw) (hW : 0 ≤ sw.windowSizeInMs) (hgen : SetsStart sw.generator)
    (hnow : 0 < now)
    (hok : (currentBucketOfTime fuel sw mem now).ret = Ret.ok p) :
    ∃ b l, p = some b ∧
      valuesWithTime (currentBucketOfTime fuel sw mem now).sw
        (currentBucketOfTime fuel sw mem now).mem.cells now = some l ∧
      b ∈ l ∧ (l.length : Int) ≤ sw.sampleCount := by
  obtain ⟨⟨hS, hI, hWint, hSpos, hIpos⟩, hlen⟩ := hwf
  have hconv : toUint64 sw.intervalInMs = sw.intervalInMs.toNat :=
    toUint64_eq_toNat hI (le_of_lt hIpos)
  obtain ⟨-, b, idx, hb, -, -, hslot, hstart⟩ :=
    second_call_same fuel 0 sw mem now now p hgen hnow rfl hok
  obtain ⟨hc1, hc2, hc3, -, -, hc6⟩ := currentBucketOfTime_config fuel sw mem now
  have hlen2 : (currentBucketOfTime fuel sw mem now).sw.array.length
      = (currentBucketOfTime fuel sw mem now).sw.sampleCount.toNat := by
    rw [hc6, hc1]; exact hlen
  refine ⟨b, _, hb, valuesWithTime_eq _ _ now (by rw [hc1]; exact le_of_lt hSpos) hlen2, ?_, ?_⟩
  · rw [mem_liveBuckets hnow]
    refine ⟨List.mem_iff_getElem?.2 ⟨_, hslot⟩, ?_⟩
    unfold expiredWrapped
    rw [hstart, hconv, hc2, hc3]
    have hIcast : (sw.intervalInMs.toNat : Int) = sw.intervalInMs :=
      Int.toNat_of_nonneg (le_of_lt hIpos)
    have hmodlt : now % sw.intervalInMs.toNat < sw.intervalInMs.toNat :=
      Nat.mod_lt _ (by omega)
    have hmodle : now % sw.intervalInMs.toNat ≤ now := Nat.mod_le _ _
    unfold IsInt at hI hWint
    omega
  · have h := length_liveBuckets_le
      (expiredWrapped (currentBucketOfTime fuel sw mem now).sw
        (currentBucketOfTime fuel sw mem now).mem.cells now)
      (currentBucketOfTime fuel sw mem now).sw.array now
    rw [hc6, hlen] at h
    have hcast : ((sw.sampleCount.toNat : Nat) : Int) = sw.sampleCount :=
      Int.toNat_of_nonneg (le_of_lt hSpos)
    omega

/-- Witness of C18: five slots of 1000 ms, the call at 1500. -/
theorem acquired_bucket_is_live_witness :
    valuesWithTime (currentBucketOfTime 1 (mockWindow 5 1000) blankMemory 1500).sw
        (currentBucketOfTime 1 (mockWindow 5 1000) blankMemory 1500).mem.cells 1500
      = some [0] := by
  obtain ⟨b, l, -, hl, -, -⟩ := acquired_bucket_is_live 1 (mockWindow 5 1000) blankMemory 1500
    (some 0) (by decide) (by decide) MockGenerator_lawAbiding.1 (by decide) (by decide)
  exact hl.trans (hl.symm.trans (by decide))

/-! ## C20: future-dated buckets -/

/-- Counterexample to C20 as stated: the window of
`NewSliceWindow(2, 2^62 + 1, &MockGenerator{})` has `windowSizeInMs = -(2^63 - 2)`,
so `windowSizeInMs + intervalInMs = 3 - 2^62`; after the call at `2^62 + 1` the
bucket of start `2^62 + 1` is future-dated at `now = 1` with
`BucketStart - now = 2^62 < 2^64 - (windowSizeInMs + intervalInMs)`, and
`valuesWithTime(1)` keeps it. -/
theorem future_bucket_kept_after_overflow :
    NewSliceWindow 2 (2 ^ 62 + 1) (some MockGenerator) = some (Except.ok (mockWindow 2 (2 ^ 62 + 1))) ∧
    (mockWindow 2 (2 ^ 62 + 1)).windowSizeInMs + (mockWindow 2 (2 ^ 62 + 1)).intervalInMs
      = 3 - 2 ^ 62 ∧
    ((callsOfTimes 1 [2 ^ 62 + 1] (mockWindow 2 (2 ^ 62 + 1)) blankMemory).2.2.cells 0).BucketStart
      = 2 ^ 62 + 1 ∧
    ((2 ^ 62 + 1 : Int) - 1 < 2 ^ 64 - (3 - 2 ^ 62)) ∧
    valuesWithTime (callsOfTimes 1 [2 ^ 62 + 1] (mockWindow 2 (2 ^ 62 + 1)) blankMemory).2.1
        (callsOfTimes 1 [2 ^ 62 + 1] (mockWindow 2 (2 ^ 62 + 1)) blankMemory).2.2.cells 1
      = some [0] :=
  ⟨NewSliceWindow_mock 2 (2 ^ 62 + 1) (by decide) (by decide) (by decide), by decide, by decide, by decide,
   by decide⟩

/-- C20, amended: on a well-formed window with `windowSizeInMs + intervalInMs >= 0`
(as when `sampleCount * intervalInMs` is below `2 ^ 63`), for a bucket whose
`BucketStart` is greater than `now`, the unsigned difference `now - BucketStart`
is `2 ^ 64 - (BucketStart - now)`; `isBucketDeprecated` reports the bucket
exactly when `BucketStart - now < 2 ^ 64 - (windowSizeInMs + intervalInMs)`, and
then `valuesWithTime(now)` excludes it, although over the integers
`now - BucketStart` is not greater than `windowSizeInMs + intervalInMs`. -/
theorem future_bucket_is_dropped {V G : Type} (sw : SliceWindow V G) (cells : Nat → Bucket V)
    (now b : Nat) (hwf : WellFormed sw)
    (hsum : 0 ≤ sw.windowSizeInMs + sw.intervalInMs)
    (hu : IsUint64 now) (hs : IsUint64 (cells b).BucketStart)
    (hfuture : now < (cells b).BucketStart) :
    subUint64 now (cells b).BucketStart = 2 ^ 64 - ((cells b).BucketStart - now) ∧
    (isBucketDeprecated sw cells now b = true ↔
      (((cells b).BucketStart - now : Nat) : Int)
        < 2 ^ 64 - (sw.windowSizeInMs + sw.intervalInMs)) ∧
    ¬ expiredSpec sw cells now b ∧
    ((((cells b).BucketStart - now : Nat) : Int)
        < 2 ^ 64 - (sw.windowSizeInMs + sw.intervalInMs) →
      ∀ l, valuesWithTime sw cells now = some l → b ∉ l) := by
  obtain ⟨⟨hS, hI, hWint, hSpos, hIpos⟩, hlen⟩ := hwf
  unfold IsUint64 at hu hs
  unfold IsInt at hI hWint
  have hiff : isBucketDeprecated sw cells now b = true ↔
      (((cells b).BucketStart - now : Nat) : Int)
        < 2 ^ 64 - (sw.windowSizeInMs + sw.intervalInMs) := by
    rw [isBucketDeprecated_iff]
    unfold expiredWrapped
    omega
  refine ⟨?_, hiff, ?_, fun hlt l hl hmem => ?_⟩
  · unfold subUint64 wrapUint64
    omega
  · unfold expiredSpec
    omega
  · by_cases hnow : 0 < now
    · rw [valuesWithTime_eq sw cells now (le_of_lt hSpos) hlen] at hl
      simp only [Option.some.injEq] at hl
      subst hl
      exact ((mem_liveBuckets hnow).1 hmem).2 ((isBucketDeprecated_iff sw cells now b).1 (hiff.2 hlt))
    · have h0 : now = 0 := by omega
      subst h0
      simp [valuesWithTime] at hl
      subst hl
      simp at hmem

/-- Witness of C20: five slots of 1000 ms after the calls at 1, 1000 and 2000;
at `now = 1500` the bucket of start 2000 is dropped. -/
theorem future_bucket_is_dropped_witness :
    subUint64 1500
        ((callsOfTimes 1 [1, 1000, 2000] (mockWindow 5 1000) blankMemory).2.2.cells 2).BucketStart
      = 2 ^ 64 - (((callsOfTimes 1 [1, 1000, 2000] (mockWindow 5 1000)
          blankMemory).2.2.cells 2).BucketStart - 1500) :=
  (future_bucket_is_dropped (callsOfTimes 1 [1, 1000, 2000] (mockWindow 5 1000) blankMemory).2.1
    (callsOfTimes 1 [1, 1000, 2000] (mockWindow 5 1000) blankMemory).2.2.cells 1500 2
    (by decide) (by decide) (by decide) (by decide) (by decide)).1

/-! ## C17: the slack and the bucket about to be rotated -/

/-- Counterexample to C17 as stated.  The window of
`NewSliceWindow(2, 2^62 + 1, &MockGenerator{})` has `windowSizeInMs = -(2^63 - 2)`.
After the call at 1 the state satisfies the slot invariant and slot 0 holds the
bucket of start 0; `now = 2^63 + 2` maps to slot 0 with the newer start
`2^63 + 2`; `valuesWithTime(2^63 + 2)` contains the bucket, although its start
is not `(2^63 + 2) - windowSizeInMs = 2^64`.  And on the window of
`NewSliceWindow(7, 1, &MockGenerator{})`, whose `windowSizeInMs` is 7, after the
call at `2^63 - 1` the state satisfies the slot invariant and slot 0 holds the
bucket of start `2^63 - 1`; `now = 2^63 + 1` maps to slot 0 as well, and
`valuesWithTime(2^63 + 1)` contains the bucket, although its start is not
`(2^63 + 1) - 7`. -/
theorem rotated_bucket_kept_after_overflow :
    NewSliceWindow 2 (2 ^ 62 + 1) (some MockGenerator) = some (Except.ok (mockWindow 2 (2 ^ 62 + 1))) ∧
    SlotInvariant (callsOfTimes 1 [1] (mockWindow 2 (2 ^ 62 + 1)) blankMemory).2.1
      (callsOfTimes 1 [1] (mockWindow 2 (2 ^ 62 + 1)) blankMemory).2.2.cells ∧
    calculateTimeIdx (callsOfTimes 1 [1] (mockWindow 2 (2 ^ 62 + 1)) blankMemory).2.1
      (2 ^ 63 + 2) = some 0 ∧
    (callsOfTimes 1 [1] (mockWindow 2 (2 ^ 62 + 1)) blankMemory).2.1.array[0]? = some (some 0) ∧
    ((callsOfTimes 1 [1] (mockWindow 2 (2 ^ 62 + 1)) blankMemory).2.2.cells 0).BucketStart = 0 ∧
    (2 ^ 63 + 2) - (2 ^ 63 + 2) % (2 ^ 62 + 1) = 2 ^ 63 + 2 ∧
    valuesWithTime (callsOfTimes 1 [1] (mockWindow 2 (2 ^ 62 + 1)) blankMemory).2.1
        (callsOfTimes 1 [1] (mockWindow 2 (2 ^ 62 + 1)) blankMemory).2.2.cells (2 ^ 63 + 2)
      = some [0] ∧
    ((2 ^ 63 + 2 : Int)
        - (callsOfTimes 1 [1] (mockWindow 2 (2 ^ 62 + 1)) blankMemory).2.1.windowSizeInMs
      = 2 ^ 64) ∧
    NewSliceWindow 7 1 (some MockGenerator) = some (Except.ok (mockWindow 7 1)) ∧
    (callsOfTimes 1 [2 ^ 63 - 1] (mockWindow 7 1) blankMemory).2.1.windowSizeInMs = 7 ∧
    SlotInvariant (callsOfTimes 1 [2 ^ 63 - 1] (mockWindow 7 1) blankMemory).2.1
      (callsOfTimes 1 [2 ^ 63 - 1] (mockWindow 7 1) blankMemory).2.2.cells ∧
    calculateTimeIdx (callsOfTimes 1 [2 ^ 63 - 1] (mockWindow 7 1) blankMemory).2.1
      (2 ^ 63 + 1) = some 0 ∧
    (callsOfTimes 1 [2 ^ 63 - 1] (mockWindow 7 1) blankMemory).2.1.array[0]? = some (some 0) ∧
    ((callsOfTimes 1 [2 ^ 63 - 1] (mockWindow 7 1) blankMemory).2.2.cells 0).BucketStart
      = 2 ^ 63 - 1 ∧
    (2 ^ 63 + 1) - (2 ^ 63 + 1) % 1 = 2 ^ 63 + 1 ∧
    valuesWithTime (callsOfTimes 1 [2 ^ 63 - 1] (mockWindow 7 1) blankMemory).2.1
        (callsOfTimes 1 [2 ^ 63 - 1] (mockWindow 7 1) blankMemory).2.2.cells (2 ^ 63 + 1)
      = some [0] ∧
    ((2 ^ 63 - 1 : Int) ≠ (2 ^ 63 + 1) - 7) :=
  ⟨NewSliceWindow_mock 2 (2 ^ 62 + 1) (by decide) (by decide) (by decide),
   (slot_invariant_below_two_pow_63 0 2 (2 ^ 62 + 1) MockGenerator (mockWindow 2 (2 ^ 62 + 1))
      blankMemory [1] (NewSliceWindow_mock 2 (2 ^ 62 + 1) (by decide) (by decide) (by decide))
      (by decide) (by decide) MockGenerator_lawAbiding MockGenerator_givesPayload
      (by decide)).1,
   by decide, by decide, by decide, by decide, by decide, by decide,
   NewSliceWindow_mock 7 1 (by decide) (by decide) (by decide), by decide,
   (slot_invariant_below_two_pow_63 0 7 1 MockGenerator (mockWindow 7 1)
      blankMemory [2 ^ 63 - 1] (NewSliceWindow_mock 7 1 (by decide) (by decide) (by decide))
      (by decide) (by decide) MockGenerator_lawAbiding MockGenerator_givesPayload
      (by decide)).1,
   by decide, by decide, by decide, by decide, by decide, by decide⟩

/-- C17, amended: on a well-formed window with `sampleCount >= 2` whose
`windowSizeInMs` is the exact product `sampleCount * intervalInMs`, in a state
satisfying the slot invariant, for a timestamp `now > 0` whose interval number
is below `2 ^ 63` and whose slot holds a bucket with an older `BucketStart`: that
bucket is contained in `valuesWithTime(now)` if and only if its `BucketStart`
equals `(now - now mod intervalInMs) - windowSizeInMs`; if the slot was last used
two or more window lengths earlier the snapshot omits it. -/
theorem rotated_bucket_in_snapshot_iff {V G : Type} (sw : SliceWindow V G)
    (cells : Nat → Bucket V) (now : Nat) (idx : Int) (old : Nat)
    (hwf : WellFormed sw) (hn : 2 ≤ sw.sampleCount)
    (hW : sw.windowSizeInMs = sw.sampleCount * sw.intervalInMs)
    (hinv : SlotInvariant sw cells)
    (hnow : 0 < now) (hu : IsUint64 now) (hrange : now / sw.intervalInMs.toNat < 2 ^ 63)
    (hidx : calculateTimeIdx sw now = some idx)
    (hslot : sw.array[idx.toNat]? = some (some old))
    (hold : (cells old).BucketStart < now - now % sw.intervalInMs.toNat) :
    ∃ l, valuesWithTime sw cells now = some l ∧
      (old ∈ l ↔ ((cells old).BucketStart : Int)
          = ((now - now % sw.intervalInMs.toNat : Nat) : Int) - sw.windowSizeInMs) ∧
      (((cells old).BucketStart : Int) + 2 * sw.windowSizeInMs
          ≤ ((now - now % sw.intervalInMs.toNat : Nat) : Int) → old ∉ l) := by
  obtain ⟨⟨hS, hI, hWint, hSpos, hIpos⟩, hlen⟩ := hwf
  have hcfg : Configured sw := ⟨hS, hI, hWint, hSpos, hIpos⟩
  have hidx2 := calculateTimeIdx_of_lt hcfg hrange
  rw [hidx] at hidx2
  simp only [Option.some.injEq] at hidx2
  subst hidx2
  rw [Int.toNat_ofNat] at hslot
  obtain ⟨hdvd, hmod⟩ := hinv.2 _ old hslot
  have hIn : 0 < sw.intervalInMs.toNat := by omega
  have hIcast : (sw.intervalInMs.toNat : Int) = sw.intervalInMs :=
    Int.toNat_of_nonneg (le_of_lt hIpos)
  have hScast : (sw.sampleCount.toNat : Int) = sw.sampleCount :=
    Int.toNat_of_nonneg (le_of_lt hSpos)
  have hbs : now - now % sw.intervalInMs.toNat
      = sw.intervalInMs.toNat * (now / sw.intervalInMs.toNat) := by
    have := Nat.div_add_mod now sw.intervalInMs.toNat
    have := Nat.mod_le now sw.intervalInMs.toNat
    omega
  have hmodlt : now % sw.intervalInMs.toNat < sw.intervalInMs.toNat := Nat.mod_lt _ hIn
  have hmodle : now % sw.intervalInMs.toNat ≤ now := Nat.mod_le _ _
  obtain ⟨qs, hqs⟩ := hdvd
  rw [hqs, Nat.mul_div_cancel_left _ hIn] at hmod
  have hlt : qs < now / sw.intervalInMs.toNat := by
    rw [hqs, hbs] at hold
    exact Nat.lt_of_mul_lt_mul_left hold
  have hd : (now / sw.intervalInMs.toNat - qs) % sw.sampleCount.toNat = 0 :=
    Nat.sub_mod_eq_zero_of_mod_eq hmod.symm
  obtain ⟨k, hk⟩ := Nat.dvd_of_mod_eq_zero hd
  have hkpos : 1 ≤ k := by
    rcases Nat.eq_zero_or_pos k with h | h
    · subst h
      omega
    · exact h
  have hgap : now - now % sw.intervalInMs.toNat
      = (cells old).BucketStart + sw.sampleCount.toNat * sw.intervalInMs.toNat * k := by
    have hq : now / sw.intervalInMs.toNat = qs + sw.sampleCount.toNat * k := by omega
    rw [hbs, hqs, hq]
    ring
  have hWnat : sw.windowSizeInMs = ((sw.sampleCount.toNat * sw.intervalInMs.toNat : Nat) : Int) := by
    rw [hW, Nat.cast_mul, hScast, hIcast]
  have hD2 : 2 * sw.intervalInMs.toNat ≤ sw.sampleCount.toNat * sw.intervalInMs.toNat :=
    Nat.mul_le_mul_right _ (by omega)
  unfold IsUint64 at hu
  unfold IsInt at hI hWint
  refine ⟨_, valuesWithTime_eq sw cells now (le_of_lt hSpos) hlen, ?_⟩
  have hmem : old ∈ liveBuckets (expiredWrapped sw cells now) sw.array now
      ↔ ((cells old).BucketStart : Int)
          = ((now - now % sw.intervalInMs.toNat : Nat) : Int) - sw.windowSizeInMs := by
    rw [mem_liveBuckets hnow]
    unfold expiredWrapped
    rw [hWnat]
    generalize sw.sampleCount.toNat * sw.intervalInMs.toNat = D at hgap hD2 hWnat
    have hle : (cells old).BucketStart ≤ now := by omega
    have hm1 : ((now : Int) - ((cells old).BucketStart : Int)) % 2 ^ 64
        = (now : Int) - ((cells old).BucketStart : Int) :=
      Int.emod_eq_of_lt (by omega) (by omega)
    have hm2 : ((D : Int) + sw.intervalInMs) % 2 ^ 64 = (D : Int) + sw.intervalInMs :=
      Int.emod_eq_of_lt (by omega) (by omega)
    rw [hm1, hm2]
    rcases Nat.eq_or_lt_of_le hkpos with h1 | h2
    · rw [← h1, Nat.mul_one] at hgap
      constructor
      · intro _
        omega
      · intro _
        refine ⟨List.mem_iff_getElem?.2 ⟨_, hslot⟩, ?_⟩
        omega
    · have hk2 : D * 2 ≤ D * k := Nat.mul_le_mul_left _ h2
      generalize D * k = X at hgap hk2
      constructor
      · rintro ⟨-, hne⟩
        omega
      · intro heq
        omega
  refine ⟨hmem, fun h2w hin => ?_⟩
  have heq := hmem.1 hin
  rw [hWnat] at heq h2w
  omega

/-- Witness of C17: five slots of 1000 ms after the call at 1; at `now = 5500`
slot 0 holds the bucket of start `0 = 5000 - 5000`, and the snapshot contains it. -/
theorem rotated_bucket_in_snapshot_iff_witness :
    valuesWithTime (callsOfTimes 1 [1] (mockWindow 5 1000) blankMemory).2.1
        (callsOfTimes 1 [1] (mockWindow 5 1000) blankMemory).2.2.cells 5500
      = some [0] := by
  obtain ⟨l, hl, -, -⟩ := rotated_bucket_in_snapshot_iff
    (callsOfTimes 1 [1] (mockWindow 5 1000) blankMemory).2.1
    (callsOfTimes 1 [1] (mockWindow 5 1000) blankMemory).2.2.cells 5500 0 0
    (by decide) (by decide) (by decide)
    (slot_invariant_below_two_pow_63 0 5 1000 MockGenerator (mockWindow 5 1000)
      blankMemory [1] (NewSliceWindow_mock 5 1000 (by decide) (by decide) (by decide))
      (by decide) (by decide) MockGenerator_lawAbiding MockGenerator_givesPayload
      (by decide)).1
    (by decide) (by decide) (by decide) (by decide) (by decide) (by decide)
  exact hl.trans (hl.symm.trans (by decide))

/-! ## C12: two callers at a rotation boundary -/

/-- A caller that runs alone, taking the two parts of the loop body one after
the other, is `inspect`: the cut after the test of line 63 is the loop of the
source. -/
theorem alone_eq_inspect {V G : Type} (idx : Int) (bucketStart : Nat) (fuel : Nat) :
    ∀ (sw : SliceWindow V G) (mem : Memory V G),
      alone idx bucketStart fuel sw mem = inspect idx bucketStart fuel sw mem := by
  induction fuel with
  | zero => intro sw mem; rfl
  | succ fuel ih =>
    intro sw mem
    by_cases hneg : idx < 0
    · simp [alone, inspect, inspectSlot, hneg]
    · cases hslot : sw.array[idx.toNat]? with
      | none => simp [alone, inspect, inspectSlot, hneg, hslot]
      | some slot =>
        cases slot with
        | none =>
          cases hv : (sw.generator.NewEmptyBucket mem.gen).1 with
          | none => simp [alone, inspect, inspectSlot, hneg, hslot, hv]
          | some x => simp [alone, inspect, inspectSlot, hneg, hslot, hv]
        | some old =>
          by_cases heq : bucketStart = (mem.cells old).BucketStart
          · simp [alone, inspect, inspectSlot, hneg, hslot, heq]
          · by_cases hgt : bucketStart > (mem.cells old).BucketStart
            · cases hcall : callDeprecatedCallbackFunc sw mem with
              | none => simp [alone, inspect, inspectSlot, rotate, hneg, hslot, heq, hgt, hcall]
              | some r =>
                obtain ⟨sw1, mem1⟩ := r
                by_cases hl : sw1.updateLock.locked = true
                · simp [alone, inspect, inspectSlot, rotate, hneg, hslot, heq, hgt, hcall,
                    mutex.TryLock, hl, ih]
                · simp [alone, inspect, inspectSlot, rotate, hneg, hslot, heq, hgt, hcall,
                    mutex.TryLock, hl]
            · simp [alone, inspect, inspectSlot, hneg, hslot, heq, hgt]

/-- C12, at the failing input: on the window of the test (five slots of
1000 ms, mock generator, callback registered, slot 0 holding the bucket of start
0, both locks free), two callers of `currentBucketOfTime(5000)` map to slot 0
with the start 5000.  When one caller runs after the other, `ResetBucketTo` is
called once.  When both callers pass the test of line 63 before either reaches
line 64, the first resets the bucket and releases the update lock, and the
second, which does not make the test again, takes the lock and resets the
bucket a second time: two calls of `ResetBucketTo` for one boundary crossing.
A payload that the first caller stores in the bucket after its return is wiped
by the reset of the second. -/
theorem concurrent_callers_reset_twice :
    testWindow.array[0]? = some (some 0) ∧
    (testMemory.cells 0).BucketStart = 0 ∧
    testWindow.updateLock.locked = false ∧
    calculateTimeIdx testWindow 5000 = some 0 ∧
    5000 - 5000 % toUint64 testWindow.intervalInMs = 5000 ∧
    (runSchedule 0 5000 [true, true, false, false]
        ⟨Pc.top, Pc.top, testWindow, testMemory⟩).first = Pc.returned (Ret.ok (some 0)) ∧
    (runSchedule 0 5000 [true, true, false, false]
        ⟨Pc.top, Pc.top, testWindow, testMemory⟩).second = Pc.returned (Ret.ok (some 0)) ∧
    resetCalls (runSchedule 0 5000 [true, true, false, false]
        ⟨Pc.top, Pc.top, testWindow, testMemory⟩).mem.calls = [(0, 5000)] ∧
    (runSchedule 0 5000 [true, false]
        ⟨Pc.top, Pc.top, testWindow, testMemory⟩).first = Pc.tested 0 ∧
    (runSchedule 0 5000 [true, false]
        ⟨Pc.top, Pc.top, testWindow, testMemory⟩).second = Pc.tested 0 ∧
    (runSchedule 0 5000 [true, false, true]
        ⟨Pc.top, Pc.top, testWindow, testMemory⟩).first = Pc.returned (Ret.ok (some 0)) ∧
    resetCalls (runSchedule 0 5000 [true, false, true]
        ⟨Pc.top, Pc.top, testWindow, testMemory⟩).mem.calls = [(0, 5000)] ∧
    ((runSchedule 0 5000 [true, false, true]
        ⟨Pc.top, Pc.top, testWindow, testMemory⟩).mem.cells 0).BucketStart = 5000 ∧
    (runSchedule 0 5000 [true, false, true]
        ⟨Pc.top, Pc.top, testWindow, testMemory⟩).sw.updateLock.locked = false ∧
    (runSchedule 0 5000 [true, false, true, false]
        ⟨Pc.top, Pc.top, testWindow, testMemory⟩).first = Pc.returned (Ret.ok (some 0)) ∧
    (runSchedule 0 5000 [true, false, true, false]
        ⟨Pc.top, Pc.top, testWindow, testMemory⟩).second = Pc.returned (Ret.ok (some 0)) ∧
    resetCalls (runSchedule 0 5000 [true, false, true, false]
        ⟨Pc.top, Pc.top, testWindow, testMemory⟩).mem.calls = [(0, 5000), (0, 5000)] ∧
    ((storeValue (runSchedule 0 5000 [true, false, true]
        ⟨Pc.top, Pc.top, testWindow, testMemory⟩).mem 0 7).cells 0).Value = some 7 ∧
    ((runSchedule 0 5000 [false]
        { runSchedule 0 5000 [true, false, true] ⟨Pc.top, Pc.top, testWindow, testMemory⟩ with
          mem := storeValue (runSchedule 0 5000 [true, false, true]
            ⟨Pc.top, Pc.top, testWindow, testMemory⟩).mem 0 7 }).mem.cells 0).Value
      = some 0 := by
  decide

end slicewindow
